import Mathlib

/-!
# Socket-like device manager, BLE UART control machine and peripheral managers

A shallow embedding of `generic/src/wsktmgr.c` (device registry and socket pool),
of `generic/src/wbleuart.c` (state handlers and virtual device), and of the
parts of `generic/src/gpsmgr.c`, `generic/src/sensorMgr.c` and
`generic/src/movementMgr.c` that the properties are about, followed by the
properties proved about them.

Conventions of the embedding:
* a C string is a list of byte values; the end of the list stands for the
  terminating NUL, and a 0 inside a list ends the string exactly as in C;
* a pointer into a table is the index of the entry, and `none` is NULL;
* other pointers (function tables, configs, events, queues) are addresses, 0 being NULL;
* a failing `assert` and a call through a NULL pointer end the run (`Res.abort`, `Res.fault`);
* the callbacks of a device driver are outside this file: every operation that
  invokes one takes the value the driver returns as an argument and records the
  invocation in the ghost log `calls`.
-/

namespace Wyres

/-! ## Build-time constants -/

/-- Constants that the sources only name: `MYNEWT_VAL(MAX_WSKT_DEVICES)`,
`MYNEWT_VAL(MAX_WSKTS)` and `MAX_WKST_DNAME_SZ` (wskt_driver.h). -/
structure Config where
  MAX_WSKT_DEVICES : Nat
  MAX_WSKTS : Nat
  MAX_WKST_DNAME_SZ : Nat
deriving Repr, DecidableEq

/-! ## C library functions used by wsktmgr.c -/

/-- The C string held by a byte list: the bytes before the first NUL. -/
def cstr (s : List Nat) : List Nat := s.takeWhile (fun ch => ch != 0)

/-- C `strncmp`: compares at most `n` characters, stopping after a NUL. -/
def strncmp : List Nat → List Nat → Nat → Int
  | _, _, 0 => 0
  | s1, s2, n + 1 =>
    if s1.headD 0 ≠ s2.headD 0 then (s1.headD 0 : Int) - (s2.headD 0 : Int)
    else if s1.headD 0 = 0 then 0
    else strncmp s1.tail s2.tail n

/-- C `strncpy`: the `n` bytes written to the destination (source characters up
to its NUL, then NUL padding; no terminator when the source is `n` or longer). -/
def strncpy : List Nat → Nat → List Nat
  | _, 0 => []
  | src, n + 1 =>
    if src.headD 0 = 0 then List.replicate (n + 1) 0
    else src.headD 0 :: strncpy src.tail n

/-! ## Data model of wsktmgr.c -/

/-- The struct `wskt_device_t`: one registered device. -/
structure wskt_device_t where
  /-- the array `char dname[MAX_WKST_DNAME_SZ]` -/
  dname : List Nat
  /-- address of the driver function table `wskt_devicefns_t*`, 0 is NULL -/
  device_fns : Nat
  /-- address of the driver config `void*`, 0 is NULL -/
  device_cfg : Nat
deriving Repr, DecidableEq

/-- The struct `wskt_t`: one socket of the pool. -/
structure wskt_t where
  /-- the device the socket is bound to (index in `_devices`); `none` marks a free slot -/
  dev : Option Nat
  /-- address of the caller's `struct os_event*` -/
  evt : Nat
  /-- address of the caller's `struct os_eventq*` -/
  eq : Nat
deriving Repr, DecidableEq

/-- Which entry of a driver function table was called. -/
inductive DrvOp where
  | op_open
  | op_ioctl
  | op_write
  | op_close
deriving Repr, DecidableEq

/-- One invocation of a driver callback: the function table it was reached
through, which entry, the pool slot of the socket passed, and the content of
that socket at the time of the call. -/
structure DrvCall where
  fns : Nat
  op : DrvOp
  skt : Nat
  arg : wskt_t
deriving Repr, DecidableEq

/-- The file-scope state of wsktmgr.c, with the ghost log of driver calls. -/
structure WsktMgr where
  /-- the table `static wskt_device_t _devices[MAX_WSKT_DEVICES]` -/
  _devices : List wskt_device_t
  /-- the counter `static uint8_t _devRegIdx` -/
  _devRegIdx : Nat
  /-- the pool `static wskt_t _skts[MAX_WSKTS]` -/
  _skts : List wskt_t
  /-- ghost: driver callbacks invoked so far, oldest first -/
  calls : List DrvCall
deriving Repr, DecidableEq

/-- Outcome of an API call: normal return, failed `assert`, or a call through a NULL pointer. -/
inductive Res (α : Type) where
  | ret (v : α) (st : WsktMgr)
  | abort (st : WsktMgr)
  | fault (st : WsktMgr)
deriving Repr, DecidableEq

/-- The zero-initialised state (both tables are in bss). -/
def init (c : Config) : WsktMgr :=
  { _devices := List.replicate c.MAX_WSKT_DEVICES
      { dname := List.replicate c.MAX_WKST_DNAME_SZ 0, device_fns := 0, device_cfg := 0 }
    _devRegIdx := 0
    _skts := List.replicate c.MAX_WSKTS { dev := none, evt := 0, eq := 0 }
    calls := [] }

/-! ## The functions of wsktmgr.c -/

/-- The duplicate check of `wskt_registerDevice`: the loop over the first `_devRegIdx` entries. -/
def alreadyRegistered (c : Config) (st : WsktMgr) (device_name : List Nat) : Bool :=
  (st._devices.take st._devRegIdx).any
    (fun d => strncmp device_name d.dname c.MAX_WKST_DNAME_SZ == 0)

/-- `wskt_registerDevice(device_name, dfns, dcfg)`. -/
def wskt_registerDevice (c : Config) (st : WsktMgr) (device_name : Option (List Nat))
    (dfns dcfg : Nat) : Res Unit :=
  if ¬ (st._devRegIdx < c.MAX_WSKT_DEVICES) then .abort st
  else match device_name with
    | none => .abort st
    | some name =>
      if alreadyRegistered c st name then .abort st
      else
        .ret ()
          { st with
            _devices := st._devices.set st._devRegIdx
              { dname := strncpy name (c.MAX_WKST_DNAME_SZ - 1) ++ [0]
                device_fns := dfns
                device_cfg := dcfg }
            _devRegIdx := (st._devRegIdx + 1) % 256 }

/-- The test of `wskt_getOpenSockets` on one slot: in use and bound to a device whose name matches. -/
def sktMatches (c : Config) (devs : List wskt_device_t) (device : List Nat) (s : wskt_t) : Bool :=
  match s.dev with
  | none => false
  | some d =>
    match devs[d]? with
    | none => false
    | some dv => strncmp device dv.dname c.MAX_WKST_DNAME_SZ == 0

/-- The loop of `wskt_getOpenSockets` over the slots from index `i` on; `w` is
what has been written to `sbuf` so far (slot indices, in order) and `si` the
running count. Returns the final buffer content and `si`. -/
def getOpenSocketsLoop (c : Config) (devs : List wskt_device_t) (device : List Nat)
    (sbuf : Bool) (bsz : Nat) : List wskt_t → Nat → List Nat → Nat → List Nat × Nat
  | [], _, w, si => (w, si)
  | s :: rest, i, w, si =>
    if sktMatches c devs device s then
      if sbuf then
        if si + 1 ≥ bsz then (w ++ [i], si + 1)
        else getOpenSocketsLoop c devs device sbuf bsz rest (i + 1) (w ++ [i]) (si + 1)
      else getOpenSocketsLoop c devs device sbuf bsz rest (i + 1) w (si + 1)
    else getOpenSocketsLoop c devs device sbuf bsz rest (i + 1) w si

/-- `wskt_getOpenSockets(device, sbuf, bsz)`: `sbuf` tells whether a buffer was
given (non-NULL). Returns the entries written to the buffer and the `uint8_t`
result; `none` when `assert(device!=NULL)` fails. -/
def wskt_getOpenSockets (c : Config) (st : WsktMgr) (device : Option (List Nat))
    (sbuf : Bool) (bsz : Nat) : Option (List Nat × Nat) :=
  match device with
  | none => none
  | some name =>
    let r := getOpenSocketsLoop c st._devices name sbuf bsz st._skts 0 [] 0
    some (r.1, r.2 % 256)

/-- The loop of `findDeviceInst` over the entries from index `i` on. The test
`_devices[i].dname!=NULL` is on an array and always holds. -/
def findDeviceInstFrom (c : Config) (dname : List Nat) : List wskt_device_t → Nat → Option Nat
  | [], _ => none
  | d :: ds, i =>
    if strncmp dname d.dname c.MAX_WKST_DNAME_SZ = 0 then some i
    else findDeviceInstFrom c dname ds (i + 1)

/-- `findDeviceInst(dname)`: scans all `MAX_WSKT_DEVICES` entries of `_devices`. -/
def findDeviceInst (c : Config) (st : WsktMgr) (dname : List Nat) : Option Nat :=
  findDeviceInstFrom c dname st._devices 0

/-- The loop of `allocSocket`: index of the first slot whose `dev` is NULL. -/
def firstFreeFrom : List wskt_t → Nat → Option Nat
  | [], _ => none
  | s :: rest, i => if s.dev = none then some i else firstFreeFrom rest (i + 1)

/-- `allocSocket(dev)`: binds the first free slot to `dev` and returns it. -/
def allocSocket (st : WsktMgr) (dev : Nat) : Option Nat × WsktMgr :=
  match firstFreeFrom st._skts 0 with
  | none => (none, st)
  | some i =>
    (some i, { st with _skts := st._skts.modify (fun s => { s with dev := some dev }) i })

/-- `freeSocket(s)`. -/
def freeSocket (st : WsktMgr) (i : Nat) : WsktMgr :=
  { st with _skts := st._skts.modify (fun s => { s with dev := none }) i }

/-- Modelled from the spec: the macro `WSKT_DEVICE_FNS(skt)` of wskt_driver.h,
which is not among the sources; per the spec a socket's operations go to the
function table of the device it is bound to. `none` when a NULL pointer is
followed (free slot) or the table itself is NULL. -/
def WSKT_DEVICE_FNS (st : WsktMgr) (i : Nat) : Option Nat :=
  match st._skts[i]? with
  | none => none
  | some s =>
    match s.dev with
    | none => none
    | some d =>
      match st._devices[d]? with
      | none => none
      | some dv => if dv.device_fns = 0 then none else some dv.device_fns

/-- Ghost: record one driver callback invocation on slot `i`. -/
def logCall (st : WsktMgr) (fns : Nat) (op : DrvOp) (i : Nat) : WsktMgr :=
  { st with calls := st.calls ++
      [{ fns := fns, op := op, skt := i, arg := st._skts.getD i { dev := none, evt := 0, eq := 0 } }] }

/-- `wskt_open(device_name, evt, eq)`; `drvRet` is what the driver's `open`
returns if it is invoked. The result is the slot of the socket, `none` for NULL. -/
def wskt_open (c : Config) (st : WsktMgr) (device_name : Option (List Nat)) (evt eq : Nat)
    (drvRet : Int) : Res (Option Nat) :=
  match device_name with
  | none => .abort st
  | some name =>
    match findDeviceInst c st name with
    | none => .ret none st
    | some dev =>
      match allocSocket st dev with
      | (none, st1) => .ret none st1
      | (some i, st1) =>
        let st2 : WsktMgr :=
          { st1 with _skts := st1._skts.modify (fun s => { s with evt := evt, eq := eq }) i }
        match WSKT_DEVICE_FNS st2 i with
        | none => .fault st2
        | some fns =>
          let st3 := logCall st2 fns .op_open i
          if drvRet < 0 then .ret none (freeSocket st3 i)
          else .ret (some i) st3

/-- `wskt_ioctl(skt, cmd)`; `drvRet` is what the driver's `ioctl` returns. -/
def wskt_ioctl (st : WsktMgr) (skt : Option Nat) (drvRet : Int) : Res Int :=
  match skt with
  | none => .abort st
  | some i =>
    match WSKT_DEVICE_FNS st i with
    | none => .fault st
    | some fns => .ret drvRet (logCall st fns .op_ioctl i)

/-- `wskt_write(skt, data, sz)`; `drvRet` is what the driver's `write` returns. -/
def wskt_write (st : WsktMgr) (skt : Option Nat) (drvRet : Int) : Res Int :=
  match skt with
  | none => .abort st
  | some i =>
    match WSKT_DEVICE_FNS st i with
    | none => .fault st
    | some fns => .ret drvRet (logCall st fns .op_write i)

/-- `wskt_close(skt, cbfn)`: `skt` is the pointer to the caller's handle (`none`
for a NULL pointer, `some none` for a NULL handle); `drvRet` is what the
driver's `close` returns. Returns the `int` result and the new value of the
caller's handle. -/
def wskt_close (st : WsktMgr) (skt : Option (Option Nat)) (drvRet : Int) :
    Res (Int × Option Nat) :=
  match skt with
  | none => .abort st
  | some none => .abort st
  | some (some i) =>
    match WSKT_DEVICE_FNS st i with
    | none => .fault st
    | some fns =>
      let st1 := logCall st fns .op_close i
      .ret (drvRet, none) (freeSocket st1 i)

/-! ## Client call sequences (specification side) -/

/-- Registers the listed devices (name, function table, config) in order; `none` if a call aborts. -/
def registerAll (c : Config) : WsktMgr → List (List Nat × Nat × Nat) → Option WsktMgr
  | st, [] => some st
  | st, (name, dfns, dcfg) :: rest =>
    match wskt_registerDevice c st (some name) dfns dcfg with
    | .ret _ st1 => registerAll c st1 rest
    | _ => none

/-- One client call: `wskt_open` on a name, or `wskt_close` on a handle (a pool
slot); each carries the value the driver callback returns if it is invoked. -/
inductive ApiCall where
  | callOpen (name : List Nat) (evt eq : Nat) (drvRet : Int)
  | callClose (slot : Nat) (drvRet : Int)
deriving Repr, DecidableEq

/-- A socket a client holds: the handle `wskt_open` returned and the name it was opened on. -/
structure Lease where
  slot : Nat
  name : List Nat
deriving Repr, DecidableEq

/-- Runs a call sequence, keeping beside the manager state the list of sockets
that were successfully opened and not closed since: a successful open adds its
handle and name, an open returning NULL adds nothing, a close removes the
handle it was given. `none` if a call aborts or faults. -/
def runOps (c : Config) : WsktMgr → List Lease → List ApiCall → Option (WsktMgr × List Lease)
  | st, ls, [] => some (st, ls)
  | st, ls, .callOpen name evt eq drvRet :: rest =>
    match wskt_open c st (some name) evt eq drvRet with
    | .ret (some i) st1 => runOps c st1 (ls ++ [{ slot := i, name := name }]) rest
    | .ret none st1 => runOps c st1 ls rest
    | _ => none
  | st, ls, .callClose slot drvRet :: rest =>
    match wskt_close st (some (some slot)) drvRet with
    | .ret _ st1 => runOps c st1 (ls.filter (fun l => l.slot != slot)) rest
    | _ => none

/-- Number of held sockets that were opened on the C string `name`. -/
def openCount (ls : List Lease) (name : List Nat) : Nat :=
  ls.countP (fun l => decide (cstr l.name = cstr name))

/-- Successive `wskt_open` calls on one name, one per listed (evt, eq, driver
result); returns the handles in call order, and `none` unless every call
returned a socket. -/
def openAll (c : Config) (name : List Nat) : WsktMgr → List (Nat × Nat × Int) →
    Option (WsktMgr × List Nat)
  | st, [] => some (st, [])
  | st, (evt, eq, drvRet) :: rest =>
    match wskt_open c st (some name) evt eq drvRet with
    | .ret (some i) st1 =>
      match openAll c name st1 rest with
      | some (st2, hs) => some (st2, i :: hs)
      | none => none
    | _ => none

/-! ## Invariants used in the proofs -/

/-- The function table of device `d`, `none` when the entry is missing or the table is NULL. -/
def devFns (st : WsktMgr) (d : Nat) : Option Nat :=
  match st._devices[d]? with
  | none => none
  | some dv => if dv.device_fns = 0 then none else some dv.device_fns

/-- Every stored device name is a C string shorter than the name array. -/
def DevWF (c : Config) (st : WsktMgr) : Prop :=
  ∀ d ∈ st._devices, (cstr d.dname).length < c.MAX_WKST_DNAME_SZ

/-- The held sockets and the pool agree slot by slot: a free slot has no lease,
a slot in use has exactly one, opened on a name that matches its device. -/
def LeaseInv (c : Config) (st : WsktMgr) (ls : List Lease) : Prop :=
  ∀ i : Nat,
    match st._skts[i]? with
    | none => ls.filter (fun l => l.slot == i) = []
    | some s =>
      match s.dev with
      | none => ls.filter (fun l => l.slot == i) = []
      | some d => ∃ q dv, ls.filter (fun l => l.slot == i) = [{ slot := i, name := q }] ∧
          st._devices[d]? = some dv ∧ strncmp q dv.dname c.MAX_WKST_DNAME_SZ = 0

/-- The pool count of every name equals the number of held sockets opened on it. -/
def CountInv (c : Config) (st : WsktMgr) (ls : List Lease) : Prop :=
  ∀ name : List Nat, st._skts.countP (sktMatches c st._devices name) = openCount ls name

/-- The three invariants of a run. -/
structure Good (c : Config) (st : WsktMgr) (ls : List Lease) : Prop where
  wf : DevWF c st
  lease : LeaseInv c st ls
  count : CountInv c st ls

/-! ## BLE UART control machine (wbleuart.c)

The handlers are embedded as functions on a `World`: the context `_ctx` and a
log of the calls made to other modules. Results of calls whose outcome is
decided outside wbleuart.c come from an `Env`. Logging calls are dropped. -/

/-- The enum `BLEStates`, without its end marker `MS_BLE_LAST`. -/
inductive BLEStates where
  | MS_BLE_OFF
  | MS_BLE_WAITPOWERON
  | MS_BLE_STARTING
  | MS_BLE_WAIT_TYPE_SERIAL
  | MS_BLE_SERIAL_RUNNING
  | MS_BLE_STOPPINGCOMM
deriving Repr, DecidableEq

/-- The end marker `MS_BLE_LAST` of the enum `BLEStates`. -/
def MS_BLE_LAST : Nat := 6

/-- What a state handler returns (`SM_STATE_ID_t`): the sentinel `SM_STATE_CURRENT` or a state id. -/
inductive SM_STATE_ID_t where
  | SM_STATE_CURRENT
  | state (s : BLEStates)
deriving Repr, DecidableEq

/-- The event codes a handler switches on: the three pseudo-events of the
executor, the enum `BLEEvents`, and every other integer code. -/
inductive SmEvent where
  | SM_ENTER
  | SM_EXIT
  | SM_TIMEOUT
  | ME_BLE_ON
  | ME_BLE_OFF
  | ME_BLE_RET_OK
  | ME_BLE_RET_ERR
  | ME_BLE_RET_INT
  | ME_BLE_UPDATE
  | ME_BLE_UART_OK
  | ME_BLE_UART_NOK
  | other (code : Int)
deriving Repr, DecidableEq

/-- Status passed to the user callback (`WBLE_COMM_OK`, `WBLE_COMM_FAIL` of wblemgr.h). -/
inductive WbleStatus where
  | WBLE_COMM_OK
  | WBLE_COMM_FAIL
deriving Repr, DecidableEq

/-- The ioctl commands wbleuart.c issues. -/
inductive IoctlCmd where
  | IOCTL_CHECKTX
  | IOCTL_FLUSHTXRX
  | IOCTL_SET_BAUD
  | IOCTL_SETEOL
  | IOCTL_FILTERASCII
  | IOCTL_SELECTUART
deriving Repr, DecidableEq

/-- The constant `TYPE_SERIAL`. -/
def TYPE_SERIAL : Nat := 1

/-- The string `BLE_CHECK`. -/
def BLE_CHECK : String := "AT+WHO\r\n"

/-- The string `BLE_TYPE_SERIAL`. -/
def BLE_TYPE_SERIAL : String := "AT+TYPE=2\r\n"

/-- The fields of `struct bleuartctx` that the handlers and the device
operations read or write (the receive event, mutex and line buffer are left out). -/
structure bleuartctx where
  mySMId : Nat
  myDevice : Option (List Nat)
  uartDevice : Option (List Nat)
  baudrate : Nat
  /-- an `int8_t`; negative means no power pin -/
  pwrPin : Int
  /-- an `int8_t` -/
  uartSelect : Int
  /-- the real UART socket, `none` for NULL -/
  uartSkt : Option Nat
  lastDataTime : Nat
  /-- the user callback, `none` for NULL -/
  cbfn : Option Nat
  /-- a `uint32_t` -/
  cardType : Nat
deriving Repr, DecidableEq

/-- A call from wbleuart.c into another module, with the arguments that matter. -/
inductive Action where
  | wskt_open (device : List Nat) (result : Option Nat)
  | wskt_close (skt : Nat)
  | wskt_ioctl (skt : Nat) (cmd : IoctlCmd) (param : Int)
  | wskt_write (skt : Nat) (data : String)
  | GPIO_write (pin : Int) (value : Nat)
  | sm_timer_start (id : Nat) (ms : Nat)
  | sm_sendEvent (id : Nat) (e : SmEvent) (data : Nat)
  | cbfn (fn : Nat) (status : WbleStatus)
deriving Repr, DecidableEq

/-- The context together with what the module has done so far: the call log,
the countdown armed by `sm_timer_start`, and the events posted by `sm_sendEvent`
that are not delivered yet. -/
structure World where
  ctx : bleuartctx
  log : List Action
  timer : Option Nat
  posted : List (SmEvent × Nat)
deriving Repr, DecidableEq

/-- Results that are decided outside wbleuart.c during one handler call: what
`wskt_open` on the real UART returns, and what `wskt_ioctl` returns per command. -/
structure Env where
  wskt_open : Option Nat
  wskt_ioctl : IoctlCmd → Int

/-- Outcome of a handler call: it returns a state id, or an `assert` inside a called function fails. -/
inductive HRes where
  | ret (next : SM_STATE_ID_t) (w : World)
  | abort (w : World)
deriving Repr, DecidableEq

/-- Modelled from the spec: `sm_timer_start` of sm_exec (not among the
sources), which "arms (replacing any existing) a single countdown". -/
def sm_timer_start (w : World) (id ms : Nat) : World :=
  { w with timer := some ms, log := w.log ++ [.sm_timer_start id ms] }

/-- Modelled from the spec: `sm_sendEvent` of sm_exec (not among the sources),
which "enqueues an event" for later delivery, in FIFO order. -/
def sm_sendEvent (w : World) (id : Nat) (e : SmEvent) (data : Nat) : World :=
  { w with posted := w.posted ++ [(e, data)], log := w.log ++ [.sm_sendEvent id e data] }

/-- The call `GPIO_write(pin, value)`. -/
def GPIO_write (w : World) (pin : Int) (value : Nat) : World :=
  { w with log := w.log ++ [.GPIO_write pin value] }

/-- The call `(*ctx->cbfn)(status, NULL)` guarded by `ctx->cbfn!=NULL`. -/
def callCbfn (w : World) (status : WbleStatus) : World :=
  match w.ctx.cbfn with
  | none => w
  | some fn => { w with log := w.log ++ [.cbfn fn status] }

/-- The call `wskt_close(&ctx->uartSkt)` guarded by `ctx->uartSkt!=NULL`: the
handle is NULL afterwards. -/
def closeUartSkt (w : World) : World :=
  match w.ctx.uartSkt with
  | none => w
  | some s => { w with ctx := { w.ctx with uartSkt := none }, log := w.log ++ [.wskt_close s] }

/-- The call `wskt_ioctl(ctx->uartSkt, &cmd)`: `none` when `assert(skt!=NULL)` fails. -/
def ioctlUart (env : Env) (w : World) (cmd : IoctlCmd) (param : Int) : Option (Int × World) :=
  match w.ctx.uartSkt with
  | none => none
  | some s => some (env.wskt_ioctl cmd, { w with log := w.log ++ [.wskt_ioctl s cmd param] })

/-- The call `wskt_write(ctx->uartSkt, data, strlen(data))`: `none` when `assert(skt!=NULL)` fails. -/
def writeUart (w : World) (data : String) : Option World :=
  match w.ctx.uartSkt with
  | none => none
  | some s => some { w with log := w.log ++ [.wskt_write s data] }

/-- The handler `State_Off`. -/
def State_Off (_env : Env) (w : World) (e : SmEvent) (_data : Nat) : HRes :=
  match e with
  | .SM_ENTER =>
    let w1 := closeUartSkt w
    let w2 := if w1.ctx.pwrPin ≥ 0 then GPIO_write w1 w1.ctx.pwrPin 1 else w1
    .ret .SM_STATE_CURRENT w2
  | .SM_EXIT => .ret .SM_STATE_CURRENT w
  | .SM_TIMEOUT => .ret (.state .MS_BLE_OFF) w
  | .ME_BLE_ON => .ret (.state .MS_BLE_WAITPOWERON) w
  | _ => .ret .SM_STATE_CURRENT w

/-- The TIMEOUT branch of `State_WaitPoweron`: the ioctl sequence. -/
def waitPoweronTimeout (env : Env) (w : World) : HRes :=
  match ioctlUart env w .IOCTL_CHECKTX 0 with
  | none => .abort w
  | some (pending, w1) =>
    let flushed : Option World :=
      if pending ≠ 0 then (ioctlUart env w1 .IOCTL_FLUSHTXRX 0).map (fun p => p.2) else some w1
    match flushed with
    | none => .abort w1
    | some w2 =>
      match ioctlUart env w2 .IOCTL_SET_BAUD w2.ctx.baudrate with
      | none => .abort w2
      | some (_, w3) =>
        match ioctlUart env w3 .IOCTL_SETEOL 10 with
        | none => .abort w3
        | some (_, w4) =>
          match ioctlUart env w4 .IOCTL_FILTERASCII 1 with
          | none => .abort w4
          | some (_, w5) =>
            match ioctlUart env w5 .IOCTL_SELECTUART w5.ctx.uartSelect with
            | none => .abort w5
            | some (_, w6) => .ret (.state .MS_BLE_STARTING) w6

/-- The handler `State_WaitPoweron`. -/
def State_WaitPoweron (env : Env) (w : World) (e : SmEvent) (_data : Nat) : HRes :=
  match e with
  | .SM_ENTER =>
    match w.ctx.uartDevice with
    | none => .abort w
    | some dn =>
      let w1 : World :=
        { w with ctx := { w.ctx with uartSkt := env.wskt_open },
                 log := w.log ++ [.wskt_open dn env.wskt_open] }
      if w1.ctx.uartSkt = none then
        .ret .SM_STATE_CURRENT (sm_sendEvent w1 w1.ctx.mySMId .ME_BLE_UART_NOK 0)
      else
        let w2 := if w1.ctx.pwrPin < 0 then w1 else GPIO_write w1 w1.ctx.pwrPin 0
        .ret .SM_STATE_CURRENT (sm_timer_start w2 w2.ctx.mySMId 500)
  | .SM_EXIT => .ret .SM_STATE_CURRENT w
  | .SM_TIMEOUT => waitPoweronTimeout env w
  | .ME_BLE_UART_NOK => .ret (.state .MS_BLE_OFF) (callCbfn w .WBLE_COMM_FAIL)
  | .ME_BLE_UART_OK => .ret .SM_STATE_CURRENT w
  | .ME_BLE_RET_OK => .ret .SM_STATE_CURRENT w
  | .ME_BLE_OFF => .ret (.state .MS_BLE_OFF) w
  | _ => .ret .SM_STATE_CURRENT w

/-- The handler `State_Starting`. -/
def State_Starting (_env : Env) (w : World) (e : SmEvent) (data : Nat) : HRes :=
  match e with
  | .SM_ENTER =>
    match writeUart w BLE_CHECK with
    | none => .abort w
    | some w1 => .ret .SM_STATE_CURRENT (sm_timer_start w1 w1.ctx.mySMId 1000)
  | .SM_EXIT => .ret .SM_STATE_CURRENT w
  | .SM_TIMEOUT => .ret (.state .MS_BLE_OFF) (callCbfn w .WBLE_COMM_FAIL)
  | .ME_BLE_RET_OK =>
    match writeUart w BLE_CHECK with
    | none => .abort w
    | some w1 => .ret .SM_STATE_CURRENT w1
  | .ME_BLE_RET_INT =>
    let w1 : World := { w with ctx := { w.ctx with cardType := data % 2 ^ 32 } }
    if w1.ctx.cardType ≠ TYPE_SERIAL then .ret (.state .MS_BLE_WAIT_TYPE_SERIAL) w1
    else .ret (.state .MS_BLE_SERIAL_RUNNING) (callCbfn w1 .WBLE_COMM_OK)
  | .ME_BLE_OFF => .ret (.state .MS_BLE_OFF) w
  | _ => .ret .SM_STATE_CURRENT w

/-- The handler `State_WaitTypeSetSerial`. -/
def State_WaitTypeSetSerial (_env : Env) (w : World) (e : SmEvent) (_data : Nat) : HRes :=
  match e with
  | .SM_ENTER =>
    let w1 := sm_timer_start w w.ctx.mySMId 500
    match writeUart w1 BLE_TYPE_SERIAL with
    | none => .abort w1
    | some w2 => .ret .SM_STATE_CURRENT w2
  | .SM_EXIT => .ret .SM_STATE_CURRENT w
  | .SM_TIMEOUT =>
    .ret (.state .MS_BLE_SERIAL_RUNNING) { w with ctx := { w.ctx with cardType := TYPE_SERIAL } }
  | .ME_BLE_RET_OK =>
    .ret (.state .MS_BLE_SERIAL_RUNNING) { w with ctx := { w.ctx with cardType := TYPE_SERIAL } }
  | .ME_BLE_OFF => .ret (.state .MS_BLE_OFF) w
  | _ => .ret .SM_STATE_CURRENT w

/-- The handler `State_SerialRunning`. -/
def State_SerialRunning (_env : Env) (w : World) (e : SmEvent) (_data : Nat) : HRes :=
  match e with
  | .SM_ENTER => .ret .SM_STATE_CURRENT w
  | .SM_EXIT => .ret .SM_STATE_CURRENT w
  | .SM_TIMEOUT => .ret .SM_STATE_CURRENT w
  | .ME_BLE_OFF => .ret (.state .MS_BLE_STOPPINGCOMM) w
  | .ME_BLE_RET_OK => .ret .SM_STATE_CURRENT w
  | .ME_BLE_RET_ERR => .ret .SM_STATE_CURRENT w
  | _ => .ret .SM_STATE_CURRENT w

/-- The handler `State_StoppingComm`. -/
def State_StoppingComm (_env : Env) (w : World) (e : SmEvent) (_data : Nat) : HRes :=
  match e with
  | .SM_ENTER => .ret .SM_STATE_CURRENT (sm_timer_start w w.ctx.mySMId 500)
  | .SM_EXIT => .ret .SM_STATE_CURRENT w
  | .SM_TIMEOUT => .ret (.state .MS_BLE_OFF) (closeUartSkt w)
  | .ME_BLE_OFF => .ret (.state .MS_BLE_OFF) (closeUartSkt w)
  | .ME_BLE_ON => .ret (.state .MS_BLE_SERIAL_RUNNING) (callCbfn w .WBLE_COMM_OK)
  | _ => .ret .SM_STATE_CURRENT w

/-- One entry of a state table (`SM_STATE_t`). -/
structure SM_STATE_t where
  id : BLEStates
  name : String
  fn : Env → World → SmEvent → Nat → HRes

/-- The state table `_bleSM`, in the order of the source. -/
def _bleSM : List SM_STATE_t :=
  [ { id := .MS_BLE_OFF, name := "BleOff", fn := State_Off },
    { id := .MS_BLE_WAITPOWERON, name := "BleWaitPower", fn := State_WaitPoweron },
    { id := .MS_BLE_WAIT_TYPE_SERIAL, name := "BleWaitTypeSerial", fn := State_WaitTypeSetSerial },
    { id := .MS_BLE_STARTING, name := "BleStarting", fn := State_Starting },
    { id := .MS_BLE_SERIAL_RUNNING, name := "BleSerialRunning", fn := State_SerialRunning },
    { id := .MS_BLE_STOPPINGCOMM, name := "BleStopping", fn := State_StoppingComm } ]

/-! ## The FSM executor (sm_exec), from the spec -/

/-- Modelled from the spec: a State Machine Instance of sm_exec (not among the
sources): the state table, the current state and the owner context (here the
`World`); `history` is a ghost list of the states landed on, oldest first. -/
structure Machine where
  state_table : List SM_STATE_t
  current_state : BLEStates
  w : World
  history : List BLEStates

/-- Modelled from the spec: the executor of sm_exec (not among the sources)
finds a state's handler by the `id` field of the state table. -/
def sm_handler (tbl : List SM_STATE_t) (id : BLEStates) :
    Option (Env → World → SmEvent → Nat → HRes) :=
  (tbl.find? (fun s => s.id == id)).map (fun s => s.fn)

/-- Modelled from the spec: how the executor of sm_exec (not among the sources)
processes one event. The handler of the current state gets the event; on
`SM_STATE_CURRENT` nothing else happens; on any other state id the old state
gets EXIT (its result is ignored), `current_state` is updated and the new state
gets ENTER. Delivering TIMEOUT consumes the armed countdown. `none` when a
handler aborts or a state has no table entry. -/
def sm_process (env : Env) (m : Machine) (e : SmEvent) (data : Nat) : Option Machine :=
  let w0 : World := if e = .SM_TIMEOUT then { m.w with timer := none } else m.w
  match sm_handler m.state_table m.current_state with
  | none => none
  | some h =>
    match h env w0 e data with
    | .abort _ => none
    | .ret .SM_STATE_CURRENT w1 => some { m with w := w1 }
    | .ret (.state next) w1 =>
      match h env w1 .SM_EXIT data with
      | .abort _ => none
      | .ret _ w2 =>
        match sm_handler m.state_table next with
        | none => none
        | some h2 =>
          match h2 env w2 .SM_ENTER data with
          | .abort _ => none
          | .ret _ w3 =>
            some { m with current_state := next, w := w3, history := m.history ++ [next] }

/-- Modelled from the spec: events are processed one at a time, in the order
given; each comes with the `Env` in force while it is processed. -/
def sm_run : Machine → List (Env × SmEvent × Nat) → Option Machine
  | m, [] => some m
  | m, (env, e, data) :: rest =>
    match sm_process env m e data with
    | none => none
    | some m1 => sm_run m1 rest

/-- The user callback invocations in a log, oldest first. -/
def callbacks (log : List Action) : List (Nat × WbleStatus) :=
  log.filterMap (fun a => match a with
    | .cbfn fn status => some (fn, status)
    | _ => none)

/-- A BLE machine in state `s` with context `ctx`, an empty log, no countdown and no posted event. -/
def bleMachine (s : BLEStates) (ctx : bleuartctx) : Machine :=
  { state_table := _bleSM, current_state := s
    w := { ctx := ctx, log := [], timer := none, posted := [] }
    history := [] }

/-- Modelled from the spec: `sm_start` of sm_exec (not among the sources), which
"delivers ENTER to initial_state"; the machine given is in its initial state. -/
def sm_start (env : Env) (m : Machine) : Option Machine :=
  match sm_handler m.state_table m.current_state with
  | none => none
  | some h =>
    match h env m.w .SM_ENTER 0 with
    | .abort _ => none
    | .ret _ w1 => some { m with w := w1, history := m.history ++ [m.current_state] }

/-! ## The BLE machine as a virtual device (wbleuart.c) -/

/-- The result code `SKT_NOERR` of the wskt headers, which are not among the
sources; its value is taken as 0. -/
def SKT_NOERR : Int := 0

/-- The device operation `bleuart_line_close(skt)`: `mgr` is the state of the
socket manager when the operation runs and `w` holds the context that the
device config points to. `none` when `assert(device!=NULL)` fails in
`wskt_getOpenSockets`. -/
def bleuart_line_close (c : Config) (mgr : WsktMgr) (w : World) : Option (Int × World) :=
  match wskt_getOpenSockets c mgr w.ctx.myDevice false 0 with
  | none => none
  | some (_, n) =>
    if n ≤ 1 then some (SKT_NOERR, sm_sendEvent w w.ctx.mySMId .ME_BLE_OFF 0)
    else some (SKT_NOERR, w)

/-- The handler that the table `_bleSM` pairs with each state id. -/
def bleHandler : BLEStates → Env → World → SmEvent → Nat → HRes
  | .MS_BLE_OFF => State_Off
  | .MS_BLE_WAITPOWERON => State_WaitPoweron
  | .MS_BLE_STARTING => State_Starting
  | .MS_BLE_WAIT_TYPE_SERIAL => State_WaitTypeSetSerial
  | .MS_BLE_SERIAL_RUNNING => State_SerialRunning
  | .MS_BLE_STOPPINGCOMM => State_StoppingComm

/-- The event codes each handler has a `case` label for, in the order of the source. -/
def explicitCases : BLEStates → List SmEvent
  | .MS_BLE_OFF => [.SM_ENTER, .SM_EXIT, .SM_TIMEOUT, .ME_BLE_ON]
  | .MS_BLE_WAITPOWERON =>
    [.SM_ENTER, .SM_EXIT, .SM_TIMEOUT, .ME_BLE_UART_NOK, .ME_BLE_UART_OK, .ME_BLE_RET_OK,
      .ME_BLE_OFF]
  | .MS_BLE_STARTING =>
    [.SM_ENTER, .SM_EXIT, .SM_TIMEOUT, .ME_BLE_RET_OK, .ME_BLE_RET_INT, .ME_BLE_OFF]
  | .MS_BLE_WAIT_TYPE_SERIAL => [.SM_ENTER, .SM_EXIT, .SM_TIMEOUT, .ME_BLE_RET_OK, .ME_BLE_OFF]
  | .MS_BLE_SERIAL_RUNNING =>
    [.SM_ENTER, .SM_EXIT, .SM_TIMEOUT, .ME_BLE_OFF, .ME_BLE_RET_OK, .ME_BLE_RET_ERR]
  | .MS_BLE_STOPPINGCOMM => [.SM_ENTER, .SM_EXIT, .SM_TIMEOUT, .ME_BLE_OFF, .ME_BLE_ON]

/-- The world a handler call ends with, whether it returns or an assert stops it. -/
def HRes.world : HRes → World
  | .ret _ w => w
  | .abort w => w

/-- The receive callback `wbleuart_rxcb(ev)`: `line` is `ev->ev_arg`. After
`assert(line!=NULL)` the body is a TODO: nothing is parsed, posted or changed.
`none` when the assert fails. -/
def wbleuart_rxcb (w : World) (line : Option (List Nat)) : Option World :=
  match line with
  | none => none
  | some _ => some w

/-- C `strcmp`. -/
def strcmp : List Nat → List Nat → Int
  | [], s2 => 0 - (s2.headD 0 : Int)
  | ch :: s1, s2 =>
    if ch ≠ s2.headD 0 then (ch : Int) - (s2.headD 0 : Int)
    else if ch = 0 then 0
    else strcmp s1 s2.tail

/-- The file-scope state of wbleuart.c together with the modules it sets up:
the context and call log, the socket manager, the state machines created by
`sm_init` (id and current state) and the pins defined by `GPIO_define_out` (pin
and initial value). -/
structure BleSys where
  w : World
  mgr : WsktMgr
  machines : List (Nat × BLEStates)
  pins : List (Int × Nat)
deriving Repr, DecidableEq

/-- The state before `bleuart_line_comm_create`: `_ctx` is in bss, all zero. -/
def bleSys0 (mgr : WsktMgr) : BleSys :=
  { w := { ctx := { mySMId := 0, myDevice := none, uartDevice := none, baudrate := 0,
                    pwrPin := 0, uartSelect := 0, uartSkt := none, lastDataTime := 0,
                    cbfn := none, cardType := 0 }
           log := [], timer := none, posted := [] }
    mgr := mgr, machines := [], pins := [] }

/-- Outcome of `bleuart_line_comm_create`: the bool it returns, or a failed assert. -/
inductive CreateRes where
  | ret (v : Bool) (s : BleSys)
  | abort (s : BleSys)
deriving Repr, DecidableEq

/-- The function `bleuart_line_comm_create(dname, uartdname, baud, baudrate,
pwrPin, uartSelect)`. `fnsAddr` and `ctxAddr` are the addresses of `_myDevice`
and `_ctx`. The id `sm_init` returns is modelled from the spec ("init(...) ->
instance_id") as the number of machines created before; `sm_start` delivers
ENTER to the initial state Off. The parameter `baud` is not used by the source. -/
def bleuart_line_comm_create (c : Config) (env : Env) (s : BleSys) (fnsAddr ctxAddr : Nat)
    (dname uartdname : Option (List Nat)) (_baud baudrate : Nat) (pwrPin uartSelect : Int) :
    CreateRes :=
  match s.w.ctx.uartDevice with
  | some u =>
    match dname with
    | none => .abort s
    | some d => if strcmp u d = 0 then .ret true s else .abort s
  | none =>
    let pins1 := if pwrPin ≥ 0 then s.pins ++ [(pwrPin, 1)] else s.pins
    let id := s.machines.length
    let w1 : World :=
      { s.w with ctx := { s.w.ctx with myDevice := dname, uartDevice := uartdname,
                                       baudrate := baudrate, uartSelect := uartSelect,
                                       pwrPin := pwrPin, mySMId := id } }
    match sm_start env { state_table := _bleSM, current_state := .MS_BLE_OFF, w := w1,
                         history := [] } with
    | none => .abort { s with w := w1, pins := pins1 }
    | some m =>
      let s2 : BleSys :=
        { s with w := m.w, pins := pins1, machines := s.machines ++ [(id, m.current_state)] }
      match wskt_registerDevice c s2.mgr w1.ctx.myDevice fnsAddr ctxAddr with
      | .ret _ mgr1 => .ret true { s2 with mgr := mgr1 }
      | .abort _ => .abort s2
      | .fault _ => .abort s2

/-- A handler that records each event it is given (as a log entry carrying its
own number, the event and the data) and answers with `next`; used to observe
which deliveries the executor makes, and in which order. -/
def recordingHandler (self : Nat) (next : SmEvent → SM_STATE_ID_t) :
    Env → World → SmEvent → Nat → HRes :=
  fun _ w e data => .ret (next e) { w with log := w.log ++ [.sm_sendEvent self e data] }

/-- A two-state table of recording handlers: in Off, turn-on maps to Starting and
every other event to `SM_STATE_CURRENT`; Starting maps every event to `SM_STATE_CURRENT`. -/
def recordingTable : List SM_STATE_t :=
  [ { id := .MS_BLE_OFF, name := "A"
      fn := recordingHandler 0
        (fun e => if e = .ME_BLE_ON then .state .MS_BLE_STARTING else .SM_STATE_CURRENT) },
    { id := .MS_BLE_STARTING, name := "B", fn := recordingHandler 2 (fun _ => .SM_STATE_CURRENT) } ]

/-! ## GPS manager (gpsmgr.c)

The minmea library is outside the repository: its functions are an oracle. -/

/-- The value of a C `int` expression stored in 32 bits (two's complement wrap). -/
def wrap32 (x : Int) : Int := (x + 2 ^ 31) % 2 ^ 32 - 2 ^ 31

/-- C `strnlen(s, n)`. -/
def strnlen (s : List Nat) (n : Nat) : Nat := min (cstr s).length n

/-- The results of `minmea_sentence_id` that `parseNEMA` has a case for, and the
others (reaching `default`). The result is an enumerator of `enum minmea_sentence_id`;
the local `int8_t si` that receives it is taken to hold each enumerator as it is. -/
inductive SentenceId where
  | MINMEA_INVALID
  | MINMEA_SENTENCE_GGA
  | MINMEA_SENTENCE_RMC
  | other (id : Int)
deriving Repr, DecidableEq

/-- The struct `minmea_float`. -/
structure minmea_float where
  value : Int
  scale : Int
deriving Repr, DecidableEq

/-- The fields of `struct minmea_sentence_gga` that `parseNEMA` reads. -/
structure minmea_sentence_gga where
  latitude : minmea_float
  longitude : minmea_float
  altitude : minmea_float
  hdop : minmea_float
  fix_quality : Int
  satellites_tracked : Int
deriving Repr, DecidableEq

/-- The field of `struct minmea_sentence_rmc` that `parseNEMA` reads. -/
structure minmea_sentence_rmc where
  valid : Bool
deriving Repr, DecidableEq

/-- The minmea functions as an oracle on lines (called with `strict = true`);
a parse function gives `none` when it returns false. -/
structure Minmea where
  minmea_check : List Nat → Bool
  minmea_sentence_id : List Nat → SentenceId
  minmea_parse_gga : List Nat → Option minmea_sentence_gga
  minmea_parse_rmc : List Nat → Option minmea_sentence_rmc

/-- The struct `gps_data_t` (gpsmgr.h, not among the sources): its fields are
taken as integers that hold the values assigned to them. -/
structure gps_data_t where
  lat : Int
  lon : Int
  alt : Int
  prec : Int
  nSats : Int
  rxAt : Nat
deriving Repr, DecidableEq

/-- The function `parseNEMA(line, nd)`: returns the bool and the content of `*nd`
afterwards; `nd` is its content before (an uninitialised local of the caller). -/
def parseNEMA (mm : Minmea) (line : List Nat) (nd : gps_data_t) : Bool × gps_data_t :=
  if ¬ mm.minmea_check line then (false, nd)
  else
    match mm.minmea_sentence_id line with
    | .MINMEA_SENTENCE_GGA =>
      match mm.minmea_parse_gga line with
      | some ggadata =>
        if ggadata.fix_quality > 0 then
          let nd1 : gps_data_t :=
            { nd with lat := ggadata.latitude.value, lon := ggadata.longitude.value,
                      alt := ggadata.altitude.value, nSats := ggadata.satellites_tracked,
                      prec := wrap32 (ggadata.hdop.value * 2) }
          if nd1.prec < 1 then (true, { nd1 with prec := 5 }) else (true, nd1)
        else (true, { nd with prec := 0 })
      | none => (true, { nd with prec := 0 })
    | .MINMEA_INVALID => (false, nd)
    | .MINMEA_SENTENCE_RMC => (true, { nd with prec := 0 })
    | .other _ => (true, { nd with prec := 0 })

/-- The events passed to the GPS callback. -/
inductive GpsEvent where
  | GPS_COMM_FAIL
  | GPS_COMM_OK
  | GPS_NEWFIX
deriving Repr, DecidableEq

/-- The fields of the GPS `_ctx` that `gps_start` and `gps_mgr_rxcb` read or
write, and `cbs`, the callback invocations so far (callback address and event). -/
structure GpsCtx where
  gpsData : gps_data_t
  cbfn : Option Nat
  commOk : Bool
  cbs : List (Nat × GpsEvent)
deriving Repr, DecidableEq

/-- The call `(*_ctx.cbfn)(ev)` guarded by `_ctx.cbfn!=NULL`. -/
def gpsCallback (g : GpsCtx) (ev : GpsEvent) : GpsCtx :=
  match g.cbfn with
  | none => g
  | some fn => { g with cbs := g.cbs ++ [(fn, ev)] }

/-- The receive callback `gps_mgr_rxcb(ev)`: `line` is `ev->ev_arg`, `now` what
`TMMgr_getRelTime()` returns and `newdata` the uninitialised local. `none` when
`assert(line!=NULL)` fails. -/
def gps_mgr_rxcb (mm : Minmea) (now : Nat) (g : GpsCtx) (line : Option (List Nat))
    (newdata : gps_data_t) : Option GpsCtx :=
  match line with
  | none => none
  | some ln =>
    if strnlen ln 10 < 10 then some g
    else
      match parseNEMA mm ln newdata with
      | (false, _) =>
        if g.commOk then some (gpsCallback { g with commOk := false } .GPS_COMM_FAIL)
        else some g
      | (true, nd) =>
        if nd.prec > 0 then
          some (gpsCallback
            { g with gpsData := { g.gpsData with lat := nd.lat, lon := nd.lon, alt := nd.alt,
                                                 prec := nd.prec, nSats := nd.nSats,
                                                 rxAt := now } }
            .GPS_NEWFIX)
        else if ¬ g.commOk then some (gpsCallback { g with commOk := true } .GPS_COMM_OK)
        else some g

/-- A minmea oracle that accepts every line as a GGA sentence with a fix:
hdop 12, 7 satellites. -/
def ggaOracle : Minmea where
  minmea_check := fun _ => true
  minmea_sentence_id := fun _ => .MINMEA_SENTENCE_GGA
  minmea_parse_gga := fun _ =>
    some { latitude := ⟨451110189, 1⟩, longitude := ⟨54233219, 1⟩, altitude := ⟨1937, 10⟩,
           hdop := ⟨12, 10⟩, fix_quality := 1, satellites_tracked := 7 }
  minmea_parse_rmc := fun _ => none

/-- The initial value of `_ctx.gpsData` (`prec = -1`, `rxAt = 0`, the rest zero). -/
def gpsData0 : gps_data_t :=
  { lat := 0, lon := 0, alt := 0, prec := -1, nSats := 0, rxAt := 0 }

/-! ## Sensor manager (sensorMgr.c) -/

/-- The function `delta(int a, int b)`: the difference converted to `uint32_t`. -/
def delta (a b : Int) : Nat :=
  if a > b then ((a - b) % 2 ^ 32).toNat else ((b - a) % 2 ^ 32).toNat

/-- The fields of the sensor `_ctx` that the change predicates and
`SRMgr_updateEnvs` read or write. -/
structure SensorCtx where
  lastSignificantChangeTS : Nat
  currButtonState : Nat
  lastButtonState : Nat
  currTempdC : Int
  currBattmV : Nat
  currPressurePa : Nat
  currLight : Nat
  lastTempdC : Int
  lastBattmV : Nat
  lastPressurePa : Nat
  lastLight : Nat
  currADC1mV : Nat
  currADC2mV : Nat
  lastADC1mV : Nat
  lastADC2mV : Nat
deriving Repr, DecidableEq

def SRMgr_hasButtonChanged (c : SensorCtx) : Bool :=
  c.currButtonState != c.lastButtonState

def SRMgr_hasTempChanged (c : SensorCtx) : Bool :=
  delta c.currTempdC c.lastTempdC > 2

/-- The pressure fields are `uint32_t` and `delta` takes `int`: the conversion is `wrap32`. -/
def SRMgr_hasPressureChanged (c : SensorCtx) : Bool :=
  delta (wrap32 c.currPressurePa) (wrap32 c.lastPressurePa) > 10

def SRMgr_hasBattChanged (c : SensorCtx) : Bool :=
  delta c.currBattmV c.lastBattmV > 50

def SRMgr_hasLightChanged (c : SensorCtx) : Bool :=
  delta c.currLight c.lastLight > 2

def SRMgr_hasADC1Changed (c : SensorCtx) : Bool :=
  delta c.currADC1mV c.lastADC1mV > 50

def SRMgr_hasADC2Changed (c : SensorCtx) : Bool :=
  delta c.currADC2mV c.lastADC2mV > 50

/-- The function `SRMgr_updateEnvs()`: the pair is the local `changed` and `_ctx`
after each `if` of the source in turn; `now` is what `TMMgr_getRelTime()` returns. -/
def SRMgr_updateEnvs (now : Nat) (c : SensorCtx) : Bool × SensorCtx :=
  let s0 : Bool × SensorCtx := (false, c)
  let s1 := if SRMgr_hasBattChanged s0.2 then
    (true, { s0.2 with lastBattmV := s0.2.currBattmV }) else s0
  let s2 := if SRMgr_hasLightChanged s1.2 then
    (true, { s1.2 with lastLight := s1.2.currLight }) else s1
  let s3 := if SRMgr_hasTempChanged s2.2 then
    (true, { s2.2 with lastTempdC := s2.2.currTempdC }) else s2
  let s4 := if SRMgr_hasPressureChanged s3.2 then
    (true, { s3.2 with lastPressurePa := s3.2.currPressurePa }) else s3
  let s5 := if SRMgr_hasADC1Changed s4.2 then
    (true, { s4.2 with lastADC1mV := s4.2.currADC1mV }) else s4
  let s6 := if SRMgr_hasADC2Changed s5.2 then
    (true, { s5.2 with lastADC2mV := s5.2.currADC2mV }) else s5
  let s7 := if SRMgr_hasButtonChanged s6.2 then
    (true, { s6.2 with lastButtonState := s6.2.currButtonState }) else s6
  if s7.1 then (s7.1, { s7.2 with lastSignificantChangeTS := now }) else s7

/-- The seven change predicates, in the order `SRMgr_updateEnvs` tests them. -/
def changePredicates : List (SensorCtx → Bool) :=
  [SRMgr_hasBattChanged, SRMgr_hasLightChanged, SRMgr_hasTempChanged,
   SRMgr_hasPressureChanged, SRMgr_hasADC1Changed, SRMgr_hasADC2Changed,
   SRMgr_hasButtonChanged]

/-- The value of each enumerator of `enum BLEStates`. -/
def BLEStates.toNat : BLEStates → Nat
  | .MS_BLE_OFF => 0
  | .MS_BLE_WAITPOWERON => 1
  | .MS_BLE_STARTING => 2
  | .MS_BLE_WAIT_TYPE_SERIAL => 3
  | .MS_BLE_SERIAL_RUNNING => 4
  | .MS_BLE_STOPPINGCOMM => 5

/-- The result code `SKT_NODEV` of the wskt headers, which are not among the
sources; its value is taken as -1 (only its difference from `SKT_NOERR` matters). -/
def SKT_NODEV : Int := -1

/-- The device operation `bleuart_line_open(skt)`: `w` holds the context that
the device config of `skt` points to. -/
def bleuart_line_open (w : World) : Int × World :=
  (SKT_NOERR, sm_sendEvent w w.ctx.mySMId .ME_BLE_ON 0)

/-- The device operation `bleuart_line_ioctl(skt, cmd)`: the command and its
parameter are not looked at; after the test of `uartSkt` the body is a TODO. -/
def bleuart_line_ioctl (w : World) (_cmd : Int) (_param : Int) : Int × World :=
  if w.ctx.uartSkt = none then (SKT_NODEV, w) else (SKT_NOERR, w)

/-- The device operation `bleuart_line_write(skt, data, sz)`: the bytes are not
looked at; after the test of `uartSkt` the body is a TODO. -/
def bleuart_line_write (w : World) (_data : List Nat) (_sz : Nat) : Int × World :=
  if w.ctx.uartSkt = none then (SKT_NODEV, w) else (SKT_NOERR, w)

/-- The state an API call of wsktmgr.c ends in, whatever its outcome. -/
def Res.state {α : Type} : Res α → WsktMgr
  | .ret _ st => st
  | .abort st => st
  | .fault st => st

/-- The enum `MM_ORIENT` of movementmgr.h (not among the sources): the five
enumerators that movementMgr.c uses. -/
inductive MM_ORIENT where
  | UNKNOWN
  | UPRIGHT
  | INVERTED
  | FLAT_FACE
  | FLAT_BACK
deriving Repr, DecidableEq

/-- The last accelerometer reading kept in the `_ctx` of movementMgr.c: three `int8_t`. -/
structure MovementCtx where
  x : Int
  y : Int
  z : Int
deriving Repr, DecidableEq

/-- The function `MMMgr_getOrientation()`. -/
def MMMgr_getOrientation (c : MovementCtx) : MM_ORIENT :=
  if c.x > 0 ∧ c.x > c.y ∧ c.x > c.z then .UPRIGHT
  else if c.x < 0 ∧ c.x < c.y ∧ c.x < c.z then .INVERTED
  else if c.y > 0 ∧ c.y > c.x ∧ c.y > c.z then .FLAT_FACE
  else if c.y < 0 ∧ c.y < c.x ∧ c.y < c.z then .FLAT_BACK
  else .UNKNOWN

/-- The four conditions of `MMMgr_getOrientation`, in the order of the source. -/
def orientConditions (c : MovementCtx) : List Bool :=
  [decide (c.x > 0 ∧ c.x > c.y ∧ c.x > c.z), decide (c.x < 0 ∧ c.x < c.y ∧ c.x < c.z),
   decide (c.y > 0 ∧ c.y > c.x ∧ c.y > c.z), decide (c.y < 0 ∧ c.y < c.x ∧ c.y < c.z)]

/-- Whether a value is an `int8_t`. -/
def isInt8 (v : Int) : Bool := decide (-128 ≤ v ∧ v ≤ 127)

/-- The function `gps_start(cbfn)` on the fields of `GpsCtx`: it stores the
callback and clears `commOk`; `cnx` is what `wskt_open` returns, and the result
is `none` when `assert(_ctx.cnx!=NULL)` fails. The power pin, the UART selection
and the commands written to the GPS do not touch these fields and are left out. -/
def gps_start (g : GpsCtx) (cbfn : Option Nat) (cnx : Option Nat) : Option GpsCtx :=
  match cnx with
  | none => none
  | some _ => some { g with cbfn := cbfn, commOk := false }

/-- Successive calls of `gps_mgr_rxcb`, one per received line; each comes with
the time of the call and the content of the uninitialised local. The line
pointer is `_ctx.rxbuf`, never NULL. -/
def gps_rx_run (mm : Minmea) : GpsCtx → List (Nat × List Nat × gps_data_t) → Option GpsCtx
  | g, [] => some g
  | g, (now, line, junk) :: rest =>
    match gps_mgr_rxcb mm now g (some line) junk with
    | none => none
    | some g1 => gps_rx_run mm g1 rest

/-- The events of a list of callback invocations, without the `GPS_NEWFIX` ones. -/
def commReports (cbs : List (Nat × GpsEvent)) : List GpsEvent :=
  (cbs.map (fun p => p.2)).filter (fun ev => ev != .GPS_NEWFIX)

/-- Whether a list of comm reports strictly alternates, given whether the last
report before it was `GPS_COMM_OK` (`ok`): the next one must be `GPS_COMM_FAIL`
after an OK and `GPS_COMM_OK` otherwise. -/
def alternates : Bool → List GpsEvent → Bool
  | _, [] => true
  | ok, .GPS_COMM_OK :: rest => !ok && alternates true rest
  | ok, .GPS_COMM_FAIL :: rest => ok && alternates false rest
  | ok, .GPS_NEWFIX :: rest => alternates ok rest

/-- A minmea oracle for examples: a line passes the check when it starts with
'$'; it is a GGA sentence with a fix (hdop 12, 7 satellites) when its second
character is 'G', and a sentence of another kind otherwise. -/
def testOracle : Minmea where
  minmea_check := fun line => line.head? == some 36
  minmea_sentence_id := fun line =>
    if line.tail.head? = some 71 then .MINMEA_SENTENCE_GGA else .other 0
  minmea_parse_gga := fun _ =>
    some { latitude := ⟨451110189, 1⟩, longitude := ⟨54233219, 1⟩, altitude := ⟨1937, 10⟩,
           hdop := ⟨12, 10⟩, fix_quality := 1, satellites_tracked := 7 }
  minmea_parse_rmc := fun _ => none

/-- Modelled from the spec: what happens to an instance of sm_exec (not among
the sources) around its handler calls. `send` is `send_event`, which "enqueues
an event" ("delivery order is FIFO per instance"); `expire` is the expiry of
the armed countdown, which "delivers exactly one `TIMEOUT` event" (here: puts
it in the queue); `deliver` is the instance's task taking the oldest queued
event and processing it, with the `Env` in force during that handler call. -/
inductive Stimulus where
  | send (e : SmEvent) (data : Nat)
  | expire
  | deliver (env : Env)

/-- Modelled from the spec: one step of an instance of sm_exec (not among the
sources). The queue is `World.posted`, which also receives the events the
handlers post. `expire` does nothing when no countdown is armed, `deliver`
nothing when the queue is empty. `none` when a handler aborts. -/
def sm_exec_step (m : Machine) : Stimulus → Option Machine
  | .send e data => some { m with w := sm_sendEvent m.w m.w.ctx.mySMId e data }
  | .expire =>
    match m.w.timer with
    | none => some m
    | some _ =>
      some { m with w := { m.w with timer := none, posted := m.w.posted ++ [(.SM_TIMEOUT, 0)] } }
  | .deliver env =>
    match m.w.posted with
    | [] => some m
    | (e, data) :: rest => sm_process env { m with w := { m.w with posted := rest } } e data

/-- Modelled from the spec: a run of an instance of sm_exec (not among the
sources), one stimulus after the other. -/
def sm_exec_run : Machine → List Stimulus → Option Machine
  | m, [] => some m
  | m, x :: rest =>
    match sm_exec_step m x with
    | none => none
    | some m1 => sm_exec_run m1 rest

/-- Modelled from the spec: the pseudo-events ENTER and EXIT are "delivered by
the executor itself, never by external callers"; a stimulus is allowed unless it
sends one of them. (TIMEOUT is not excluded: a caller sending it is covered too.) -/
def Stimulus.allowed : Stimulus → Bool
  | .send .SM_ENTER _ => false
  | .send .SM_EXIT _ => false
  | _ => true

/-- The instance that `bleuart_line_comm_create` leaves behind: created by
`sm_init` with the table `_bleSM` and the initial state Off, and started. -/
def createdMachine (s : BleSys) : Machine :=
  { state_table := _bleSM, current_state := .MS_BLE_OFF, w := s.w, history := [.MS_BLE_OFF] }

/-- Number of `wskt_open` calls on the real UART in a log that returned a socket. -/
def uartOpens (log : List Action) : Nat :=
  log.countP (fun a => match a with
    | .wskt_open _ (some _) => true
    | _ => false)

/-- Number of `wskt_close` calls on the real UART in a log. -/
def uartCloses (log : List Action) : Nat :=
  log.countP (fun a => match a with
    | .wskt_close _ => true
    | _ => false)

/-- Replays a log, keeping whether the real socket is held: `none` when
`wskt_open` is called while a socket is held or `wskt_close` while none is. -/
def trackUart : Bool → List Action → Option Bool
  | held, [] => some held
  | held, .wskt_open _ r :: rest => if held then none else trackUart r.isSome rest
  | held, .wskt_close _ :: rest => if held then trackUart false rest else none
  | held, _ :: rest => trackUart held rest

/-- The state id a handler call returns, `none` when an assert stops it. -/
def HRes.next : HRes → Option SM_STATE_ID_t
  | .ret n _ => some n
  | .abort _ => none

/-- What one handler call does to the log, the queue, the callback field and
the real socket, stated for the proofs about runs: the log and the queue only
grow; only `ME_BLE_UART_NOK` is posted; the callback field is kept and, when it
is NULL, no callback is invoked; the calls added to the log open the real UART
only while no socket is held and close it only while one is held (for ENTER of
WaitPowerOn: provided no socket is held when it runs); and only Off asks for
WaitPowerOn, leaving the world as it was. -/
def HandlerEffect (s : BLEStates) (env : Env) (w : World) (e : SmEvent) (data : Nat) : Prop :=
  ∃ added extra,
    (bleHandler s env w e data).world.log = w.log ++ added ∧
    (bleHandler s env w e data).world.posted = w.posted ++ extra ∧
    (∀ x ∈ extra, x.1 = SmEvent.ME_BLE_UART_NOK) ∧
    (bleHandler s env w e data).world.ctx.cbfn = w.ctx.cbfn ∧
    (w.ctx.cbfn = none → callbacks added = []) ∧
    ((s = .MS_BLE_WAITPOWERON → e = .SM_ENTER → w.ctx.uartSkt = none) →
      trackUart w.ctx.uartSkt.isSome added =
        some (bleHandler s env w e data).world.ctx.uartSkt.isSome) ∧
    (∀ w1, bleHandler s env w e data = .ret (.state .MS_BLE_WAITPOWERON) w1 →
      s = .MS_BLE_OFF ∧ w1 = w)

/-- The facts about a world that every handler call, send and expiry keeps:
the log opens and closes the real UART in turn and ends in accordance with
`uartSkt`; no ENTER is queued; the callback field is NULL and no callback has
been invoked. -/
structure WorldInv (w : World) : Prop where
  track : trackUart false w.log = some w.ctx.uartSkt.isSome
  queue : ∀ x ∈ w.posted, x.1 ≠ SmEvent.SM_ENTER
  cb : w.ctx.cbfn = none
  nocb : callbacks w.log = []

/-- The invariant of the created instance: it runs on the table `_bleSM`, holds
no real socket while in Off, and its world satisfies `WorldInv`. -/
structure BleInv (m : Machine) : Prop where
  tbl : m.state_table = _bleSM
  off : m.current_state = .MS_BLE_OFF → m.w.ctx.uartSkt = none
  world : WorldInv m.w

/-- The system after `bleuart_line_comm_create("b", "a", 115200, 115200, 5, 0)`
on the zeroed state with MAX_WSKT_DEVICES = 2, MAX_WSKTS = 3 and
MAX_WKST_DNAME_SZ = 4 (an example used to run the machine). -/
def sampleSys : BleSys :=
  { w := { ctx := { mySMId := 0, myDevice := some [98], uartDevice := some [97],
                    baudrate := 115200, pwrPin := 5, uartSelect := 0, uartSkt := none,
                    lastDataTime := 0, cbfn := none, cardType := 0 }
           log := [.GPIO_write 5 1], timer := none, posted := [] }
    mgr := { _devices := [⟨[98, 0, 0, 0], 7, 8⟩, ⟨[0, 0, 0, 0], 0, 0⟩], _devRegIdx := 1,
             _skts := [⟨none, 0, 0⟩, ⟨none, 0, 0⟩, ⟨none, 0, 0⟩], calls := [] }
    machines := [(0, .MS_BLE_OFF)], pins := [(5, 1)] }

/-! ## Lemmas -/

theorem cstr_nil : cstr [] = [] := rfl

theorem cstr_cons (x : Nat) (xs : List Nat) :
    cstr (x :: xs) = if x = 0 then [] else x :: cstr xs := by
  by_cases h : x = 0
  · simp [cstr, List.takeWhile, h]
  · have hb : (x != 0) = true := by simp [h]
    simp [cstr, List.takeWhile, hb, h]

theorem strncmp_eq_zero_iff (n : Nat) : ∀ a b : List Nat,
    strncmp a b n = 0 ↔ (cstr a).take n = (cstr b).take n := by
  induction n with
  | zero => intro a b; simp [strncmp]
  | succ n ih =>
    intro a b
    cases a with
    | nil =>
      cases b with
      | nil => simp [strncmp, cstr_nil]
      | cons y ys =>
        by_cases hy : y = 0
        · simp [strncmp, cstr_cons, cstr_nil, hy]
        · have : (0 : Int) - (y : Int) ≠ 0 := by omega
          simp [strncmp, cstr_cons, cstr_nil, hy, Ne.symm hy, this]
    | cons x xs =>
      cases b with
      | nil =>
        by_cases hx : x = 0
        · simp [strncmp, cstr_cons, cstr_nil, hx]
        · have : (x : Int) - 0 ≠ 0 := by omega
          simp [strncmp, cstr_cons, cstr_nil, hx]
      | cons y ys =>
        by_cases hxy : x = y
        · subst hxy
          by_cases hx : x = 0
          · simp [strncmp, cstr_cons, hx]
          · simp [strncmp, cstr_cons, hx, ih xs ys]
        · have : (x : Int) - (y : Int) ≠ 0 := by omega
          by_cases hx : x = 0
          · have hy : y ≠ 0 := fun h => hxy (by rw [hx, h])
            simp [strncmp, cstr_cons, hx, hy, hxy, this, Ne.symm hy]
          · by_cases hy : y = 0
            · simp [strncmp, cstr_cons, hx, hy, hxy, this]
            · simp [strncmp, cstr_cons, hx, hy, hxy, this]

theorem strncmp_eq_zero_of_short (n : Nat) (a d : List Nat) (hd : (cstr d).length < n) :
    strncmp a d n = 0 ↔ cstr a = cstr d := by
  rw [strncmp_eq_zero_iff]
  have hdt : (cstr d).take n = cstr d := List.take_of_length_le (Nat.le_of_lt hd)
  rw [hdt]
  constructor
  · intro h
    have hl : ((cstr a).take n).length = (cstr d).length := by rw [h]
    rw [List.length_take] at hl
    have : (cstr a).length ≤ n := by omega
    rw [List.take_of_length_le this] at h
    exact h
  · intro h
    rw [h, hdt]

theorem modify_at_length {α : Type} (f : α → α) (l₁ : List α) (a : α) (l₂ : List α) :
    List.modify f l₁.length (l₁ ++ a :: l₂) = l₁ ++ f a :: l₂ := by
  induction l₁ with
  | nil => simp
  | cons x xs ih => simp [ih]

theorem getElem?_at_length {α : Type} (l₁ : List α) (a : α) (l₂ : List α) :
    (l₁ ++ a :: l₂)[l₁.length]? = some a := by
  induction l₁ with
  | nil => simp
  | cons x xs ih => simpa using ih

theorem getElem_at_length {α : Type} (l₁ : List α) (a : α) (l₂ : List α)
    (h : l₁.length < (l₁ ++ a :: l₂).length) : (l₁ ++ a :: l₂)[l₁.length] = a := by
  have h2 := getElem?_at_length l₁ a l₂
  rw [List.getElem?_eq_getElem h] at h2
  exact Option.some.inj h2

theorem getD_at_length {α : Type} (l₁ : List α) (a : α) (l₂ : List α) (d : α) :
    (l₁ ++ a :: l₂).getD l₁.length d = a := by
  rw [List.getD_eq_getElem?_getD, getElem?_at_length]; rfl

theorem firstFreeFrom_some (l : List wskt_t) : ∀ (k i : Nat), firstFreeFrom l k = some i →
    ∃ l₁ a l₂, l = l₁ ++ a :: l₂ ∧ i = k + l₁.length ∧ a.dev = none ∧ ∀ s ∈ l₁, s.dev ≠ none := by
  induction l with
  | nil => intro k i h; simp [firstFreeFrom] at h
  | cons x xs ih =>
    intro k i h
    by_cases hx : x.dev = none
    · simp [firstFreeFrom, hx] at h
      exact ⟨[], x, xs, rfl, by simp [h], hx, by simp⟩
    · simp [firstFreeFrom, hx] at h
      obtain ⟨l₁, a, l₂, e, hi, ha, hall⟩ := ih (k + 1) i h
      refine ⟨x :: l₁, a, l₂, by simp [e], by simp [hi]; omega, ha, ?_⟩
      intro s hs
      rcases List.mem_cons.mp hs with h1 | h1
      · rw [h1]; exact hx
      · exact hall s h1

theorem firstFreeFrom_none (l : List wskt_t) : ∀ (k : Nat), firstFreeFrom l k = none →
    ∀ s ∈ l, s.dev ≠ none := by
  induction l with
  | nil => intro k _ s hs; simp at hs
  | cons x xs ih =>
    intro k h s hs
    by_cases hx : x.dev = none
    · simp [firstFreeFrom, hx] at h
    · simp [firstFreeFrom, hx] at h
      rcases List.mem_cons.mp hs with h1 | h1
      · rw [h1]; exact hx
      · exact ih (k + 1) h s h1

theorem firstFreeFrom_split (l₁ : List wskt_t) (a : wskt_t) (l₂ : List wskt_t)
    (ha : a.dev = none) (hall : ∀ s ∈ l₁, s.dev ≠ none) :
    ∀ k, firstFreeFrom (l₁ ++ a :: l₂) k = some (k + l₁.length) := by
  induction l₁ with
  | nil => intro k; simp [firstFreeFrom, ha]
  | cons x xs ih =>
    intro k
    have hx : x.dev ≠ none := hall x (by simp)
    have := ih (fun s hs => hall s (by simp [hs])) (k + 1)
    simp [firstFreeFrom, hx, this]
    omega

theorem firstFreeFrom_full (l : List wskt_t) (hall : ∀ s ∈ l, s.dev ≠ none) :
    ∀ k, firstFreeFrom l k = none := by
  induction l with
  | nil => intro k; rfl
  | cons x xs ih =>
    intro k
    have hx : x.dev ≠ none := hall x (by simp)
    simp [firstFreeFrom, hx, ih (fun s hs => hall s (by simp [hs]))]

theorem findDeviceInstFrom_some (c : Config) (name : List Nat) (l : List wskt_device_t) :
    ∀ (k i : Nat), findDeviceInstFrom c name l k = some i →
    ∃ l₁ dv l₂, l = l₁ ++ dv :: l₂ ∧ i = k + l₁.length ∧
      strncmp name dv.dname c.MAX_WKST_DNAME_SZ = 0 ∧
      ∀ d ∈ l₁, strncmp name d.dname c.MAX_WKST_DNAME_SZ ≠ 0 := by
  induction l with
  | nil => intro k i h; simp [findDeviceInstFrom] at h
  | cons x xs ih =>
    intro k i h
    by_cases hx : strncmp name x.dname c.MAX_WKST_DNAME_SZ = 0
    · simp [findDeviceInstFrom, hx] at h
      exact ⟨[], x, xs, rfl, by simp [h], hx, by simp⟩
    · simp [findDeviceInstFrom, hx] at h
      obtain ⟨l₁, a, l₂, e, hi, ha, hall⟩ := ih (k + 1) i h
      refine ⟨x :: l₁, a, l₂, by simp [e], by simp [hi]; omega, ha, ?_⟩
      intro s hs
      rcases List.mem_cons.mp hs with h1 | h1
      · rw [h1]; exact hx
      · exact hall s h1

theorem findDeviceInstFrom_none (c : Config) (name : List Nat) (l : List wskt_device_t) :
    ∀ (k : Nat), findDeviceInstFrom c name l k = none →
    ∀ d ∈ l, strncmp name d.dname c.MAX_WKST_DNAME_SZ ≠ 0 := by
  induction l with
  | nil => intro k _ s hs; simp at hs
  | cons x xs ih =>
    intro k h s hs
    by_cases hx : strncmp name x.dname c.MAX_WKST_DNAME_SZ = 0
    · simp [findDeviceInstFrom, hx] at h
    · simp [findDeviceInstFrom, hx] at h
      rcases List.mem_cons.mp hs with h1 | h1
      · rw [h1]; exact hx
      · exact ih (k + 1) h s h1

theorem findDeviceInstFrom_of_none (c : Config) (name : List Nat) (l : List wskt_device_t)
    (hall : ∀ d ∈ l, strncmp name d.dname c.MAX_WKST_DNAME_SZ ≠ 0) :
    ∀ k, findDeviceInstFrom c name l k = none := by
  induction l with
  | nil => intro k; rfl
  | cons x xs ih =>
    intro k
    have hx := hall x (by simp)
    simp [findDeviceInstFrom, hx, ih (fun s hs => hall s (by simp [hs]))]

/-- What `wskt_open` does when the name resolves to device `dev` and the pool
is `l₁ ++ a :: l₂` with `a` its first free slot. -/
theorem wskt_open_alloc (c : Config) (st : WsktMgr) (name : List Nat) (evt eq : Nat) (r : Int)
    (dev : Nat) (l₁ : List wskt_t) (a : wskt_t) (l₂ : List wskt_t)
    (hfind : findDeviceInst c st name = some dev)
    (hsk : st._skts = l₁ ++ a :: l₂) (ha : a.dev = none) (hall : ∀ s ∈ l₁, s.dev ≠ none) :
    wskt_open c st (some name) evt eq r =
      match devFns st dev with
      | none => .fault { st with _skts := l₁ ++ { dev := some dev, evt := evt, eq := eq } :: l₂ }
      | some fns =>
        if r < 0 then
          .ret none { st with
            _skts := l₁ ++ { dev := none, evt := evt, eq := eq } :: l₂
            calls := st.calls ++
              [{ fns := fns, op := .op_open, skt := l₁.length,
                 arg := { dev := some dev, evt := evt, eq := eq } }] }
        else
          .ret (some l₁.length) { st with
            _skts := l₁ ++ { dev := some dev, evt := evt, eq := eq } :: l₂
            calls := st.calls ++
              [{ fns := fns, op := .op_open, skt := l₁.length,
                 arg := { dev := some dev, evt := evt, eq := eq } }] } := by
  obtain ⟨devs, idx, skts, calls⟩ := st
  simp only at hsk
  subst hsk
  have hff : firstFreeFrom (l₁ ++ a :: l₂) 0 = some l₁.length := by
    rw [firstFreeFrom_split l₁ a l₂ ha hall 0]; simp
  cases hd : devs[dev]? with
  | none =>
    simp [wskt_open, hfind, allocSocket, hff, modify_at_length, WSKT_DEVICE_FNS,
      getElem?_at_length, getElem_at_length, devFns, hd]
  | some dv =>
    by_cases hz : dv.device_fns = 0
    · simp [wskt_open, hfind, allocSocket, hff, modify_at_length, WSKT_DEVICE_FNS,
        getElem?_at_length, getElem_at_length, devFns, hd, hz]
    · by_cases hr : r < 0
      · simp [wskt_open, hfind, allocSocket, hff, modify_at_length, WSKT_DEVICE_FNS,
          getElem?_at_length, getElem_at_length, devFns, hd, hz, hr, logCall, getD_at_length,
          freeSocket]
      · simp [wskt_open, hfind, allocSocket, hff, modify_at_length, WSKT_DEVICE_FNS,
          getElem?_at_length, getElem_at_length, devFns, hd, hz, hr, logCall, getD_at_length,
          freeSocket]

theorem wskt_open_notfound (c : Config) (st : WsktMgr) (name : List Nat) (evt eq : Nat) (r : Int)
    (hfind : findDeviceInst c st name = none) :
    wskt_open c st (some name) evt eq r = .ret none st := by
  simp [wskt_open, hfind]

theorem wskt_open_full (c : Config) (st : WsktMgr) (name : List Nat) (evt eq : Nat) (r : Int)
    (dev : Nat) (hfind : findDeviceInst c st name = some dev)
    (hall : ∀ s ∈ st._skts, s.dev ≠ none) :
    wskt_open c st (some name) evt eq r = .ret none st := by
  simp [wskt_open, hfind, allocSocket, firstFreeFrom_full st._skts hall 0]

/-- What `wskt_close` does on slot `l₁.length` of the pool `l₁ ++ a :: l₂` bound to `d`. -/
theorem wskt_close_at (st : WsktMgr) (r : Int) (l₁ : List wskt_t) (a : wskt_t) (l₂ : List wskt_t)
    (d : Nat) (hsk : st._skts = l₁ ++ a :: l₂) (ha : a.dev = some d) :
    wskt_close st (some (some l₁.length)) r =
      match devFns st d with
      | none => .fault st
      | some fns =>
        .ret (r, none) { st with
          _skts := l₁ ++ { a with dev := none } :: l₂
          calls := st.calls ++ [{ fns := fns, op := .op_close, skt := l₁.length, arg := a }] } := by
  obtain ⟨devs, idx, skts, calls⟩ := st
  simp only at hsk
  subst hsk
  cases hd : devs[d]? with
  | none =>
    simp [wskt_close, WSKT_DEVICE_FNS, getElem?_at_length, getElem_at_length, ha, devFns, hd]
  | some dv =>
    by_cases hz : dv.device_fns = 0
    · simp [wskt_close, WSKT_DEVICE_FNS, getElem?_at_length, getElem_at_length, ha, devFns, hd, hz]
    · simp [wskt_close, WSKT_DEVICE_FNS, getElem?_at_length, getElem_at_length, ha, devFns, hd, hz,
        logCall, getD_at_length, freeSocket, modify_at_length]

theorem getElem?_split {α : Type} (l : List α) : ∀ (i : Nat) (a : α), l[i]? = some a →
    ∃ l₁ l₂, l = l₁ ++ a :: l₂ ∧ l₁.length = i := by
  induction l with
  | nil => intro i a h; simp at h
  | cons x xs ih =>
    intro i a h
    cases i with
    | zero =>
      simp at h
      exact ⟨[], xs, by simp [h], rfl⟩
    | succ i =>
      simp at h
      obtain ⟨l₁, l₂, e, hl⟩ := ih i a h
      exact ⟨x :: l₁, l₂, by simp [e], by simp [hl]⟩

theorem getElem?_replace {α : Type} (l₁ : List α) (a b : α) (l₂ : List α) (j : Nat) :
    (l₁ ++ b :: l₂)[j]? = if j = l₁.length then some b else (l₁ ++ a :: l₂)[j]? := by
  induction l₁ generalizing j with
  | nil =>
    cases j with
    | zero => simp
    | succ j => simp
  | cons x xs ih =>
    cases j with
    | zero => simp
    | succ j => simpa using ih j

theorem getOpenSocketsLoop_count (c : Config) (devs : List wskt_device_t) (name : List Nat)
    (bsz : Nat) (l : List wskt_t) : ∀ (i : Nat) (w : List Nat) (si : Nat),
    getOpenSocketsLoop c devs name false bsz l i w si =
      (w, si + l.countP (sktMatches c devs name)) := by
  induction l with
  | nil => intro i w si; simp [getOpenSocketsLoop]
  | cons s rest ih =>
    intro i w si
    by_cases hm : sktMatches c devs name s = true
    · simp [getOpenSocketsLoop, hm, ih, List.countP_cons]; omega
    · simp [getOpenSocketsLoop, hm, ih, List.countP_cons]

theorem countP_split_filter {α : Type} (p q : α → Bool) (l : List α) :
    l.countP p = (l.filter q).countP p + (l.filter (fun x => !q x)).countP p := by
  induction l with
  | nil => simp
  | cons x xs ih =>
    by_cases hq : q x = true
    · simp [List.filter_cons, hq, List.countP_cons, ih]; omega
    · simp [List.filter_cons, hq, List.countP_cons, ih]; omega

theorem sktMatches_free (c : Config) (devs : List wskt_device_t) (name : List Nat) (s : wskt_t)
    (h : s.dev = none) : sktMatches c devs name s = false := by
  simp [sktMatches, h]

theorem sktMatches_bound (c : Config) (devs : List wskt_device_t) (name q : List Nat) (s : wskt_t)
    (d : Nat) (dv : wskt_device_t) (h : s.dev = some d) (hd : devs[d]? = some dv)
    (hwf : (cstr dv.dname).length < c.MAX_WKST_DNAME_SZ)
    (hq : strncmp q dv.dname c.MAX_WKST_DNAME_SZ = 0) :
    sktMatches c devs name s = decide (cstr q = cstr name) := by
  have hq2 := (strncmp_eq_zero_of_short _ q dv.dname hwf).mp hq
  have hn := strncmp_eq_zero_of_short _ name dv.dname hwf
  simp only [sktMatches, h, hd]
  by_cases hc : cstr q = cstr name
  · have : strncmp name dv.dname c.MAX_WKST_DNAME_SZ = 0 := hn.mpr (by rw [← hc, hq2])
    simp [this, hc]
  · have : strncmp name dv.dname c.MAX_WKST_DNAME_SZ ≠ 0 := by
      intro h0
      exact hc (by rw [hq2, hn.mp h0])
    simp [this, hc]

theorem findDeviceInst_some (c : Config) (st : WsktMgr) (name : List Nat) (dev : Nat)
    (h : findDeviceInst c st name = some dev) :
    ∃ dv, st._devices[dev]? = some dv ∧ dv ∈ st._devices ∧
      strncmp name dv.dname c.MAX_WKST_DNAME_SZ = 0 := by
  obtain ⟨l₁, dv, l₂, e, hi, hm, _⟩ := findDeviceInstFrom_some c name st._devices 0 dev h
  refine ⟨dv, ?_, ?_, hm⟩
  · rw [e, hi]; simpa using getElem?_at_length l₁ dv l₂
  · rw [e]; simp

theorem good_open (c : Config) (st : WsktMgr) (ls : List Lease) (name : List Nat) (evt eq : Nat)
    (r : Int) (hg : Good c st ls) :
    (∃ st1, wskt_open c st (some name) evt eq r = .ret none st1 ∧ Good c st1 ls ∧
        st1._skts.length = st._skts.length) ∨
    (∃ i st1, wskt_open c st (some name) evt eq r = .ret (some i) st1 ∧
        Good c st1 (ls ++ [{ slot := i, name := name }]) ∧ st1._skts.length = st._skts.length) ∨
    (∃ st1, wskt_open c st (some name) evt eq r = .fault st1) := by
  cases hfind : findDeviceInst c st name with
  | none => exact Or.inl ⟨st, wskt_open_notfound c st name evt eq r hfind, hg, rfl⟩
  | some dev =>
    cases hff : firstFreeFrom st._skts 0 with
    | none =>
      exact Or.inl ⟨st, wskt_open_full c st name evt eq r dev hfind
        (firstFreeFrom_none _ 0 hff), hg, rfl⟩
    | some i0 =>
      obtain ⟨l₁, a, l₂, hsk, hi0, ha, hall⟩ := firstFreeFrom_some _ 0 i0 hff
      have hopen := wskt_open_alloc c st name evt eq r dev l₁ a l₂ hfind hsk ha hall
      obtain ⟨dv, hdv, hmem, hmatch⟩ := findDeviceInst_some c st name dev hfind
      have hfree : ls.filter (fun l => l.slot == l₁.length) = [] := by
        have := hg.lease l₁.length
        rw [hsk, getElem?_at_length] at this
        simpa [ha] using this
      cases hfn : devFns st dev with
      | none =>
        rw [hfn] at hopen
        exact Or.inr (Or.inr ⟨_, hopen⟩)
      | some fns =>
        rw [hfn] at hopen
        by_cases hr : r < 0
        · simp only [hr, if_true] at hopen
          refine Or.inl ⟨_, hopen, ⟨hg.wf, ?_, ?_⟩, by simp [hsk]⟩
          · intro j
            have hj := hg.lease j
            rw [hsk] at hj
            simp only
            rw [getElem?_replace l₁ a]
            by_cases hjl : j = l₁.length
            · simp [hjl, hfree]
            · simpa [hjl] using hj
          · intro nm
            have := hg.count nm
            rw [hsk] at this
            simp only
            rw [← this]
            simp [List.countP_cons, sktMatches_free c st._devices nm a ha,
              sktMatches_free c st._devices nm { dev := none, evt := evt, eq := eq } rfl]
        · simp only [hr, if_false] at hopen
          refine Or.inr (Or.inl ⟨_, _, hopen, ⟨hg.wf, ?_, ?_⟩, by simp [hsk]⟩)
          · intro j
            have hj := hg.lease j
            rw [hsk] at hj
            simp only
            rw [getElem?_replace l₁ a]
            by_cases hjl : j = l₁.length
            · subst hjl
              simp only [if_true, List.filter_append, hfree]
              exact ⟨name, dv, by simp [List.filter_cons], hdv, hmatch⟩
            · have hne : ¬ (l₁.length = j) := fun h => hjl h.symm
              simpa [hjl, List.filter_append, List.filter_cons, hne] using hj
          · intro nm
            have := hg.count nm
            rw [hsk] at this
            simp only [openCount, List.countP_append] at this ⊢
            rw [← this]
            have hm := sktMatches_bound c st._devices nm name
              { dev := some dev, evt := evt, eq := eq } dev dv rfl hdv (hg.wf dv hmem) hmatch
            simp [List.countP_cons, sktMatches_free c st._devices nm a ha, hm, Nat.add_assoc]

theorem good_close (c : Config) (st : WsktMgr) (ls : List Lease) (slot : Nat) (r : Int)
    (hg : Good c st ls) :
    (∃ v st1, wskt_close st (some (some slot)) r = .ret v st1 ∧
        Good c st1 (ls.filter (fun l => l.slot != slot)) ∧
        st1._skts.length = st._skts.length) ∨
    (∃ st1, wskt_close st (some (some slot)) r = .fault st1) := by
  cases hs : st._skts[slot]? with
  | none => exact Or.inr ⟨st, by simp [wskt_close, WSKT_DEVICE_FNS, hs]⟩
  | some a =>
    cases hdev : a.dev with
    | none => exact Or.inr ⟨st, by simp [wskt_close, WSKT_DEVICE_FNS, hs, hdev]⟩
    | some d =>
      obtain ⟨l₁, l₂, hsk, hlen⟩ := getElem?_split _ slot a hs
      subst hlen
      have hclose := wskt_close_at st r l₁ a l₂ d hsk hdev
      cases hfn : devFns st d with
      | none =>
        rw [hfn] at hclose
        exact Or.inr ⟨_, hclose⟩
      | some fns =>
        rw [hfn] at hclose
        have hl := hg.lease l₁.length
        rw [hs] at hl
        simp only [hdev] at hl
        obtain ⟨q, dv, hfil, hdv, hmatch⟩ := hl
        have hmem : dv ∈ st._devices := List.getElem?_mem hdv
        refine Or.inl ⟨_, _, hclose, ⟨hg.wf, ?_, ?_⟩, by simp [hsk]⟩
        · intro j
          have hj := hg.lease j
          rw [hsk] at hj
          simp only
          rw [getElem?_replace l₁ a]
          by_cases hjl : j = l₁.length
          · subst hjl
            simp only [if_true, List.filter_filter]
            apply List.filter_eq_nil_iff.mpr
            intro l _
            by_cases hls : l.slot = l₁.length <;> simp [hls]
          · have hfeq : List.filter (fun l => l.slot == j)
                (List.filter (fun l => l.slot != l₁.length) ls) =
                List.filter (fun l => l.slot == j) ls := by
              rw [List.filter_filter]
              apply List.filter_congr
              intro l _
              by_cases hls : l.slot = j
              · have : l.slot ≠ l₁.length := fun h => hjl (by rw [← hls, h])
                simp [hls, hjl]
              · simp [hls]
            simp only [hjl, if_false]
            rw [hfeq]
            exact hj
        · intro nm
          have hcnt := hg.count nm
          rw [hsk] at hcnt
          have hm := sktMatches_bound c st._devices nm q a d dv hdev hdv (hg.wf dv hmem) hmatch
          have hsplit := countP_split_filter (fun l : Lease => decide (cstr l.name = cstr nm))
            (fun l => l.slot == l₁.length) ls
          rw [hfil] at hsplit
          have hneq : (fun l : Lease => !(l.slot == l₁.length)) = (fun l => l.slot != l₁.length) := by
            funext l; rfl
          rw [hneq] at hsplit
          simp only [openCount] at hcnt ⊢
          rw [hsplit] at hcnt
          simp only [List.countP_append, List.countP_cons, hm, List.countP_nil,
            sktMatches_free c st._devices nm { a with dev := none } rfl] at hcnt ⊢
          simp at hcnt ⊢
          omega

theorem runOps_good (c : Config) : ∀ (ops : List ApiCall) (st : WsktMgr) (ls : List Lease)
    (st1 : WsktMgr) (ls1 : List Lease), Good c st ls → runOps c st ls ops = some (st1, ls1) →
    Good c st1 ls1 ∧ st1._skts.length = st._skts.length := by
  intro ops
  induction ops with
  | nil =>
    intro st ls st1 ls1 hg h
    simp [runOps] at h
    obtain ⟨h1, h2⟩ := h
    subst h1; subst h2
    exact ⟨hg, rfl⟩
  | cons op rest ih =>
    intro st ls st1 ls1 hg h
    cases op with
    | callOpen name evt eq r =>
      rcases good_open c st ls name evt eq r hg with ⟨s2, ho, hg2, hl⟩ | ⟨i, s2, ho, hg2, hl⟩ |
        ⟨s2, ho⟩
      · simp only [runOps, ho] at h
        obtain ⟨hg3, hl3⟩ := ih s2 ls st1 ls1 hg2 h
        exact ⟨hg3, by rw [hl3, hl]⟩
      · simp only [runOps, ho] at h
        obtain ⟨hg3, hl3⟩ := ih s2 _ st1 ls1 hg2 h
        exact ⟨hg3, by rw [hl3, hl]⟩
      · simp [runOps, ho] at h
    | callClose slot r =>
      rcases good_close c st ls slot r hg with ⟨v, s2, hc, hg2, hl⟩ | ⟨s2, hc⟩
      · simp only [runOps, hc] at h
        obtain ⟨hg3, hl3⟩ := ih s2 _ st1 ls1 hg2 h
        exact ⟨hg3, by rw [hl3, hl]⟩
      · simp [runOps, hc] at h

theorem length_strncpy : ∀ (n : Nat) (s : List Nat), (strncpy s n).length = n := by
  intro n
  induction n with
  | zero => intro s; simp [strncpy]
  | succ n ih =>
    intro s
    by_cases h : s.headD 0 = 0
    · rw [strncpy, if_pos h]; simp
    · rw [strncpy, if_neg h]; simp [ih]

theorem cstr_strncpy_le : ∀ (n : Nat) (s : List Nat), (cstr (strncpy s n ++ [0])).length ≤ n := by
  intro n
  induction n with
  | zero => intro s; simp [strncpy, cstr_cons]
  | succ n ih =>
    intro s
    by_cases h : s.headD 0 = 0
    · rw [strncpy, if_pos h]; simp [List.replicate_succ, cstr_cons]
    · have := ih s.tail
      rw [strncpy, if_neg h, List.cons_append, cstr_cons, if_neg h]
      simp only [List.length_cons]
      omega

theorem cstr_replicate_zero (n : Nat) : cstr (List.replicate n 0) = [] := by
  cases n with
  | zero => rfl
  | succ n => simp [List.replicate_succ, cstr_cons]

theorem devWF_init (c : Config) (hsz : 0 < c.MAX_WKST_DNAME_SZ) : DevWF c (init c) := by
  intro d hd
  simp only [init] at hd
  have := List.eq_of_mem_replicate hd
  rw [this]
  simpa [cstr_replicate_zero] using hsz

theorem registerDevice_inv (c : Config) (hsz : 0 < c.MAX_WKST_DNAME_SZ) (st st1 : WsktMgr)
    (name : Option (List Nat)) (dfns dcfg : Nat) (hwf : DevWF c st)
    (h : wskt_registerDevice c st name dfns dcfg = .ret () st1) :
    DevWF c st1 ∧ st1._skts = st._skts ∧ st1.calls = st.calls := by
  unfold wskt_registerDevice at h
  split at h
  · cases h
  · split at h
    · cases h
    · split at h
      · cases h
      · injection h with _ h2
        subst h2
        refine ⟨?_, rfl, rfl⟩
        intro d hd
        simp only at hd
        rcases List.mem_or_eq_of_mem_set hd with h1 | h1
        · exact hwf d h1
        · rw [h1]
          have := cstr_strncpy_le (c.MAX_WKST_DNAME_SZ - 1) (by assumption)
          simp only
          omega

theorem registerAll_inv (c : Config) (hsz : 0 < c.MAX_WKST_DNAME_SZ) :
    ∀ (regs : List (List Nat × Nat × Nat)) (st st1 : WsktMgr), DevWF c st →
    registerAll c st regs = some st1 →
    DevWF c st1 ∧ st1._skts = st._skts ∧ st1.calls = st.calls := by
  intro regs
  induction regs with
  | nil =>
    intro st st1 hwf h
    simp [registerAll] at h
    subst h
    exact ⟨hwf, rfl, rfl⟩
  | cons x rest ih =>
    intro st st1 hwf h
    obtain ⟨name, dfns, dcfg⟩ := x
    simp only [registerAll] at h
    cases hr : wskt_registerDevice c st (some name) dfns dcfg with
    | ret v s2 =>
      rw [hr] at h
      simp only at h
      obtain ⟨h1, h2, h3⟩ := registerDevice_inv c hsz st s2 (some name) dfns dcfg hwf hr
      obtain ⟨h4, h5, h6⟩ := ih s2 st1 h1 h
      exact ⟨h4, by rw [h5, h2], by rw [h6, h3]⟩
    | abort s2 => rw [hr] at h; simp at h
    | fault s2 => rw [hr] at h; simp at h

theorem good_of_empty (c : Config) (st : WsktMgr) (hwf : DevWF c st)
    (hempty : ∀ s ∈ st._skts, s.dev = none) : Good c st [] := by
  refine ⟨hwf, ?_, ?_⟩
  · intro i
    cases hs : st._skts[i]? with
    | none => simp
    | some s =>
      have := hempty s (List.getElem?_mem hs)
      simp [this]
  · intro nm
    simp only [openCount, List.countP_nil]
    apply List.countP_eq_zero.mpr
    intro s hs
    simp [sktMatches_free c st._devices nm s (hempty s hs)]

/-- C1: after any registrations from the zeroed state and any sequence of
wskt_open and wskt_close calls that runs without abort or fault, for every
device name (registered or not) wskt_getOpenSockets(name, NULL, 0) writes
nothing and returns exactly the number of sockets that were successfully opened
on that name and not closed since; opens that returned NULL are not counted.
The build constants are parameters: the name array is not empty and the pool
size fits the uint8_t result. -/
theorem wskt_getOpenSockets_counts_unclosed (c : Config)
    (hsz : 0 < c.MAX_WKST_DNAME_SZ) (hmax : c.MAX_WSKTS < 256)
    (regs : List (List Nat × Nat × Nat)) (st0 : WsktMgr)
    (hreg : registerAll c (init c) regs = some st0)
    (ops : List ApiCall) (st : WsktMgr) (ls : List Lease)
    (hrun : runOps c st0 [] ops = some (st, ls)) (name : List Nat) :
    wskt_getOpenSockets c st (some name) false 0 = some ([], openCount ls name) := by
  obtain ⟨hwf, hsk, _⟩ := registerAll_inv c hsz regs (init c) st0 (devWF_init c hsz) hreg
  have hempty : ∀ s ∈ st0._skts, s.dev = none := by
    intro s hs
    rw [hsk] at hs
    simp only [init] at hs
    rw [List.eq_of_mem_replicate hs]
  have hlen0 : st0._skts.length = c.MAX_WSKTS := by rw [hsk]; simp [init]
  obtain ⟨hg, hlen⟩ := runOps_good c ops st0 [] st ls (good_of_empty c st0 hwf hempty) hrun
  have hcnt := hg.count name
  have hle : st._skts.countP (sktMatches c st._devices name) ≤ st._skts.length :=
    List.countP_le_length _
  have hlt : openCount ls name < 256 := by omega
  simp only [wskt_getOpenSockets, getOpenSocketsLoop_count, Nat.zero_add, hcnt]
  rw [Nat.mod_eq_of_lt hlt]

/-- A run for C1: one device "a", two opens on it, the first socket closed again. -/
theorem wskt_getOpenSockets_counts_unclosed_witness :
    wskt_getOpenSockets ⟨2, 3, 4⟩
      { _devices := [⟨[97, 0, 0, 0], 7, 8⟩, ⟨[0, 0, 0, 0], 0, 0⟩]
        _devRegIdx := 1
        _skts := [⟨none, 1, 2⟩, ⟨some 0, 3, 4⟩, ⟨none, 0, 0⟩]
        calls := [⟨7, .op_open, 0, ⟨some 0, 1, 2⟩⟩, ⟨7, .op_open, 1, ⟨some 0, 3, 4⟩⟩,
          ⟨7, .op_close, 0, ⟨some 0, 1, 2⟩⟩] }
      (some [97]) false 0
    = some ([], openCount [⟨1, [97]⟩] [97]) :=
  wskt_getOpenSockets_counts_unclosed ⟨2, 3, 4⟩ (by decide) (by decide)
    [([97], 7, 8)]
    { _devices := [⟨[97, 0, 0, 0], 7, 8⟩, ⟨[0, 0, 0, 0], 0, 0⟩]
      _devRegIdx := 1
      _skts := [⟨none, 0, 0⟩, ⟨none, 0, 0⟩, ⟨none, 0, 0⟩]
      calls := [] }
    (by decide)
    [.callOpen [97] 1 2 0, .callOpen [97] 3 4 0, .callClose 0 (-1)]
    _ _ (by decide) [97]

/-- C2 fails on the code: with one device "a" registered (so the name "" was
never registered) and an empty pool, wskt_open("") resolves to the unused
registry entry 1, whose name array is all zero; it binds pool slot 0 to that
entry and then calls through its NULL function table instead of returning
NULL. -/
theorem wskt_open_empty_name_hits_unused_entry :
    registerAll ⟨2, 3, 4⟩ (init ⟨2, 3, 4⟩) [([97], 7, 8)] =
      some { _devices := [⟨[97, 0, 0, 0], 7, 8⟩, ⟨[0, 0, 0, 0], 0, 0⟩], _devRegIdx := 1,
             _skts := [⟨none, 0, 0⟩, ⟨none, 0, 0⟩, ⟨none, 0, 0⟩], calls := [] } ∧
    findDeviceInst ⟨2, 3, 4⟩
      { _devices := [⟨[97, 0, 0, 0], 7, 8⟩, ⟨[0, 0, 0, 0], 0, 0⟩], _devRegIdx := 1,
        _skts := [⟨none, 0, 0⟩, ⟨none, 0, 0⟩, ⟨none, 0, 0⟩], calls := [] } [] = some 1 ∧
    wskt_open ⟨2, 3, 4⟩
      { _devices := [⟨[97, 0, 0, 0], 7, 8⟩, ⟨[0, 0, 0, 0], 0, 0⟩], _devRegIdx := 1,
        _skts := [⟨none, 0, 0⟩, ⟨none, 0, 0⟩, ⟨none, 0, 0⟩], calls := [] }
      (some []) 1 2 0 =
      .fault { _devices := [⟨[97, 0, 0, 0], 7, 8⟩, ⟨[0, 0, 0, 0], 0, 0⟩], _devRegIdx := 1,
               _skts := [⟨some 1, 1, 2⟩, ⟨none, 0, 0⟩, ⟨none, 0, 0⟩], calls := [] } := by
  decide

/-- C6 fails on the code: with MAX_WKST_DNAME_SZ = 4 the four-character name
"abcd" is stored as "abc", the duplicate check compares four characters, and a
second registration of "abcd" returns normally: two entries now hold the same
stored name. -/
theorem wskt_registerDevice_long_name_twice :
    registerAll ⟨2, 3, 4⟩ (init ⟨2, 3, 4⟩)
        [([97, 98, 99, 100], 7, 8), ([97, 98, 99, 100], 9, 10)] =
      some { _devices := [⟨[97, 98, 99, 0], 7, 8⟩, ⟨[97, 98, 99, 0], 9, 10⟩], _devRegIdx := 2,
             _skts := [⟨none, 0, 0⟩, ⟨none, 0, 0⟩, ⟨none, 0, 0⟩], calls := [] } := by
  decide

/-- C7 fails on the code: with MAX_WKST_DNAME_SZ = 4, after a successful
registration of "abcd" and with the whole pool free, wskt_open("abcd") returns
NULL and leaves the state unchanged, so the driver's open is not invoked. -/
theorem wskt_open_long_name_not_found :
    wskt_registerDevice ⟨2, 3, 4⟩ (init ⟨2, 3, 4⟩) (some [97, 98, 99, 100]) 7 8 =
      .ret () { _devices := [⟨[97, 98, 99, 0], 7, 8⟩, ⟨[0, 0, 0, 0], 0, 0⟩], _devRegIdx := 1,
                _skts := [⟨none, 0, 0⟩, ⟨none, 0, 0⟩, ⟨none, 0, 0⟩], calls := [] } ∧
    wskt_open ⟨2, 3, 4⟩
      { _devices := [⟨[97, 98, 99, 0], 7, 8⟩, ⟨[0, 0, 0, 0], 0, 0⟩], _devRegIdx := 1,
        _skts := [⟨none, 0, 0⟩, ⟨none, 0, 0⟩, ⟨none, 0, 0⟩], calls := [] }
      (some [97, 98, 99, 100]) 1 2 0 =
      .ret none { _devices := [⟨[97, 98, 99, 0], 7, 8⟩, ⟨[0, 0, 0, 0], 0, 0⟩], _devRegIdx := 1,
                  _skts := [⟨none, 0, 0⟩, ⟨none, 0, 0⟩, ⟨none, 0, 0⟩], calls := [] } := by
  decide

/-- C8 fails on the code: with two sockets open on "a", a non-NULL buffer of
size 0 receives one entry (slot 0) and the result is 1, not 0: the size test
comes after the store. -/
theorem wskt_getOpenSockets_writes_into_empty_buffer :
    wskt_getOpenSockets ⟨2, 3, 4⟩
      { _devices := [⟨[97, 0, 0, 0], 7, 8⟩, ⟨[0, 0, 0, 0], 0, 0⟩], _devRegIdx := 1,
        _skts := [⟨some 0, 1, 2⟩, ⟨some 0, 3, 4⟩, ⟨none, 0, 0⟩], calls := [] }
      (some [97]) true 0 = some ([0], 1) := by
  decide

theorem openAll_fill (c : Config) (name : List Nat) (dev fns : Nat) :
    ∀ (free used : List wskt_t) (st : WsktMgr) (args : List (Nat × Nat × Int)),
    st._skts = used ++ free → (∀ s ∈ used, s.dev = some dev) → (∀ s ∈ free, s.dev = none) →
    args.length = free.length → (∀ a ∈ args, 0 ≤ a.2.2) →
    findDeviceInst c st name = some dev → devFns st dev = some fns →
    ∃ stN, openAll c name st args = some (stN, List.range' used.length free.length) ∧
      stN._devices = st._devices ∧ stN._skts.length = st._skts.length ∧
      ∀ s ∈ stN._skts, s.dev = some dev := by
  intro free
  induction free with
  | nil =>
    intro used st args hsk hused _ hlen _ _ _
    have : args = [] := List.length_eq_zero.mp (by simpa using hlen)
    subst this
    refine ⟨st, by simp [openAll], rfl, rfl, ?_⟩
    intro s hs
    rw [hsk] at hs
    exact hused s (by simpa using hs)
  | cons a free ih =>
    intro used st args hsk hused hfree hlen hok hfind hfns
    cases args with
    | nil => simp at hlen
    | cons x rest =>
      obtain ⟨evt, eq, r⟩ := x
      have hr : ¬ r < 0 := by
        have := hok (evt, eq, r) (by simp)
        simp only at this
        omega
      have ha : a.dev = none := hfree a (by simp)
      have hall : ∀ s ∈ used, s.dev ≠ none := by
        intro s hs; rw [hused s hs]; simp
      have hopen := wskt_open_alloc c st name evt eq r dev used a free hfind hsk ha hall
      rw [hfns] at hopen
      simp only [hr, if_false] at hopen
      have hfind1 : findDeviceInst c { st with
          _skts := used ++ { dev := some dev, evt := evt, eq := eq } :: free
          calls := st.calls ++
            [{ fns := fns, op := .op_open, skt := used.length,
               arg := { dev := some dev, evt := evt, eq := eq } }] } name = some dev := hfind
      have hfns1 : devFns { st with
          _skts := used ++ { dev := some dev, evt := evt, eq := eq } :: free
          calls := st.calls ++
            [{ fns := fns, op := .op_open, skt := used.length,
               arg := { dev := some dev, evt := evt, eq := eq } }] } dev = some fns := hfns
      obtain ⟨stN, hN, hdevs, hlenN, hallN⟩ := ih
        (used ++ [{ dev := some dev, evt := evt, eq := eq }]) _ rest (by simp) (by
          intro s hs
          rcases List.mem_append.mp hs with h1 | h1
          · exact hused s h1
          · simp at h1; rw [h1])
        (fun s hs => hfree s (by simp [hs])) (by simpa using hlen)
        (fun x hx => hok x (by simp [hx])) hfind1 hfns1
      refine ⟨stN, ?_, hdevs, ?_, hallN⟩
      · simp only [openAll, hopen, hN]
        simp [List.range'_succ]
      · rw [hlenN]; simp [hsk]

/-- C3: from an empty pool, on a name that resolves to a device with a function
table whose open callback succeeds, MAX_WSKTS successive wskt_open calls all
return a socket (slots 0 .. MAX_WSKTS-1); the next wskt_open returns NULL and
leaves the whole state, call log included, unchanged, so the open callback is
not invoked; and after wskt_close of any one of the open sockets (whatever the
driver returns) the next wskt_open returns exactly the freed slot. -/
theorem pool_exhaustion_and_reuse (c : Config) (st0 : WsktMgr) (name : List Nat) (dev fns : Nat)
    (hlen : st0._skts.length = c.MAX_WSKTS) (hempty : ∀ s ∈ st0._skts, s.dev = none)
    (hfind : findDeviceInst c st0 name = some dev) (hfns : devFns st0 dev = some fns)
    (args : List (Nat × Nat × Int)) (hargs : args.length = c.MAX_WSKTS)
    (hok : ∀ a ∈ args, 0 ≤ a.2.2) :
    ∃ stN, openAll c name st0 args = some (stN, List.range c.MAX_WSKTS) ∧
      (∀ evt eq r, wskt_open c stN (some name) evt eq r = .ret none stN) ∧
      (∀ k, k < c.MAX_WSKTS → ∀ rc, ∃ stC,
        wskt_close stN (some (some k)) rc = .ret (rc, none) stC ∧
        ∀ evt eq r, 0 ≤ r → ∃ st2, wskt_open c stC (some name) evt eq r = .ret (some k) st2) := by
  obtain ⟨stN, hN, hdevs, hlenN, hallN⟩ := openAll_fill c name dev fns st0._skts [] st0 args
    (by simp) (by simp) hempty (by rw [hargs, hlen]) hok hfind hfns
  have hfindN : findDeviceInst c stN name = some dev := by
    simpa [findDeviceInst, hdevs] using hfind
  have hfnsN : devFns stN dev = some fns := by
    simpa [devFns, hdevs] using hfns
  refine ⟨stN, ?_, ?_, ?_⟩
  · rw [hN, hlen, List.range_eq_range']; rfl
  · intro evt eq r
    exact wskt_open_full c stN name evt eq r dev hfindN
      (fun s hs => by rw [hallN s hs]; simp)
  · intro k hk rc
    have hkl : k < stN._skts.length := by rw [hlenN, hlen]; exact hk
    have hget : stN._skts[k]? = some stN._skts[k] := List.getElem?_eq_getElem hkl
    obtain ⟨l₁, l₂, hsk, hl⟩ := getElem?_split _ k _ hget
    have hadev : (stN._skts[k]).dev = some dev := hallN _ (List.getElem_mem hkl)
    subst hl
    have hclose := wskt_close_at stN rc l₁ _ l₂ dev hsk hadev
    rw [hfnsN] at hclose
    refine ⟨_, hclose, ?_⟩
    intro evt eq r hr
    have hall : ∀ s ∈ l₁, s.dev ≠ none := by
      intro s hs
      have : s ∈ stN._skts := by rw [hsk]; simp [hs]
      rw [hallN s this]; simp
    have hopen := wskt_open_alloc c
      { stN with
        _skts := l₁ ++ { stN._skts[l₁.length] with dev := none } :: l₂
        calls := stN.calls ++
          [{ fns := fns, op := .op_close, skt := l₁.length, arg := stN._skts[l₁.length] }] }
      name evt eq r dev l₁ { stN._skts[l₁.length] with dev := none } l₂
      (by simpa [findDeviceInst] using hfindN) rfl rfl hall
    have hfnsC : devFns { stN with
        _skts := l₁ ++ { stN._skts[l₁.length] with dev := none } :: l₂
        calls := stN.calls ++
          [{ fns := fns, op := .op_close, skt := l₁.length, arg := stN._skts[l₁.length] }] } dev
        = some fns := by
      simpa [devFns] using hfnsN
    rw [hfnsC] at hopen
    have hr2 : ¬ r < 0 := by omega
    simp only [hr2, if_false] at hopen
    exact ⟨_, hopen⟩

theorem sktMatches_dev (c : Config) (devs : List wskt_device_t) (name : List Nat) (s t : wskt_t)
    (h : s.dev = t.dev) : sktMatches c devs name s = sktMatches c devs name t := by
  simp [sktMatches, h]

theorem getOpenSocketsLoop_congr (c : Config) (devs : List wskt_device_t) (name : List Nat)
    (sbuf : Bool) (bsz : Nat) : ∀ (l l2 : List wskt_t) (i : Nat) (w : List Nat) (si : Nat),
    l.map (fun s => s.dev) = l2.map (fun s => s.dev) →
    getOpenSocketsLoop c devs name sbuf bsz l i w si =
      getOpenSocketsLoop c devs name sbuf bsz l2 i w si := by
  intro l
  induction l with
  | nil =>
    intro l2 i w si h
    have : l2 = [] := by simpa using h.symm
    subst this; rfl
  | cons s rest ih =>
    intro l2 i w si h
    cases l2 with
    | nil => simp at h
    | cons t rest2 =>
      simp only [List.map_cons, List.cons.injEq] at h
      obtain ⟨h1, h2⟩ := h
      simp only [getOpenSocketsLoop, sktMatches_dev c devs name s t h1]
      rw [ih rest2 (i + 1) (w ++ [i]) (si + 1) h2, ih rest2 (i + 1) w (si + 1) h2,
        ih rest2 (i + 1) w si h2]

/-- C4: when the name resolves to a device with a function table and the
driver's open callback returns a negative value, wskt_open returns NULL, every
pool slot has the same free/in-use marking (the same device binding) as before
the call, the registry is unchanged, and wskt_getOpenSockets gives the same
answer as before for every name and buffer. -/
theorem wskt_open_driver_failure (c : Config) (st : WsktMgr) (name : List Nat) (evt eq : Nat)
    (r : Int) (dev fns : Nat) (hfind : findDeviceInst c st name = some dev)
    (hfns : devFns st dev = some fns) (hr : r < 0) :
    ∃ st1, wskt_open c st (some name) evt eq r = .ret none st1 ∧
      st1._skts.map (fun s => s.dev) = st._skts.map (fun s => s.dev) ∧
      st1._devices = st._devices ∧
      ∀ (n : Option (List Nat)) (sbuf : Bool) (bsz : Nat),
        wskt_getOpenSockets c st1 n sbuf bsz = wskt_getOpenSockets c st n sbuf bsz := by
  cases hff : firstFreeFrom st._skts 0 with
  | none =>
    exact ⟨st, wskt_open_full c st name evt eq r dev hfind (firstFreeFrom_none _ 0 hff),
      rfl, rfl, fun _ _ _ => rfl⟩
  | some i0 =>
    obtain ⟨l₁, a, l₂, hsk, _, ha, hall⟩ := firstFreeFrom_some _ 0 i0 hff
    have hopen := wskt_open_alloc c st name evt eq r dev l₁ a l₂ hfind hsk ha hall
    rw [hfns] at hopen
    simp only [hr, if_true] at hopen
    have hmap : (l₁ ++ ({ dev := none, evt := evt, eq := eq } : wskt_t) :: l₂).map (fun s => s.dev)
        = st._skts.map (fun s => s.dev) := by
      rw [hsk]; simp [ha]
    refine ⟨_, hopen, hmap, rfl, ?_⟩
    intro n sbuf bsz
    cases n with
    | none => rfl
    | some nm =>
      simp only [wskt_getOpenSockets]
      rw [getOpenSocketsLoop_congr c st._devices nm sbuf bsz _ st._skts 0 [] 0 hmap]

/-- A failing driver open for C4: the tentatively allocated slot 0 is free again. -/
theorem wskt_open_driver_failure_witness :
    ∃ st1, wskt_open ⟨2, 3, 4⟩
        { _devices := [⟨[97, 0, 0, 0], 7, 8⟩, ⟨[0, 0, 0, 0], 0, 0⟩], _devRegIdx := 1,
          _skts := [⟨none, 0, 0⟩, ⟨some 0, 3, 4⟩, ⟨none, 0, 0⟩], calls := [] }
        (some [97]) 1 2 (-1) = .ret none st1 ∧
      st1._skts.map (fun s => s.dev) =
        ([⟨none, 0, 0⟩, ⟨some 0, 3, 4⟩, ⟨none, 0, 0⟩] : List wskt_t).map (fun s => s.dev) ∧
      st1._devices = [⟨[97, 0, 0, 0], 7, 8⟩, ⟨[0, 0, 0, 0], 0, 0⟩] ∧
      ∀ (n : Option (List Nat)) (sbuf : Bool) (bsz : Nat),
        wskt_getOpenSockets ⟨2, 3, 4⟩ st1 n sbuf bsz =
          wskt_getOpenSockets ⟨2, 3, 4⟩
            { _devices := [⟨[97, 0, 0, 0], 7, 8⟩, ⟨[0, 0, 0, 0], 0, 0⟩], _devRegIdx := 1,
              _skts := [⟨none, 0, 0⟩, ⟨some 0, 3, 4⟩, ⟨none, 0, 0⟩], calls := [] } n sbuf bsz :=
  wskt_open_driver_failure ⟨2, 3, 4⟩
    { _devices := [⟨[97, 0, 0, 0], 7, 8⟩, ⟨[0, 0, 0, 0], 0, 0⟩], _devRegIdx := 1,
      _skts := [⟨none, 0, 0⟩, ⟨some 0, 3, 4⟩, ⟨none, 0, 0⟩], calls := [] }
    [97] 1 2 (-1) 0 7 (by decide) (by decide) (by decide)

/-- C5: for a socket in use (slot i bound to a device with a function table)
and every driver return code r, wskt_close returns r and a NULL handle; the
driver's close is invoked exactly once (one record is added to the call log),
and the socket it receives is the slot as it was before the call, still bound
to its device; afterwards slot i is free with its other fields kept, every
other slot is unchanged and the registry is unchanged. -/
theorem wskt_close_frees_slot (st : WsktMgr) (i : Nat) (s : wskt_t) (d fns : Nat) (r : Int)
    (hs : st._skts[i]? = some s) (hd : s.dev = some d) (hfns : devFns st d = some fns) :
    ∃ st1, wskt_close st (some (some i)) r = .ret (r, none) st1 ∧
      st1.calls = st.calls ++ [{ fns := fns, op := .op_close, skt := i, arg := s }] ∧
      st1._skts[i]? = some { s with dev := none } ∧
      (∀ j, j ≠ i → st1._skts[j]? = st._skts[j]?) ∧
      st1._devices = st._devices ∧ st1._devRegIdx = st._devRegIdx := by
  obtain ⟨l₁, l₂, hsk, hl⟩ := getElem?_split _ i s hs
  subst hl
  have hclose := wskt_close_at st r l₁ s l₂ d hsk hd
  rw [hfns] at hclose
  refine ⟨_, hclose, rfl, ?_, ?_, rfl, rfl⟩
  · simp only
    exact getElem?_at_length l₁ _ l₂
  · intro j hj
    simp only
    rw [getElem?_replace l₁ s, hsk]
    simp [hj]

/-- A close for C5 with a negative driver result: slot 1 of a pool with two open sockets. -/
theorem wskt_close_frees_slot_witness :
    ∃ st1, wskt_close
        { _devices := [⟨[97, 0, 0, 0], 7, 8⟩, ⟨[0, 0, 0, 0], 0, 0⟩], _devRegIdx := 1,
          _skts := [⟨some 0, 1, 2⟩, ⟨some 0, 3, 4⟩, ⟨none, 0, 0⟩], calls := [] }
        (some (some 1)) (-5) = .ret (-5, none) st1 ∧
      st1.calls = [] ++ [{ fns := 7, op := .op_close, skt := 1, arg := ⟨some 0, 3, 4⟩ }] ∧
      st1._skts[1]? = some { (⟨some 0, 3, 4⟩ : wskt_t) with dev := none } ∧
      (∀ j, j ≠ 1 → st1._skts[j]? =
        ([⟨some 0, 1, 2⟩, ⟨some 0, 3, 4⟩, ⟨none, 0, 0⟩] : List wskt_t)[j]?) ∧
      st1._devices = [⟨[97, 0, 0, 0], 7, 8⟩, ⟨[0, 0, 0, 0], 0, 0⟩] ∧ st1._devRegIdx = 1 :=
  wskt_close_frees_slot
    { _devices := [⟨[97, 0, 0, 0], 7, 8⟩, ⟨[0, 0, 0, 0], 0, 0⟩], _devRegIdx := 1,
      _skts := [⟨some 0, 1, 2⟩, ⟨some 0, 3, 4⟩, ⟨none, 0, 0⟩], calls := [] }
    1 ⟨some 0, 3, 4⟩ 0 7 (-5) (by decide) (by decide) (by decide)

/-- A run for C3 with a pool of three slots. -/
theorem pool_exhaustion_and_reuse_witness :
    ∃ stN, openAll ⟨2, 3, 4⟩ [97]
        { _devices := [⟨[97, 0, 0, 0], 7, 8⟩, ⟨[0, 0, 0, 0], 0, 0⟩], _devRegIdx := 1,
          _skts := [⟨none, 0, 0⟩, ⟨none, 0, 0⟩, ⟨none, 0, 0⟩], calls := [] }
        [(1, 2, 0), (3, 4, 0), (5, 6, 1)] = some (stN, List.range 3) ∧
      (∀ evt eq r, wskt_open ⟨2, 3, 4⟩ stN (some [97]) evt eq r = .ret none stN) ∧
      (∀ k, k < 3 → ∀ rc, ∃ stC,
        wskt_close stN (some (some k)) rc = .ret (rc, none) stC ∧
        ∀ evt eq r, 0 ≤ r →
          ∃ st2, wskt_open ⟨2, 3, 4⟩ stC (some [97]) evt eq r = .ret (some k) st2) :=
  pool_exhaustion_and_reuse ⟨2, 3, 4⟩
    { _devices := [⟨[97, 0, 0, 0], 7, 8⟩, ⟨[0, 0, 0, 0], 0, 0⟩], _devRegIdx := 1,
      _skts := [⟨none, 0, 0⟩, ⟨none, 0, 0⟩, ⟨none, 0, 0⟩], calls := [] }
    [97] 0 7 (by decide) (by decide) (by decide) (by decide)
    [(1, 2, 0), (3, 4, 0), (5, 6, 1)] (by decide) (by decide)

/-- C9: with the executor of the spec, a callback installed and the open of the
real UART succeeding, the events turn-on, TIMEOUT, ME_BLE_RET_INT(TYPE_SERIAL)
take the machine from Off through WaitPowerOn and Starting to SerialRunning,
never landing on WaitTypeSerial, and the user callback is invoked exactly once
over the whole run, with WBLE_COMM_OK. -/
theorem ble_turn_on_serial_reply (env1 env2 env3 : Env) (ctx : bleuartctx) (s fn : Nat)
    (dn : List Nat) (hopen : env1.wskt_open = some s) (hcb : ctx.cbfn = some fn)
    (hdev : ctx.uartDevice = some dn) :
    ∃ m, sm_run (bleMachine .MS_BLE_OFF ctx)
        [(env1, .ME_BLE_ON, 0), (env2, .SM_TIMEOUT, 0), (env3, .ME_BLE_RET_INT, TYPE_SERIAL)]
        = some m ∧
      m.current_state = .MS_BLE_SERIAL_RUNNING ∧
      m.history = [.MS_BLE_WAITPOWERON, .MS_BLE_STARTING, .MS_BLE_SERIAL_RUNNING] ∧
      callbacks m.w.log = [(fn, .WBLE_COMM_OK)] := by
  by_cases hp : ctx.pwrPin < 0 <;> by_cases hc : env2.wskt_ioctl .IOCTL_CHECKTX = 0 <;>
    simp [sm_run, sm_process, sm_handler, bleMachine, _bleSM, State_Off, State_WaitPoweron,
      State_Starting, State_SerialRunning, waitPoweronTimeout, ioctlUart, writeUart,
      sm_timer_start, sm_sendEvent, GPIO_write, callCbfn, callbacks, TYPE_SERIAL,
      hopen, hcb, hdev, hp, hc]

/-- A run for C9: power pin 5, callback 9, the real UART opens as socket 0. -/
theorem ble_turn_on_serial_reply_witness :
    ∃ m, sm_run (bleMachine .MS_BLE_OFF
          { mySMId := 1, myDevice := some [98], uartDevice := some [97], baudrate := 115200,
            pwrPin := 5, uartSelect := 0, uartSkt := none, lastDataTime := 0, cbfn := some 9,
            cardType := 0 })
        [(⟨some 0, fun _ => 0⟩, .ME_BLE_ON, 0), (⟨none, fun _ => 0⟩, .SM_TIMEOUT, 0),
          (⟨none, fun _ => 0⟩, .ME_BLE_RET_INT, TYPE_SERIAL)]
        = some m ∧
      m.current_state = .MS_BLE_SERIAL_RUNNING ∧
      m.history = [.MS_BLE_WAITPOWERON, .MS_BLE_STARTING, .MS_BLE_SERIAL_RUNNING] ∧
      callbacks m.w.log = [(9, .WBLE_COMM_OK)] :=
  ble_turn_on_serial_reply ⟨some 0, fun _ => 0⟩ ⟨none, fun _ => 0⟩ ⟨none, fun _ => 0⟩
    { mySMId := 1, myDevice := some [98], uartDevice := some [97], baudrate := 115200,
      pwrPin := 5, uartSelect := 0, uartSkt := none, lastDataTime := 0, cbfn := some 9,
      cardType := 0 }
    0 9 [97] rfl rfl rfl

/-- C10: with the executor of the spec and the open of the real UART
succeeding, after turn-on and TIMEOUT an ME_BLE_RET_INT whose 32-bit value is
not TYPE_SERIAL lands in WaitTypeSerial; the entry action arms a 500 ms
countdown and writes "AT+TYPE=2\r\n" to the real socket; a following TIMEOUT or
ME_BLE_RET_OK lands in SerialRunning with cardType set to TYPE_SERIAL. -/
theorem ble_turn_on_other_reply (env1 env2 env3 env4 : Env) (ctx : bleuartctx) (s : Nat)
    (dn : List Nat) (v d4 : Nat) (e4 : SmEvent) (hopen : env1.wskt_open = some s)
    (hdev : ctx.uartDevice = some dn) (hv : v % 2 ^ 32 ≠ TYPE_SERIAL)
    (he4 : e4 = .SM_TIMEOUT ∨ e4 = .ME_BLE_RET_OK) :
    ∃ m2 m3 m4,
      sm_run (bleMachine .MS_BLE_OFF ctx) [(env1, .ME_BLE_ON, 0), (env2, .SM_TIMEOUT, 0)]
        = some m2 ∧
      sm_process env3 m2 .ME_BLE_RET_INT v = some m3 ∧
      m3.current_state = .MS_BLE_WAIT_TYPE_SERIAL ∧
      m3.w.log = m2.w.log ++
        [.sm_timer_start ctx.mySMId 500, .wskt_write s "AT+TYPE=2\r\n"] ∧
      m3.w.timer = some 500 ∧
      sm_process env4 m3 e4 d4 = some m4 ∧
      m4.current_state = .MS_BLE_SERIAL_RUNNING ∧
      m4.w.ctx.cardType = TYPE_SERIAL ∧
      m4.history = [.MS_BLE_WAITPOWERON, .MS_BLE_STARTING, .MS_BLE_WAIT_TYPE_SERIAL,
        .MS_BLE_SERIAL_RUNNING] := by
  have hv2 : ¬ (v % 4294967296 = 1) := by simpa [TYPE_SERIAL] using hv
  rcases he4 with h4 | h4 <;> subst h4 <;>
    by_cases hp : ctx.pwrPin < 0 <;> by_cases hc : env2.wskt_ioctl .IOCTL_CHECKTX = 0 <;>
    simp [sm_run, sm_process, sm_handler, bleMachine, _bleSM, State_Off, State_WaitPoweron,
      State_Starting, State_SerialRunning, State_WaitTypeSetSerial, waitPoweronTimeout,
      ioctlUart, writeUart, sm_timer_start, sm_sendEvent, GPIO_write, callCbfn, TYPE_SERIAL,
      BLE_TYPE_SERIAL, hopen, hdev, hp, hc, hv2]

/-- A run for C10: the module answers 3 to the identity query, then acknowledges the mode change. -/
theorem ble_turn_on_other_reply_witness :
    ∃ m2 m3 m4,
      sm_run (bleMachine .MS_BLE_OFF
          { mySMId := 1, myDevice := some [98], uartDevice := some [97], baudrate := 115200,
            pwrPin := 5, uartSelect := 0, uartSkt := none, lastDataTime := 0, cbfn := none,
            cardType := 0 })
        [(⟨some 0, fun _ => 0⟩, .ME_BLE_ON, 0), (⟨none, fun _ => 1⟩, .SM_TIMEOUT, 0)]
        = some m2 ∧
      sm_process ⟨none, fun _ => 0⟩ m2 .ME_BLE_RET_INT 3 = some m3 ∧
      m3.current_state = .MS_BLE_WAIT_TYPE_SERIAL ∧
      m3.w.log = m2.w.log ++ [.sm_timer_start 1 500, .wskt_write 0 "AT+TYPE=2\r\n"] ∧
      m3.w.timer = some 500 ∧
      sm_process ⟨none, fun _ => 0⟩ m3 .ME_BLE_RET_OK 0 = some m4 ∧
      m4.current_state = .MS_BLE_SERIAL_RUNNING ∧
      m4.w.ctx.cardType = TYPE_SERIAL ∧
      m4.history = [.MS_BLE_WAITPOWERON, .MS_BLE_STARTING, .MS_BLE_WAIT_TYPE_SERIAL,
        .MS_BLE_SERIAL_RUNNING] :=
  ble_turn_on_other_reply ⟨some 0, fun _ => 0⟩ ⟨none, fun _ => 1⟩ ⟨none, fun _ => 0⟩
    ⟨none, fun _ => 0⟩
    { mySMId := 1, myDevice := some [98], uartDevice := some [97], baudrate := 115200,
      pwrPin := 5, uartSelect := 0, uartSkt := none, lastDataTime := 0, cbfn := none,
      cardType := 0 }
    0 [97] 3 0 .ME_BLE_RET_OK rfl rfl (by decide) (Or.inr rfl)

/-- C11: with the executor of the spec and a callback installed, a TIMEOUT
processed in Starting (empty log, no reply before) ends in Off; the calls made
are, in order: the callback once with WBLE_COMM_FAIL, then in Off's entry
action wskt_close on the real socket if one is held, then GPIO_write(pin, 1),
the OFF level, if there is a power pin; afterwards uartSkt is NULL. -/
theorem ble_starting_timeout (env : Env) (ctx : bleuartctx) (fn data : Nat)
    (hcb : ctx.cbfn = some fn) :
    ∃ m, sm_process env (bleMachine .MS_BLE_STARTING ctx) .SM_TIMEOUT data = some m ∧
      m.current_state = .MS_BLE_OFF ∧
      m.history = [.MS_BLE_OFF] ∧
      callbacks m.w.log = [(fn, .WBLE_COMM_FAIL)] ∧
      m.w.ctx.uartSkt = none ∧
      m.w.log = [.cbfn fn .WBLE_COMM_FAIL] ++
        (match ctx.uartSkt with
          | some s => [.wskt_close s]
          | none => []) ++
        (if 0 ≤ ctx.pwrPin then [.GPIO_write ctx.pwrPin 1] else []) := by
  cases hs : ctx.uartSkt <;> by_cases hp : 0 ≤ ctx.pwrPin <;>
    simp [sm_process, sm_handler, bleMachine, _bleSM, State_Starting, State_Off, callCbfn,
      closeUartSkt, GPIO_write, callbacks, hcb, hs, hp]

/-- A run for C11: socket 0 held, power pin 5, callback 9. -/
theorem ble_starting_timeout_witness :
    ∃ m, sm_process ⟨none, fun _ => 0⟩ (bleMachine .MS_BLE_STARTING
          { mySMId := 1, myDevice := some [98], uartDevice := some [97], baudrate := 115200,
            pwrPin := 5, uartSelect := 0, uartSkt := some 0, lastDataTime := 0, cbfn := some 9,
            cardType := 0 }) .SM_TIMEOUT 0 = some m ∧
      m.current_state = .MS_BLE_OFF ∧
      m.history = [.MS_BLE_OFF] ∧
      callbacks m.w.log = [(9, .WBLE_COMM_FAIL)] ∧
      m.w.ctx.uartSkt = none ∧
      m.w.log = [.cbfn 9 .WBLE_COMM_FAIL] ++ [.wskt_close 0] ++ [.GPIO_write 5 1] :=
  ble_starting_timeout ⟨none, fun _ => 0⟩
    { mySMId := 1, myDevice := some [98], uartDevice := some [97], baudrate := 115200,
      pwrPin := 5, uartSelect := 0, uartSkt := some 0, lastDataTime := 0, cbfn := some 9,
      cardType := 0 } 9 0 rfl

/-- C12: with the executor of the spec and a callback installed, from
SerialRunning turn-off lands in StoppingComm (arming the 500 ms drain
countdown) and a turn-on processed before the TIMEOUT lands back in
SerialRunning with exactly one WBLE_COMM_OK callback; the countdown is still
armed, and when its TIMEOUT is then delivered the machine stays in
SerialRunning. No wskt_close is in the log after either step, and the context
still holds the same real socket. -/
theorem ble_stop_then_turn_on (env1 env2 env3 : Env) (ctx : bleuartctx) (fn d1 d2 d3 : Nat)
    (hcb : ctx.cbfn = some fn) :
    ∃ m1 m2 m3,
      sm_process env1 (bleMachine .MS_BLE_SERIAL_RUNNING ctx) .ME_BLE_OFF d1 = some m1 ∧
      m1.current_state = .MS_BLE_STOPPINGCOMM ∧
      sm_process env2 m1 .ME_BLE_ON d2 = some m2 ∧
      m2.current_state = .MS_BLE_SERIAL_RUNNING ∧
      callbacks m2.w.log = [(fn, .WBLE_COMM_OK)] ∧
      m2.w.log = [.sm_timer_start ctx.mySMId 500, .cbfn fn .WBLE_COMM_OK] ∧
      m2.w.timer = some 500 ∧
      sm_process env3 m2 .SM_TIMEOUT d3 = some m3 ∧
      m3.current_state = .MS_BLE_SERIAL_RUNNING ∧
      m3.w.log = m2.w.log ∧
      (∀ a ∈ m3.w.log, ∀ s, a ≠ .wskt_close s) ∧
      m3.w.ctx = ctx ∧
      m3.history = [.MS_BLE_STOPPINGCOMM, .MS_BLE_SERIAL_RUNNING] := by
  simp [sm_process, sm_handler, bleMachine, _bleSM, State_SerialRunning, State_StoppingComm,
    callCbfn, sm_timer_start, callbacks, hcb]

/-- A run for C12: socket 0 held, callback 9. -/
theorem ble_stop_then_turn_on_witness :
    ∃ m1 m2 m3,
      sm_process ⟨none, fun _ => 0⟩ (bleMachine .MS_BLE_SERIAL_RUNNING
          { mySMId := 1, myDevice := some [98], uartDevice := some [97], baudrate := 115200,
            pwrPin := 5, uartSelect := 0, uartSkt := some 0, lastDataTime := 0, cbfn := some 9,
            cardType := 1 }) .ME_BLE_OFF 0 = some m1 ∧
      m1.current_state = .MS_BLE_STOPPINGCOMM ∧
      sm_process ⟨none, fun _ => 0⟩ m1 .ME_BLE_ON 0 = some m2 ∧
      m2.current_state = .MS_BLE_SERIAL_RUNNING ∧
      callbacks m2.w.log = [(9, .WBLE_COMM_OK)] ∧
      m2.w.log = [.sm_timer_start 1 500, .cbfn 9 .WBLE_COMM_OK] ∧
      m2.w.timer = some 500 ∧
      sm_process ⟨none, fun _ => 0⟩ m2 .SM_TIMEOUT 0 = some m3 ∧
      m3.current_state = .MS_BLE_SERIAL_RUNNING ∧
      m3.w.log = m2.w.log ∧
      (∀ a ∈ m3.w.log, ∀ s, a ≠ .wskt_close s) ∧
      m3.w.ctx =
        { mySMId := 1, myDevice := some [98], uartDevice := some [97], baudrate := 115200,
          pwrPin := 5, uartSelect := 0, uartSkt := some 0, lastDataTime := 0, cbfn := some 9,
          cardType := 1 } ∧
      m3.history = [.MS_BLE_STOPPINGCOMM, .MS_BLE_SERIAL_RUNNING] :=
  ble_stop_then_turn_on ⟨none, fun _ => 0⟩ ⟨none, fun _ => 0⟩ ⟨none, fun _ => 0⟩
    { mySMId := 1, myDevice := some [98], uartDevice := some [97], baudrate := 115200,
      pwrPin := 5, uartSelect := 0, uartSkt := some 0, lastDataTime := 0, cbfn := some 9,
      cardType := 1 } 9 0 0 0 rfl

/-- C13: what each handler does with turn-on (ME_BLE_ON), for every context,
log, countdown and queue: Off returns MS_BLE_WAITPOWERON and changes nothing;
StoppingComm returns MS_BLE_SERIAL_RUNNING after one WBLE_COMM_OK callback when
a callback is set (and nothing else: no wskt_close, context unchanged);
WaitPowerOn, Starting, WaitTypeSerial and SerialRunning return
SM_STATE_CURRENT and leave context, log, countdown and queue as they were. -/
theorem ble_turn_on_by_state (env : Env) (w : World) (data : Nat) :
    State_Off env w .ME_BLE_ON data = .ret (.state .MS_BLE_WAITPOWERON) w ∧
    State_StoppingComm env w .ME_BLE_ON data = .ret (.state .MS_BLE_SERIAL_RUNNING)
      (match w.ctx.cbfn with
        | some fn => { w with log := w.log ++ [.cbfn fn .WBLE_COMM_OK] }
        | none => w) ∧
    State_WaitPoweron env w .ME_BLE_ON data = .ret .SM_STATE_CURRENT w ∧
    State_Starting env w .ME_BLE_ON data = .ret .SM_STATE_CURRENT w ∧
    State_WaitTypeSetSerial env w .ME_BLE_ON data = .ret .SM_STATE_CURRENT w ∧
    State_SerialRunning env w .ME_BLE_ON data = .ret .SM_STATE_CURRENT w := by
  refine ⟨rfl, ?_, rfl, rfl, rfl, rfl⟩
  cases hc : w.ctx.cbfn <;> simp [State_StoppingComm, callCbfn, hc]

/-- C14: what each handler does with turn-off (ME_BLE_OFF), for every context,
log, countdown and queue: WaitPowerOn, Starting and WaitTypeSerial return
MS_BLE_OFF and change nothing; SerialRunning returns MS_BLE_STOPPINGCOMM and
changes nothing (no wskt_close); StoppingComm calls wskt_close on the real
socket if one is held, leaves uartSkt NULL and returns MS_BLE_OFF; Off returns
SM_STATE_CURRENT and changes nothing. In no state is the callback invoked. -/
theorem ble_turn_off_by_state (env : Env) (w : World) (data : Nat) :
    State_WaitPoweron env w .ME_BLE_OFF data = .ret (.state .MS_BLE_OFF) w ∧
    State_Starting env w .ME_BLE_OFF data = .ret (.state .MS_BLE_OFF) w ∧
    State_WaitTypeSetSerial env w .ME_BLE_OFF data = .ret (.state .MS_BLE_OFF) w ∧
    State_SerialRunning env w .ME_BLE_OFF data = .ret (.state .MS_BLE_STOPPINGCOMM) w ∧
    State_Off env w .ME_BLE_OFF data = .ret .SM_STATE_CURRENT w ∧
    (∃ w1, State_StoppingComm env w .ME_BLE_OFF data = .ret (.state .MS_BLE_OFF) w1 ∧
      w1 = (match w.ctx.uartSkt with
        | some s => { w with ctx := { w.ctx with uartSkt := none },
                             log := w.log ++ [.wskt_close s] }
        | none => w) ∧
      w1.ctx.uartSkt = none ∧ callbacks w1.log = callbacks w.log) := by
  refine ⟨rfl, rfl, rfl, rfl, rfl, ?_⟩
  cases hs : w.ctx.uartSkt <;>
    simp [State_StoppingComm, closeUartSkt, callbacks, hs, List.filterMap_append]

/-- C15 does not hold for every context: in WaitPowerOn with no real socket
(uartSkt NULL, as after a failed open) the TIMEOUT branch calls wskt_ioctl on
the NULL socket, whose assert fails; the handler does not return
MS_BLE_STARTING. -/
theorem ble_waitpoweron_timeout_without_socket :
    State_WaitPoweron ⟨none, fun _ => 0⟩
      { ctx := { mySMId := 1, myDevice := some [98], uartDevice := some [97],
                 baudrate := 115200, pwrPin := 5, uartSelect := 0, uartSkt := none,
                 lastDataTime := 0, cbfn := some 9, cardType := 0 }
        log := [], timer := none, posted := [] }
      .SM_TIMEOUT 0 =
    .abort
      { ctx := { mySMId := 1, myDevice := some [98], uartDevice := some [97],
                 baudrate := 115200, pwrPin := 5, uartSelect := 0, uartSkt := none,
                 lastDataTime := 0, cbfn := some 9, cardType := 0 }
        log := [], timer := none, posted := [] } := by
  decide

/-- C15, amended: what the handlers do with TIMEOUT. WaitPowerOn, when the
context holds a real socket, returns MS_BLE_STARTING with the context unchanged
and no callback; Starting invokes the callback once with WBLE_COMM_FAIL when
one is set and returns MS_BLE_OFF; WaitTypeSerial sets cardType to TYPE_SERIAL,
makes no call and returns MS_BLE_SERIAL_RUNNING; StoppingComm calls wskt_close
on the real socket if one is held, leaves uartSkt NULL and returns MS_BLE_OFF. -/
theorem ble_timeout_by_state (env : Env) (w : World) (data : Nat) :
    (∀ s, w.ctx.uartSkt = some s →
      ∃ w1, State_WaitPoweron env w .SM_TIMEOUT data = .ret (.state .MS_BLE_STARTING) w1 ∧
        w1.ctx = w.ctx ∧ callbacks w1.log = callbacks w.log) ∧
    State_Starting env w .SM_TIMEOUT data = .ret (.state .MS_BLE_OFF)
      (match w.ctx.cbfn with
        | some fn => { w with log := w.log ++ [.cbfn fn .WBLE_COMM_FAIL] }
        | none => w) ∧
    State_WaitTypeSetSerial env w .SM_TIMEOUT data = .ret (.state .MS_BLE_SERIAL_RUNNING)
      { w with ctx := { w.ctx with cardType := TYPE_SERIAL } } ∧
    (∃ w1, State_StoppingComm env w .SM_TIMEOUT data = .ret (.state .MS_BLE_OFF) w1 ∧
      w1 = (match w.ctx.uartSkt with
        | some s => { w with ctx := { w.ctx with uartSkt := none },
                             log := w.log ++ [.wskt_close s] }
        | none => w) ∧
      w1.ctx.uartSkt = none) := by
  refine ⟨?_, ?_, rfl, ?_⟩
  · intro s hs
    by_cases hc : env.wskt_ioctl .IOCTL_CHECKTX = 0 <;>
      simp [State_WaitPoweron, waitPoweronTimeout, ioctlUart, hs, hc, callbacks,
        List.filterMap_append]
  · cases hc : w.ctx.cbfn <;> simp [State_Starting, callCbfn, hc]
  · cases hs : w.ctx.uartSkt <;> simp [State_StoppingComm, closeUartSkt, hs]

/-- TIMEOUT in WaitPowerOn for C15, amended: socket 0 held, pending transmit data reported. -/
theorem ble_timeout_by_state_witness :
    ∃ w1, State_WaitPoweron ⟨none, fun _ => 1⟩
        { ctx := { mySMId := 1, myDevice := some [98], uartDevice := some [97],
                   baudrate := 115200, pwrPin := 5, uartSelect := 0, uartSkt := some 0,
                   lastDataTime := 0, cbfn := some 9, cardType := 0 }
          log := [], timer := none, posted := [] }
        .SM_TIMEOUT 0 = .ret (.state .MS_BLE_STARTING) w1 ∧
      w1.ctx = { mySMId := 1, myDevice := some [98], uartDevice := some [97],
                 baudrate := 115200, pwrPin := 5, uartSelect := 0, uartSkt := some 0,
                 lastDataTime := 0, cbfn := some 9, cardType := 0 } ∧
      callbacks w1.log = callbacks [] :=
  (ble_timeout_by_state ⟨none, fun _ => 1⟩
    { ctx := { mySMId := 1, myDevice := some [98], uartDevice := some [97],
               baudrate := 115200, pwrPin := 5, uartSelect := 0, uartSkt := some 0,
               lastDataTime := 0, cbfn := some 9, cardType := 0 }
      log := [], timer := none, posted := [] } 0).1 0 rfl

/-- C18: TIMEOUT in WaitPowerOn, for every context holding a real socket s and
whatever the ioctls return: the calls made are, in order, wskt_ioctl on s with
IOCTL_CHECKTX; IOCTL_FLUSHTXRX exactly when the check returned non-zero;
IOCTL_SET_BAUD with the configured baud rate; IOCTL_SETEOL with 0x0A;
IOCTL_FILTERASCII with 1; IOCTL_SELECTUART with the configured selector.
Nothing else changes and the result is MS_BLE_STARTING. -/
theorem ble_waitpoweron_timeout_ioctls (env : Env) (w : World) (data s : Nat)
    (hs : w.ctx.uartSkt = some s) :
    State_WaitPoweron env w .SM_TIMEOUT data = .ret (.state .MS_BLE_STARTING)
      { w with log := w.log ++ [.wskt_ioctl s .IOCTL_CHECKTX 0] ++
          (if env.wskt_ioctl .IOCTL_CHECKTX ≠ 0 then [.wskt_ioctl s .IOCTL_FLUSHTXRX 0]
            else []) ++
          [.wskt_ioctl s .IOCTL_SET_BAUD w.ctx.baudrate, .wskt_ioctl s .IOCTL_SETEOL 10,
            .wskt_ioctl s .IOCTL_FILTERASCII 1,
            .wskt_ioctl s .IOCTL_SELECTUART w.ctx.uartSelect] } := by
  by_cases hc : env.wskt_ioctl .IOCTL_CHECKTX = 0 <;>
    simp [State_WaitPoweron, waitPoweronTimeout, ioctlUart, hs, hc]

/-- TIMEOUT in WaitPowerOn for C18 with pending transmit data: the flush is issued. -/
theorem ble_waitpoweron_timeout_ioctls_witness :
    State_WaitPoweron ⟨none, fun _ => 3⟩
        { ctx := { mySMId := 1, myDevice := some [98], uartDevice := some [97],
                   baudrate := 115200, pwrPin := 5, uartSelect := 2, uartSkt := some 0,
                   lastDataTime := 0, cbfn := none, cardType := 0 }
          log := [], timer := none, posted := [] }
        .SM_TIMEOUT 0 =
      .ret (.state .MS_BLE_STARTING)
        { ctx := { mySMId := 1, myDevice := some [98], uartDevice := some [97],
                   baudrate := 115200, pwrPin := 5, uartSelect := 2, uartSkt := some 0,
                   lastDataTime := 0, cbfn := none, cardType := 0 }
          log := [] ++ [.wskt_ioctl 0 .IOCTL_CHECKTX 0] ++
            (if (3 : Int) ≠ 0 then [.wskt_ioctl 0 .IOCTL_FLUSHTXRX 0] else []) ++
            [.wskt_ioctl 0 .IOCTL_SET_BAUD 115200, .wskt_ioctl 0 .IOCTL_SETEOL 10,
              .wskt_ioctl 0 .IOCTL_FILTERASCII 1, .wskt_ioctl 0 .IOCTL_SELECTUART 2]
          timer := none, posted := [] } :=
  ble_waitpoweron_timeout_ioctls ⟨none, fun _ => 3⟩
    { ctx := { mySMId := 1, myDevice := some [98], uartDevice := some [97],
               baudrate := 115200, pwrPin := 5, uartSelect := 2, uartSkt := some 0,
               lastDataTime := 0, cbfn := none, cardType := 0 }
      log := [], timer := none, posted := [] } 0 0 rfl

theorem sm_handler_bleSM (s : BLEStates) :
    sm_handler _bleSM s = some (match s with
      | .MS_BLE_OFF => State_Off
      | .MS_BLE_WAITPOWERON => State_WaitPoweron
      | .MS_BLE_STARTING => State_Starting
      | .MS_BLE_WAIT_TYPE_SERIAL => State_WaitTypeSetSerial
      | .MS_BLE_SERIAL_RUNNING => State_SerialRunning
      | .MS_BLE_STOPPINGCOMM => State_StoppingComm) := by
  cases s <;> rfl

/-- The two ways `sm_process` can end normally: no transition, or EXIT then ENTER. -/
theorem sm_process_cases (env : Env) (m m1 : Machine) (e : SmEvent) (data : Nat)
    (h : sm_process env m e data = some m1) :
    (∃ hd w1, sm_handler m.state_table m.current_state = some hd ∧
      hd env (if e = .SM_TIMEOUT then { m.w with timer := none } else m.w) e data =
        .ret .SM_STATE_CURRENT w1 ∧
      m1 = { m with w := w1 }) ∨
    (∃ hd next w1 r2 w2 hd2 r3 w3,
      sm_handler m.state_table m.current_state = some hd ∧
      hd env (if e = .SM_TIMEOUT then { m.w with timer := none } else m.w) e data =
        .ret (.state next) w1 ∧
      hd env w1 .SM_EXIT data = .ret r2 w2 ∧
      sm_handler m.state_table next = some hd2 ∧
      hd2 env w2 .SM_ENTER data = .ret r3 w3 ∧
      m1 = { m with current_state := next, w := w3, history := m.history ++ [next] }) := by
  unfold sm_process at h
  simp only at h
  split at h
  · cases h
  · rename_i hd hhd
    split at h
    · cases h
    · rename_i w1 h1
      injection h with h
      exact Or.inl ⟨hd, w1, hhd, h1, h.symm⟩
    · rename_i next w1 h1
      split at h
      · cases h
      · rename_i r2 w2 h2
        split at h
        · cases h
        · rename_i hd2 hhd2
          split at h
          · cases h
          · rename_i r3 w3 h3
            injection h with h
            exact Or.inr ⟨hd, next, w1, r2, w2, hd2, r3, w3, hhd, h1, h2, hhd2, h3, h.symm⟩

theorem State_Off_enter (env : Env) (w : World) (data : Nat) :
    State_Off env w .SM_ENTER data = .ret .SM_STATE_CURRENT
      { w with
        ctx := { w.ctx with uartSkt := none }
        log := w.log ++
          (match w.ctx.uartSkt with
            | some s => [.wskt_close s]
            | none => []) ++
          (if 0 ≤ w.ctx.pwrPin then [.GPIO_write w.ctx.pwrPin 1] else []) } := by
  obtain ⟨ctx, log, timer, posted⟩ := w
  cases hs : ctx.uartSkt <;> by_cases hp : 0 ≤ ctx.pwrPin <;>
    simp [State_Off, closeUartSkt, GPIO_write, hs, hp]
  all_goals (rw [← hs])

theorem State_Off_keeps_no_socket (env : Env) (w w1 : World) (e : SmEvent) (data : Nat)
    (r : SM_STATE_ID_t) (hw : w.ctx.uartSkt = none) (h : State_Off env w e data = .ret r w1) :
    w1.ctx.uartSkt = none := by
  cases e <;> simp [State_Off, closeUartSkt, GPIO_write, hw] at h
  all_goals (try (obtain ⟨_, h2⟩ := h; rw [← h2]; try exact hw))
  all_goals (split <;> simp_all)

theorem off_inv_step (env : Env) (m m1 : Machine) (e : SmEvent) (data : Nat)
    (htbl : m.state_table = _bleSM)
    (hinv : m.current_state = .MS_BLE_OFF → m.w.ctx.uartSkt = none)
    (h : sm_process env m e data = some m1) :
    m1.state_table = _bleSM ∧ (m1.current_state = .MS_BLE_OFF → m1.w.ctx.uartSkt = none) := by
  rcases sm_process_cases env m m1 e data h with
    ⟨hd, w1, hhd, h1, hm⟩ | ⟨hd, next, w1, r2, w2, hd2, r3, w3, hhd, h1, h2, hhd2, h3, hm⟩
  · subst hm
    refine ⟨htbl, ?_⟩
    intro hoff
    simp only at hoff
    simp only
    rw [htbl, hoff, sm_handler_bleSM] at hhd
    injection hhd with hhd
    subst hhd
    have hw := hinv hoff
    refine State_Off_keeps_no_socket env _ w1 e data _ ?_ h1
    split <;> simpa using hw
  · subst hm
    refine ⟨htbl, ?_⟩
    intro hoff
    simp only at hoff
    simp only
    subst hoff
    rw [htbl, sm_handler_bleSM] at hhd2
    injection hhd2 with hhd2
    subst hhd2
    change State_Off env w2 .SM_ENTER data = _ at h3
    rw [State_Off_enter] at h3
    injection h3 with _ h3
    rw [← h3]

theorem off_inv_run : ∀ (evs : List (Env × SmEvent × Nat)) (m m1 : Machine),
    m.state_table = _bleSM → (m.current_state = .MS_BLE_OFF → m.w.ctx.uartSkt = none) →
    sm_run m evs = some m1 →
    m1.state_table = _bleSM ∧ (m1.current_state = .MS_BLE_OFF → m1.w.ctx.uartSkt = none) := by
  intro evs
  induction evs with
  | nil =>
    intro m m1 htbl hinv h
    simp [sm_run] at h
    subst h
    exact ⟨htbl, hinv⟩
  | cons x rest ih =>
    intro m m1 htbl hinv h
    obtain ⟨env, e, data⟩ := x
    simp only [sm_run] at h
    cases hp : sm_process env m e data with
    | none => rw [hp] at h; simp at h
    | some m2 =>
      rw [hp] at h
      obtain ⟨h1, h2⟩ := off_inv_step env m m2 e data htbl hinv hp
      exact ih m2 m1 h1 h2 h

/-- C19: the ENTER action of Off, for every context, log, countdown and queue:
it calls wskt_close on the real socket if one is held and leaves uartSkt NULL,
then calls GPIO_write(pin, 1) when pwrPin >= 0 and touches no pin otherwise;
the countdown and the queue are as before, no callback is invoked and the
result is SM_STATE_CURRENT. Consequently, with the executor of the spec: every
step of the BLE machine that lands in Off leaves uartSkt NULL, and after
sm_start in Off and any events, the context holds no real socket whenever the
machine is in Off. -/
theorem ble_off_enter_and_invariant :
    (∀ (env : Env) (w : World) (data : Nat),
      ∃ w1, State_Off env w .SM_ENTER data = .ret .SM_STATE_CURRENT w1 ∧
        w1.ctx = { w.ctx with uartSkt := none } ∧
        w1.log = w.log ++
          (match w.ctx.uartSkt with
            | some s => [.wskt_close s]
            | none => []) ++
          (if 0 ≤ w.ctx.pwrPin then [.GPIO_write w.ctx.pwrPin 1] else []) ∧
        w1.timer = w.timer ∧ w1.posted = w.posted ∧
        callbacks w1.log = callbacks w.log) ∧
    (∀ (env : Env) (m m1 : Machine) (e : SmEvent) (data : Nat),
      m.state_table = _bleSM → sm_process env m e data = some m1 →
      m1.history = m.history ++ [.MS_BLE_OFF] → m1.w.ctx.uartSkt = none) ∧
    (∀ (env0 : Env) (ctx : bleuartctx) (evs : List (Env × SmEvent × Nat)) (m0 m1 : Machine),
      sm_start env0 (bleMachine .MS_BLE_OFF ctx) = some m0 → sm_run m0 evs = some m1 →
      m1.current_state = .MS_BLE_OFF → m1.w.ctx.uartSkt = none) := by
  refine ⟨?_, ?_, ?_⟩
  · intro env w data
    refine ⟨_, State_Off_enter env w data, rfl, rfl, rfl, rfl, ?_⟩
    cases hs : w.ctx.uartSkt <;> by_cases hp : 0 ≤ w.ctx.pwrPin <;>
      simp [callbacks, List.filterMap_append, hp]
  · intro env m m1 e data htbl h hhist
    rcases sm_process_cases env m m1 e data h with
      ⟨hd, w1, hhd, h1, hm⟩ | ⟨hd, next, w1, r2, w2, hd2, r3, w3, hhd, h1, h2, hhd2, h3, hm⟩
    · subst hm
      simp at hhist
    · subst hm
      simp only [List.append_cancel_left_eq, List.cons.injEq, and_true] at hhist
      subst hhist
      rw [htbl, sm_handler_bleSM] at hhd2
      injection hhd2 with hhd2
      subst hhd2
      change State_Off env w2 .SM_ENTER data = _ at h3
      rw [State_Off_enter] at h3
      injection h3 with _ h3
      rw [← h3]
  · intro env0 ctx evs m0 m1 hstart hrun hoff
    have h0 : m0.state_table = _bleSM ∧ m0.w.ctx.uartSkt = none := by
      simp only [sm_start, bleMachine, sm_handler_bleSM, State_Off_enter] at hstart
      injection hstart with hstart
      rw [← hstart]
      exact ⟨rfl, rfl⟩
    exact (off_inv_run evs m0 m1 h0.1 (fun _ => h0.2) hrun).2 hoff

/-- A run for C19: started in Off, turned on with a socket opened, turned off
again before the power-up countdown ends; the machine is back in Off without a socket. -/
theorem ble_off_enter_and_invariant_witness :
    ∃ m0 m1 : Machine,
      sm_start ⟨none, fun _ => 0⟩ (bleMachine .MS_BLE_OFF
        { mySMId := 1, myDevice := some [98], uartDevice := some [97], baudrate := 115200,
          pwrPin := 5, uartSelect := 0, uartSkt := none, lastDataTime := 0, cbfn := none,
          cardType := 0 }) = some m0 ∧
      sm_run m0 [(⟨some 0, fun _ => 0⟩, .ME_BLE_ON, 0), (⟨none, fun _ => 0⟩, .ME_BLE_OFF, 0)]
        = some m1 ∧
      m1.current_state = .MS_BLE_OFF ∧
      m1.history = [.MS_BLE_OFF, .MS_BLE_WAITPOWERON, .MS_BLE_OFF] ∧
      m1.w.ctx.uartSkt = none := by
  refine ⟨_, _, rfl, rfl, rfl, rfl, ?_⟩
  exact ble_off_enter_and_invariant.2.2 ⟨none, fun _ => 0⟩
    { mySMId := 1, myDevice := some [98], uartDevice := some [97], baudrate := 115200,
      pwrPin := 5, uartSelect := 0, uartSkt := none, lastDataTime := 0, cbfn := none,
      cardType := 0 }
    [(⟨some 0, fun _ => 0⟩, .ME_BLE_ON, 0), (⟨none, fun _ => 0⟩, .ME_BLE_OFF, 0)]
    _ _ rfl rfl rfl

/-- C22: for each of the six handlers, every context, log, countdown and queue,
and every event code the handler has no case label for (any of the named codes
it does not list, and every other integer code), the handler returns
SM_STATE_CURRENT and changes nothing: the default branch only logs. -/
theorem ble_unhandled_event_ignored (s : BLEStates) (env : Env) (w : World) (e : SmEvent)
    (data : Nat) (h : e ∉ explicitCases s) :
    bleHandler s env w e data = .ret .SM_STATE_CURRENT w := by
  cases s <;> cases e <;> simp [explicitCases] at h <;> rfl

/-- An unlisted integer code for C22: code 42 in SerialRunning. -/
theorem ble_unhandled_event_ignored_witness :
    bleHandler .MS_BLE_SERIAL_RUNNING ⟨none, fun _ => 0⟩
      { ctx := { mySMId := 1, myDevice := some [98], uartDevice := some [97],
                 baudrate := 115200, pwrPin := 5, uartSelect := 0, uartSkt := some 0,
                 lastDataTime := 0, cbfn := some 9, cardType := 1 }
        log := [], timer := none, posted := [] }
      (.other 42) 7 =
    .ret .SM_STATE_CURRENT
      { ctx := { mySMId := 1, myDevice := some [98], uartDevice := some [97],
                 baudrate := 115200, pwrPin := 5, uartSelect := 0, uartSkt := some 0,
                 lastDataTime := 0, cbfn := some 9, cardType := 1 }
        log := [], timer := none, posted := [] } :=
  ble_unhandled_event_ignored .MS_BLE_SERIAL_RUNNING ⟨none, fun _ => 0⟩ _ (.other 42) 7
    (by decide)

/-- What one call of the Off handler adds to the log: at most one callback, never a failure report. -/
theorem cb_rule_off (env : Env) (w : World) (e : SmEvent) (data : Nat) :
    ∃ added, (bleHandler .MS_BLE_OFF env w e data).world.log = w.log ++ added ∧
      (callbacks added).length ≤ 1 ∧
      (∀ fn, (fn, WbleStatus.WBLE_COMM_FAIL) ∉ callbacks added) := by
  refine ⟨(bleHandler .MS_BLE_OFF env w e data).world.log.drop w.log.length, ?_⟩
  cases e <;> cases hs : w.ctx.uartSkt <;> by_cases hp : 0 ≤ w.ctx.pwrPin <;>
    simp [bleHandler, HRes.world, State_Off, State_WaitPoweron, State_Starting, State_WaitTypeSetSerial, State_SerialRunning, State_StoppingComm, waitPoweronTimeout, ioctlUart, writeUart, sm_timer_start, sm_sendEvent, GPIO_write, callCbfn, closeUartSkt, callbacks, hs, hp]

theorem cb_rule_waitpoweron (env : Env) (w : World) (e : SmEvent) (data : Nat) :
    ∃ added, (bleHandler .MS_BLE_WAITPOWERON env w e data).world.log = w.log ++ added ∧
      (callbacks added).length ≤ 1 ∧
      (∀ fn, (fn, WbleStatus.WBLE_COMM_FAIL) ∈ callbacks added →
        bleHandler .MS_BLE_WAITPOWERON env w e data =
          .ret (.state .MS_BLE_OFF) (bleHandler .MS_BLE_WAITPOWERON env w e data).world ∧
        e = .ME_BLE_UART_NOK) := by
  refine ⟨(bleHandler .MS_BLE_WAITPOWERON env w e data).world.log.drop w.log.length, ?_⟩
  cases e
  case SM_ENTER =>
    cases hd : w.ctx.uartDevice <;> cases ho : env.wskt_open <;>
      by_cases hp : w.ctx.pwrPin < 0 <;>
      simp [bleHandler, HRes.world, State_Off, State_WaitPoweron, State_Starting, State_WaitTypeSetSerial, State_SerialRunning, State_StoppingComm, waitPoweronTimeout, ioctlUart, writeUart, sm_timer_start, sm_sendEvent, GPIO_write, callCbfn, closeUartSkt, callbacks, hd, ho, hp]
  case SM_TIMEOUT =>
    cases hs : w.ctx.uartSkt <;> by_cases hk : env.wskt_ioctl .IOCTL_CHECKTX = 0 <;>
      simp [bleHandler, HRes.world, State_Off, State_WaitPoweron, State_Starting, State_WaitTypeSetSerial, State_SerialRunning, State_StoppingComm, waitPoweronTimeout, ioctlUart, writeUart, sm_timer_start, sm_sendEvent, GPIO_write, callCbfn, closeUartSkt, callbacks, hs, hk]
  case ME_BLE_UART_NOK =>
    cases hc : w.ctx.cbfn <;>
      simp [bleHandler, HRes.world, State_Off, State_WaitPoweron, State_Starting, State_WaitTypeSetSerial, State_SerialRunning, State_StoppingComm, waitPoweronTimeout, ioctlUart, writeUart, sm_timer_start, sm_sendEvent, GPIO_write, callCbfn, closeUartSkt, callbacks, hc]
  all_goals
    simp [bleHandler, HRes.world, State_Off, State_WaitPoweron, State_Starting, State_WaitTypeSetSerial, State_SerialRunning, State_StoppingComm, waitPoweronTimeout, ioctlUart, writeUart, sm_timer_start, sm_sendEvent, GPIO_write, callCbfn, closeUartSkt, callbacks]

theorem cb_rule_starting (env : Env) (w : World) (e : SmEvent) (data : Nat) :
    ∃ added, (bleHandler .MS_BLE_STARTING env w e data).world.log = w.log ++ added ∧
      (callbacks added).length ≤ 1 ∧
      (∀ fn, (fn, WbleStatus.WBLE_COMM_FAIL) ∈ callbacks added →
        bleHandler .MS_BLE_STARTING env w e data =
          .ret (.state .MS_BLE_OFF) (bleHandler .MS_BLE_STARTING env w e data).world ∧
        e = .SM_TIMEOUT) := by
  refine ⟨(bleHandler .MS_BLE_STARTING env w e data).world.log.drop w.log.length, ?_⟩
  cases e
  case SM_ENTER =>
    cases hs : w.ctx.uartSkt <;>
      simp [bleHandler, HRes.world, State_Off, State_WaitPoweron, State_Starting, State_WaitTypeSetSerial, State_SerialRunning, State_StoppingComm, waitPoweronTimeout, ioctlUart, writeUart, sm_timer_start, sm_sendEvent, GPIO_write, callCbfn, closeUartSkt, callbacks, hs]
  case ME_BLE_RET_OK =>
    cases hs : w.ctx.uartSkt <;>
      simp [bleHandler, HRes.world, State_Off, State_WaitPoweron, State_Starting, State_WaitTypeSetSerial, State_SerialRunning, State_StoppingComm, waitPoweronTimeout, ioctlUart, writeUart, sm_timer_start, sm_sendEvent, GPIO_write, callCbfn, closeUartSkt, callbacks, hs]
  case SM_TIMEOUT =>
    cases hc : w.ctx.cbfn <;>
      simp [bleHandler, HRes.world, State_Off, State_WaitPoweron, State_Starting, State_WaitTypeSetSerial, State_SerialRunning, State_StoppingComm, waitPoweronTimeout, ioctlUart, writeUart, sm_timer_start, sm_sendEvent, GPIO_write, callCbfn, closeUartSkt, callbacks, hc]
  case ME_BLE_RET_INT =>
    cases hc : w.ctx.cbfn <;> by_cases hv : data % 4294967296 = TYPE_SERIAL <;>
      simp [bleHandler, HRes.world, State_Off, State_WaitPoweron, State_Starting, State_WaitTypeSetSerial, State_SerialRunning, State_StoppingComm, waitPoweronTimeout, ioctlUart, writeUart, sm_timer_start, sm_sendEvent, GPIO_write, callCbfn, closeUartSkt, callbacks, hc, hv]
  all_goals
    simp [bleHandler, HRes.world, State_Off, State_WaitPoweron, State_Starting, State_WaitTypeSetSerial, State_SerialRunning, State_StoppingComm, waitPoweronTimeout, ioctlUart, writeUart, sm_timer_start, sm_sendEvent, GPIO_write, callCbfn, closeUartSkt, callbacks]

theorem cb_rule_waittype (env : Env) (w : World) (e : SmEvent) (data : Nat) :
    ∃ added, (bleHandler .MS_BLE_WAIT_TYPE_SERIAL env w e data).world.log = w.log ++ added ∧
      (callbacks added).length ≤ 1 ∧
      (∀ fn, (fn, WbleStatus.WBLE_COMM_FAIL) ∉ callbacks added) := by
  refine ⟨(bleHandler .MS_BLE_WAIT_TYPE_SERIAL env w e data).world.log.drop w.log.length, ?_⟩
  cases e <;> cases hs : w.ctx.uartSkt <;>
    simp [bleHandler, HRes.world, State_Off, State_WaitPoweron, State_Starting, State_WaitTypeSetSerial, State_SerialRunning, State_StoppingComm, waitPoweronTimeout, ioctlUart, writeUart, sm_timer_start, sm_sendEvent, GPIO_write, callCbfn, closeUartSkt, callbacks, hs]

theorem cb_rule_serial (env : Env) (w : World) (e : SmEvent) (data : Nat) :
    ∃ added, (bleHandler .MS_BLE_SERIAL_RUNNING env w e data).world.log = w.log ++ added ∧
      (callbacks added).length ≤ 1 ∧
      (∀ fn, (fn, WbleStatus.WBLE_COMM_FAIL) ∉ callbacks added) := by
  refine ⟨(bleHandler .MS_BLE_SERIAL_RUNNING env w e data).world.log.drop w.log.length, ?_⟩
  cases e <;>
    simp [bleHandler, HRes.world, State_Off, State_WaitPoweron, State_Starting, State_WaitTypeSetSerial, State_SerialRunning, State_StoppingComm, waitPoweronTimeout, ioctlUart, writeUart, sm_timer_start, sm_sendEvent, GPIO_write, callCbfn, closeUartSkt, callbacks]

theorem cb_rule_stopping (env : Env) (w : World) (e : SmEvent) (data : Nat) :
    ∃ added, (bleHandler .MS_BLE_STOPPINGCOMM env w e data).world.log = w.log ++ added ∧
      (callbacks added).length ≤ 1 ∧
      (∀ fn, (fn, WbleStatus.WBLE_COMM_FAIL) ∉ callbacks added) := by
  refine ⟨(bleHandler .MS_BLE_STOPPINGCOMM env w e data).world.log.drop w.log.length, ?_⟩
  cases e <;> cases hs : w.ctx.uartSkt <;> cases hc : w.ctx.cbfn <;>
    simp [bleHandler, HRes.world, State_Off, State_WaitPoweron, State_Starting, State_WaitTypeSetSerial, State_SerialRunning, State_StoppingComm, waitPoweronTimeout, ioctlUart, writeUart, sm_timer_start, sm_sendEvent, GPIO_write, callCbfn, closeUartSkt, callbacks, hs, hc]

/-- C23: for every state, event, context, log and env, one handler call adds to
the log a list of calls holding at most one user callback; and when that
callback reports WBLE_COMM_FAIL the handler returns MS_BLE_OFF and the call is
either ME_BLE_UART_NOK in WaitPowerOn (the open failure) or TIMEOUT in Starting
(no answer to the identity query). -/
theorem ble_callback_at_most_once (s : BLEStates) (env : Env) (w : World) (e : SmEvent)
    (data : Nat) :
    ∃ added, (bleHandler s env w e data).world.log = w.log ++ added ∧
      (callbacks added).length ≤ 1 ∧
      (∀ fn, (fn, WbleStatus.WBLE_COMM_FAIL) ∈ callbacks added →
        bleHandler s env w e data =
          .ret (.state .MS_BLE_OFF) (bleHandler s env w e data).world ∧
        ((s = .MS_BLE_WAITPOWERON ∧ e = .ME_BLE_UART_NOK) ∨
          (s = .MS_BLE_STARTING ∧ e = .SM_TIMEOUT))) := by
  cases s
  · obtain ⟨a, h1, h2, h3⟩ := cb_rule_off env w e data
    exact ⟨a, h1, h2, fun fn hf => absurd hf (h3 fn)⟩
  · obtain ⟨a, h1, h2, h3⟩ := cb_rule_waitpoweron env w e data
    exact ⟨a, h1, h2, fun fn hf => ⟨(h3 fn hf).1, Or.inl ⟨rfl, (h3 fn hf).2⟩⟩⟩
  · obtain ⟨a, h1, h2, h3⟩ := cb_rule_starting env w e data
    exact ⟨a, h1, h2, fun fn hf => ⟨(h3 fn hf).1, Or.inr ⟨rfl, (h3 fn hf).2⟩⟩⟩
  · obtain ⟨a, h1, h2, h3⟩ := cb_rule_waittype env w e data
    exact ⟨a, h1, h2, fun fn hf => absurd hf (h3 fn)⟩
  · obtain ⟨a, h1, h2, h3⟩ := cb_rule_serial env w e data
    exact ⟨a, h1, h2, fun fn hf => absurd hf (h3 fn)⟩
  · obtain ⟨a, h1, h2, h3⟩ := cb_rule_stopping env w e data
    exact ⟨a, h1, h2, fun fn hf => absurd hf (h3 fn)⟩

/-- C24 fails on the code: for every received line the receive callback
wbleuart_rxcb returns with the context, the log and the queue of posted events
unchanged; it posts no ME_BLE_RET_OK, ME_BLE_RET_ERR or ME_BLE_RET_INT, so no
line makes it post an event. -/
theorem wbleuart_rxcb_posts_nothing (w : World) (line : List Nat) :
    wbleuart_rxcb w (some line) = some w ∧
    (∀ w1, wbleuart_rxcb w (some line) = some w1 → w1.posted = w.posted ∧ w1.log = w.log) := by
  refine ⟨rfl, ?_⟩
  intro w1 h
  simp only [wbleuart_rxcb, Option.some.injEq] at h
  subst h
  exact ⟨rfl, rfl⟩

/-- C25 fails on the code: the first bleuart_line_comm_create("b", "a", ...)
returns true, creating machine 0 and registering "b"; the second call with the
same arguments compares the stored UART name "a" with the device name "b" and
stops at assert(0). -/
theorem bleuart_line_comm_create_twice_aborts :
    bleuart_line_comm_create ⟨2, 3, 4⟩ ⟨none, fun _ => 0⟩ (bleSys0 (init ⟨2, 3, 4⟩)) 7 8
        (some [98]) (some [97]) 115200 115200 5 0 =
      .ret true
        { w := { ctx := { mySMId := 0, myDevice := some [98], uartDevice := some [97],
                          baudrate := 115200, pwrPin := 5, uartSelect := 0, uartSkt := none,
                          lastDataTime := 0, cbfn := none, cardType := 0 }
                 log := [.GPIO_write 5 1], timer := none, posted := [] }
          mgr := { _devices := [⟨[98, 0, 0, 0], 7, 8⟩, ⟨[0, 0, 0, 0], 0, 0⟩], _devRegIdx := 1,
                   _skts := [⟨none, 0, 0⟩, ⟨none, 0, 0⟩, ⟨none, 0, 0⟩], calls := [] }
          machines := [(0, .MS_BLE_OFF)], pins := [(5, 1)] } ∧
    bleuart_line_comm_create ⟨2, 3, 4⟩ ⟨none, fun _ => 0⟩
        { w := { ctx := { mySMId := 0, myDevice := some [98], uartDevice := some [97],
                          baudrate := 115200, pwrPin := 5, uartSelect := 0, uartSkt := none,
                          lastDataTime := 0, cbfn := none, cardType := 0 }
                 log := [.GPIO_write 5 1], timer := none, posted := [] }
          mgr := { _devices := [⟨[98, 0, 0, 0], 7, 8⟩, ⟨[0, 0, 0, 0], 0, 0⟩], _devRegIdx := 1,
                   _skts := [⟨none, 0, 0⟩, ⟨none, 0, 0⟩, ⟨none, 0, 0⟩], calls := [] }
          machines := [(0, .MS_BLE_OFF)], pins := [(5, 1)] } 7 8
        (some [98]) (some [97]) 115200 115200 5 0 =
      .abort
        { w := { ctx := { mySMId := 0, myDevice := some [98], uartDevice := some [97],
                          baudrate := 115200, pwrPin := 5, uartSelect := 0, uartSkt := none,
                          lastDataTime := 0, cbfn := none, cardType := 0 }
                 log := [.GPIO_write 5 1], timer := none, posted := [] }
          mgr := { _devices := [⟨[98, 0, 0, 0], 7, 8⟩, ⟨[0, 0, 0, 0], 0, 0⟩], _devRegIdx := 1,
                   _skts := [⟨none, 0, 0⟩, ⟨none, 0, 0⟩, ⟨none, 0, 0⟩], calls := [] }
          machines := [(0, .MS_BLE_OFF)], pins := [(5, 1)] } := by
  decide

/-- C30: the executor of the spec, for every state table, instance, event and
data. When the current state's handler answers SM_STATE_CURRENT, the instance
keeps its state and history and its world is exactly what that one handler
call left: no EXIT, no ENTER. When it answers a declared state id, the world is
what results from, in this order, the handler call, then EXIT given to the old
state's handler with the data of the triggering event, then ENTER given to the
new state's handler; current_state is the new state. -/
theorem sm_process_delivery_order (env : Env) (m : Machine) (e : SmEvent) (data : Nat)
    (hd : Env → World → SmEvent → Nat → HRes)
    (hhd : sm_handler m.state_table m.current_state = some hd) :
    (∀ w1, hd env (if e = .SM_TIMEOUT then { m.w with timer := none } else m.w) e data =
        .ret .SM_STATE_CURRENT w1 →
      sm_process env m e data = some { m with w := w1 }) ∧
    (∀ next w1 r2 w2 hd2 r3 w3,
      hd env (if e = .SM_TIMEOUT then { m.w with timer := none } else m.w) e data =
        .ret (.state next) w1 →
      hd env w1 .SM_EXIT data = .ret r2 w2 →
      sm_handler m.state_table next = some hd2 →
      hd2 env w2 .SM_ENTER data = .ret r3 w3 →
      sm_process env m e data =
        some { m with current_state := next, w := w3, history := m.history ++ [next] }) := by
  constructor
  · intro w1 h1
    simp only [sm_process, hhd, h1]
  · intro next w1 r2 w2 hd2 r3 w3 h1 h2 h3 h4
    simp only [sm_process, hhd, h1, h2, h3, h4]

/-- A step for C30 with recording handlers: turn-on in the first state is seen by
that state, which then gets EXIT, and the second state gets ENTER, once each. -/
theorem sm_process_delivery_order_witness :
    sm_process ⟨none, fun _ => 0⟩
        { state_table := recordingTable, current_state := .MS_BLE_OFF
          w := (bleMachine .MS_BLE_OFF
            { mySMId := 1, myDevice := none, uartDevice := none, baudrate := 0, pwrPin := 0,
              uartSelect := 0, uartSkt := none, lastDataTime := 0, cbfn := none,
              cardType := 0 }).w
          history := [] }
        .ME_BLE_ON 5 =
      some
        { state_table := recordingTable, current_state := .MS_BLE_STARTING
          w := { ctx := { mySMId := 1, myDevice := none, uartDevice := none, baudrate := 0,
                          pwrPin := 0, uartSelect := 0, uartSkt := none, lastDataTime := 0,
                          cbfn := none, cardType := 0 }
                 log := [.sm_sendEvent 0 .ME_BLE_ON 5, .sm_sendEvent 0 .SM_EXIT 5,
                   .sm_sendEvent 2 .SM_ENTER 5]
                 timer := none, posted := [] }
          history := [] ++ [.MS_BLE_STARTING] } :=
  (sm_process_delivery_order ⟨none, fun _ => 0⟩
    { state_table := recordingTable, current_state := .MS_BLE_OFF
      w := (bleMachine .MS_BLE_OFF
        { mySMId := 1, myDevice := none, uartDevice := none, baudrate := 0, pwrPin := 0,
          uartSelect := 0, uartSkt := none, lastDataTime := 0, cbfn := none,
          cardType := 0 }).w
      history := [] }
    .ME_BLE_ON 5 _ rfl).2 .MS_BLE_STARTING _ _ _ _ _ _ rfl rfl rfl rfl

/-- C26: with the minmea functions as an arbitrary oracle, for every line (and
every prior content of the result struct) parseNEMA returns false exactly when
minmea_check fails or minmea_sentence_id is MINMEA_INVALID; so a line that
passes the check with any other sentence id gives true, also when
minmea_parse_gga or minmea_parse_rmc fails. -/
theorem parseNEMA_false_iff (mm : Minmea) (line : List Nat) (nd : gps_data_t) :
    ((parseNEMA mm line nd).1 = false ↔
      (mm.minmea_check line = false ∨ mm.minmea_sentence_id line = .MINMEA_INVALID)) ∧
    (mm.minmea_check line = true → mm.minmea_sentence_id line ≠ .MINMEA_INVALID →
      (parseNEMA mm line nd).1 = true) := by
  cases hc : mm.minmea_check line <;> cases hid : mm.minmea_sentence_id line <;>
    simp [parseNEMA, hc, hid]
  all_goals (split <;> try split) <;> try split
  all_goals simp

theorem wrap32_of_range (x : Int) (h1 : -(2 ^ 31) ≤ x) (h2 : x < 2 ^ 31) : wrap32 x = x := by
  unfold wrap32
  have : (x + 2 ^ 31) % 2 ^ 32 = x + 2 ^ 31 := Int.emod_eq_of_lt (by omega) (by omega)
  omega

/-- C27: with the minmea functions as an arbitrary oracle, for every line on
which parseNEMA returns true: the resulting prec is greater than 0 exactly when
the sentence id is GGA, minmea_parse_gga succeeds and fix_quality > 0, and it is
0 otherwise. In that fix case lat, lon, alt and nSats are minmea's
latitude.value, longitude.value, altitude.value and satellites_tracked, and
prec is the 32-bit value of hdop.value*2, or 5 when that is below 1; when
hdop.value*2 fits in 32 bits, that is hdop.value*2 itself. -/
theorem parseNEMA_result (mm : Minmea) (line : List Nat) (nd : gps_data_t)
    (htrue : (parseNEMA mm line nd).1 = true) :
    ((parseNEMA mm line nd).2.prec > 0 ↔
      (mm.minmea_sentence_id line = .MINMEA_SENTENCE_GGA ∧
        ∃ g, mm.minmea_parse_gga line = some g ∧ g.fix_quality > 0)) ∧
    (¬ (mm.minmea_sentence_id line = .MINMEA_SENTENCE_GGA ∧
        ∃ g, mm.minmea_parse_gga line = some g ∧ g.fix_quality > 0) →
      (parseNEMA mm line nd).2.prec = 0) ∧
    (∀ g, mm.minmea_sentence_id line = .MINMEA_SENTENCE_GGA →
      mm.minmea_parse_gga line = some g → g.fix_quality > 0 →
      (parseNEMA mm line nd).2.lat = g.latitude.value ∧
      (parseNEMA mm line nd).2.lon = g.longitude.value ∧
      (parseNEMA mm line nd).2.alt = g.altitude.value ∧
      (parseNEMA mm line nd).2.nSats = g.satellites_tracked ∧
      (parseNEMA mm line nd).2.prec =
        (if wrap32 (g.hdop.value * 2) < 1 then 5 else wrap32 (g.hdop.value * 2)) ∧
      (-(2 ^ 31) ≤ g.hdop.value * 2 → g.hdop.value * 2 < 2 ^ 31 →
        (parseNEMA mm line nd).2.prec =
          (if g.hdop.value * 2 < 1 then 5 else g.hdop.value * 2))) := by
  cases hc : mm.minmea_check line
  · simp [parseNEMA, hc] at htrue
  · cases hid : mm.minmea_sentence_id line
    · simp [parseNEMA, hc, hid] at htrue
    · cases hg : mm.minmea_parse_gga line with
      | none => simp [parseNEMA, hc, hid, hg]
      | some g =>
        by_cases hq : g.fix_quality > 0
        · by_cases hp : wrap32 (g.hdop.value * 2) < 1
          · refine ⟨?_, ?_, ?_⟩
            · simp [parseNEMA, hc, hid, hg, hq, hp]
            · simp [parseNEMA, hc, hid, hg, hq, hp]
            · intro g1 _ hg1 _
              simp only [Option.some.injEq] at hg1
              subst hg1
              simp only [parseNEMA, hc, hid, hg, hq, hp]
              simp
              intro h1 h2
              rw [wrap32_of_range _ h1 h2] at hp
              simp [hp]
          · refine ⟨?_, ?_, ?_⟩
            · simp [parseNEMA, hc, hid, hg, hq, hp]
              omega
            · simp [parseNEMA, hc, hid, hg, hq, hp]
            · intro g1 _ hg1 _
              simp only [Option.some.injEq] at hg1
              subst hg1
              simp only [parseNEMA, hc, hid, hg, hq, hp]
              simp
              intro h1 h2
              rw [wrap32_of_range _ h1 h2] at hp ⊢
              simp [hp]
        · simp [parseNEMA, hc, hid, hg, hq]
    · simp [parseNEMA, hc, hid]
    · simp [parseNEMA, hc, hid]

/-- C28: for every received line shorter than 10 characters, gps_mgr_rxcb
returns with the whole GPS context as it was: no callback invoked, stored GPS
data unchanged, commOk unchanged; parseNEMA is not consulted (the result is the
same for every minmea oracle). -/
theorem gps_mgr_rxcb_short_line (mm : Minmea) (now : Nat) (g : GpsCtx) (line : List Nat)
    (newdata : gps_data_t) (hshort : (cstr line).length < 10) :
    gps_mgr_rxcb mm now g (some line) newdata = some g := by
  have : strnlen line 10 < 10 := by
    simp only [strnlen]
    omega
  simp [gps_mgr_rxcb, this]

/-- A witness of C27: with an oracle reporting a GGA fix of hdop value 12,
parseNEMA returns true with prec 24 and the minmea position values. -/
theorem parseNEMA_result_witness :
    (parseNEMA ggaOracle [36] gpsData0).1 = true ∧
    (parseNEMA ggaOracle [36] gpsData0).2.lat = 451110189 ∧
    (parseNEMA ggaOracle [36] gpsData0).2.lon = 54233219 ∧
    (parseNEMA ggaOracle [36] gpsData0).2.alt = 1937 ∧
    (parseNEMA ggaOracle [36] gpsData0).2.nSats = 7 ∧
    (parseNEMA ggaOracle [36] gpsData0).2.prec = 24 := by
  have h := (parseNEMA_result ggaOracle [36] gpsData0 (by decide)).2.2
    { latitude := ⟨451110189, 1⟩, longitude := ⟨54233219, 1⟩, altitude := ⟨1937, 10⟩,
      hdop := ⟨12, 10⟩, fix_quality := 1, satellites_tracked := 7 } rfl rfl (by decide)
  exact ⟨by decide, h.1, h.2.1, h.2.2.1, h.2.2.2.1, h.2.2.2.2.2 (by decide) (by decide)⟩

/-- A witness of C28: the 6-character line "$GPGGA" leaves a context with
commOk set and a callback registered as it was. -/
theorem gps_mgr_rxcb_short_line_witness :
    (cstr [36, 71, 80, 71, 71, 65]).length < 10 ∧
    gps_mgr_rxcb ggaOracle 1000 ⟨gpsData0, some 1, true, []⟩ (some [36, 71, 80, 71, 71, 65])
      gpsData0 = some ⟨gpsData0, some 1, true, []⟩ :=
  ⟨by decide, gps_mgr_rxcb_short_line ggaOracle 1000 ⟨gpsData0, some 1, true, []⟩
    [36, 71, 80, 71, 71, 65] gpsData0 (by decide)⟩

theorem delta_self (a : Int) : delta a a = 0 := by
  simp [delta]

/-- The result of `SRMgr_updateEnvs` field by field: every `last` field is
decided by its own predicate on the state before the call. -/
theorem SRMgr_updateEnvs_eq (now : Nat) (c : SensorCtx) :
    SRMgr_updateEnvs now c = (changePredicates.any (fun p => p c),
      { c with
        lastBattmV := if SRMgr_hasBattChanged c then c.currBattmV else c.lastBattmV
        lastLight := if SRMgr_hasLightChanged c then c.currLight else c.lastLight
        lastTempdC := if SRMgr_hasTempChanged c then c.currTempdC else c.lastTempdC
        lastPressurePa :=
          if SRMgr_hasPressureChanged c then c.currPressurePa else c.lastPressurePa
        lastADC1mV := if SRMgr_hasADC1Changed c then c.currADC1mV else c.lastADC1mV
        lastADC2mV := if SRMgr_hasADC2Changed c then c.currADC2mV else c.lastADC2mV
        lastButtonState :=
          if SRMgr_hasButtonChanged c then c.currButtonState else c.lastButtonState
        lastSignificantChangeTS :=
          if changePredicates.any (fun p => p c) then now
          else c.lastSignificantChangeTS }) := by
  obtain ⟨ts, cb, lb, ct, cv, cp, cl, lt, lv, lp, ll, c1, c2, l1, l2⟩ := c
  unfold SRMgr_updateEnvs
  simp only [SRMgr_hasBattChanged, SRMgr_hasLightChanged,
    SRMgr_hasTempChanged, SRMgr_hasPressureChanged, SRMgr_hasADC1Changed,
    SRMgr_hasADC2Changed, SRMgr_hasButtonChanged, changePredicates, List.any]
  by_cases h1 : delta cv lv > 50 <;>
  by_cases h2 : delta cl ll > 2 <;>
  by_cases h3 : delta ct lt > 2 <;>
  by_cases h4 : delta (wrap32 cp) (wrap32 lp) > 10 <;>
  by_cases h5 : delta c1 l1 > 50 <;>
  by_cases h6 : delta c2 l2 > 50 <;>
  by_cases h7 : cb = lb <;>
  simp [h1, h2, h3, h4, h5, h6, h7]

/-- C29: for every stored sensor state, SRMgr_updateEnvs returns true exactly
when one of the seven change predicates (battery, light, temperature, pressure,
ADC1, ADC2, button) held before the call; each last value becomes the current
value when its predicate held and is otherwise as before; all current values
are as before; afterwards none of the seven predicates holds, and a second call
on the resulting state returns false. -/
theorem SRMgr_updateEnvs_spec (now now2 : Nat) (c : SensorCtx) :
    ((SRMgr_updateEnvs now c).1 = true ↔ ∃ p ∈ changePredicates, p c = true) ∧
    ((SRMgr_updateEnvs now c).2.lastBattmV =
        if SRMgr_hasBattChanged c then c.currBattmV else c.lastBattmV) ∧
    ((SRMgr_updateEnvs now c).2.lastLight =
        if SRMgr_hasLightChanged c then c.currLight else c.lastLight) ∧
    ((SRMgr_updateEnvs now c).2.lastTempdC =
        if SRMgr_hasTempChanged c then c.currTempdC else c.lastTempdC) ∧
    ((SRMgr_updateEnvs now c).2.lastPressurePa =
        if SRMgr_hasPressureChanged c then c.currPressurePa else c.lastPressurePa) ∧
    ((SRMgr_updateEnvs now c).2.lastADC1mV =
        if SRMgr_hasADC1Changed c then c.currADC1mV else c.lastADC1mV) ∧
    ((SRMgr_updateEnvs now c).2.lastADC2mV =
        if SRMgr_hasADC2Changed c then c.currADC2mV else c.lastADC2mV) ∧
    ((SRMgr_updateEnvs now c).2.lastButtonState =
        if SRMgr_hasButtonChanged c then c.currButtonState else c.lastButtonState) ∧
    ((SRMgr_updateEnvs now c).2.currBattmV = c.currBattmV ∧
      (SRMgr_updateEnvs now c).2.currLight = c.currLight ∧
      (SRMgr_updateEnvs now c).2.currTempdC = c.currTempdC ∧
      (SRMgr_updateEnvs now c).2.currPressurePa = c.currPressurePa ∧
      (SRMgr_updateEnvs now c).2.currADC1mV = c.currADC1mV ∧
      (SRMgr_updateEnvs now c).2.currADC2mV = c.currADC2mV ∧
      (SRMgr_updateEnvs now c).2.currButtonState = c.currButtonState) ∧
    (∀ p ∈ changePredicates, p (SRMgr_updateEnvs now c).2 = false) ∧
    (SRMgr_updateEnvs now2 (SRMgr_updateEnvs now c).2).1 = false := by
  have hr := SRMgr_updateEnvs_eq now c
  have hnone : ∀ p ∈ changePredicates, p (SRMgr_updateEnvs now c).2 = false := by
    intro p hp
    simp only [changePredicates, List.mem_cons, List.mem_singleton, List.not_mem_nil,
      or_false] at hp
    rw [hr]
    rcases hp with rfl | rfl | rfl | rfl | rfl | rfl | rfl
    · simp only [SRMgr_hasBattChanged]
      split <;> simp_all [delta_self]
    · simp only [SRMgr_hasLightChanged]
      split <;> simp_all [delta_self]
    · simp only [SRMgr_hasTempChanged]
      split <;> simp_all [delta_self]
    · simp only [SRMgr_hasPressureChanged]
      split <;> simp_all [delta_self]
    · simp only [SRMgr_hasADC1Changed]
      split <;> simp_all [delta_self]
    · simp only [SRMgr_hasADC2Changed]
      split <;> simp_all [delta_self]
    · simp only [SRMgr_hasButtonChanged]
      split <;> simp_all
  refine ⟨?_, ?_, ?_, ?_, ?_, ?_, ?_, ?_, ?_, hnone, ?_⟩
  · rw [hr]
    simp only [List.any_eq_true]
  · rw [hr]
  · rw [hr]
  · rw [hr]
  · rw [hr]
  · rw [hr]
  · rw [hr]
  · rw [hr]
  · rw [hr]
    exact ⟨rfl, rfl, rfl, rfl, rfl, rfl, rfl⟩
  · rw [SRMgr_updateEnvs_eq now2]
    cases h : changePredicates.any (fun p => p (SRMgr_updateEnvs now c).2)
    · rfl
    · obtain ⟨p, hp, hpc⟩ := List.any_eq_true.mp h
      rw [hnone p hp] at hpc
      exact absurd hpc (by decide)

/-- C31: the state table _bleSM has exactly MS_BLE_LAST entries; every state id
of MS_BLE_OFF..MS_BLE_STOPPINGCOMM (values 0..5, all below MS_BLE_LAST) is the
id of exactly one entry, and every entry with that id carries the handler of
that state (bleHandler: Off, WaitPoweron, Starting, WaitTypeSetSerial,
SerialRunning, StoppingComm), so the first entry found by the id field has the
right handler; the ids are stored in the order 0, 1, 3, 2, 4, 5, not in id order. -/
theorem bleSM_bijection :
    _bleSM.length = MS_BLE_LAST ∧
    (∀ s : BLEStates, s.toNat < MS_BLE_LAST) ∧
    (∀ s : BLEStates, _bleSM.countP (fun t => t.id == s) = 1) ∧
    (∀ s : BLEStates, ∀ t ∈ _bleSM, t.id = s → t.fn = bleHandler s) ∧
    (∀ s : BLEStates, (_bleSM.find? (fun t => t.id == s)).map (fun t => t.fn) =
      some (bleHandler s)) ∧
    _bleSM.map (fun t => t.id.toNat) = [0, 1, 3, 2, 4, 5] := by
  refine ⟨rfl, ?_, ?_, ?_, ?_, rfl⟩
  · intro s
    cases s <;> decide
  · intro s
    cases s <;> rfl
  · intro s t ht hid
    simp only [_bleSM, List.mem_cons, List.mem_singleton, List.not_mem_nil, or_false] at ht
    rcases ht with rfl | rfl | rfl | rfl | rfl | rfl <;> subst hid <;> rfl
  · intro s
    cases s <;> rfl

/-- C32: for every context (with its log, countdown and queue), data, size,
command and parameter, bleuart_line_write and bleuart_line_ioctl return
SKT_NODEV when uartSkt is NULL and SKT_NOERR otherwise, and in both cases the
world is exactly as before: nothing is forwarded to the real UART, no event is
posted and no context field changes. The two result codes differ. -/
theorem bleuart_line_write_ioctl_stub (w : World) (data : List Nat) (sz : Nat)
    (cmd param : Int) :
    (bleuart_line_write w data sz).1 =
      (if w.ctx.uartSkt = none then SKT_NODEV else SKT_NOERR) ∧
    (bleuart_line_write w data sz).2 = w ∧
    (bleuart_line_ioctl w cmd param).1 =
      (if w.ctx.uartSkt = none then SKT_NODEV else SKT_NOERR) ∧
    (bleuart_line_ioctl w cmd param).2 = w ∧
    SKT_NODEV ≠ SKT_NOERR := by
  refine ⟨?_, ?_, ?_, ?_, by decide⟩ <;>
    (simp only [bleuart_line_write, bleuart_line_ioctl]; split <;> simp_all)

/-- C33: for every manager state, name (or NULL), evt, eq and driver result,
whatever the outcome of wskt_open: the device registry (table and counter) is
unchanged, the pool keeps its length, and every slot other than the
lowest-index free slot of before the call is unchanged (device binding, evt
and eq); so at most one slot is modified. When wskt_open returns a socket, it
is that slot: it was free before the call, every slot below it was in use, and
it is bound afterwards. -/
theorem wskt_open_frame (c : Config) (st : WsktMgr) (name : Option (List Nat))
    (evt eq : Nat) (r : Int) :
    (wskt_open c st name evt eq r).state._devices = st._devices ∧
    (wskt_open c st name evt eq r).state._devRegIdx = st._devRegIdx ∧
    (wskt_open c st name evt eq r).state._skts.length = st._skts.length ∧
    (∀ j, firstFreeFrom st._skts 0 ≠ some j →
      (wskt_open c st name evt eq r).state._skts[j]? = st._skts[j]?) ∧
    (∀ i st1, wskt_open c st name evt eq r = .ret (some i) st1 →
      firstFreeFrom st._skts 0 = some i ∧
      (∃ s, st._skts[i]? = some s ∧ s.dev = none) ∧
      (∀ j, j < i → ∃ s, st._skts[j]? = some s ∧ s.dev ≠ none) ∧
      (∃ d, st1._skts[i]? = some { dev := some d, evt := evt, eq := eq })) := by
  cases name with
  | none => simp [wskt_open, Res.state]
  | some nm =>
    cases hfind : findDeviceInst c st nm with
    | none => simp [wskt_open_notfound c st nm evt eq r hfind, Res.state]
    | some dev =>
      cases hff : firstFreeFrom st._skts 0 with
      | none =>
        have hall := firstFreeFrom_none st._skts 0 hff
        simp [wskt_open_full c st nm evt eq r dev hfind hall, Res.state]
      | some k =>
        obtain ⟨l₁, a, l₂, hsk, hk, ha, hall⟩ := firstFreeFrom_some st._skts 0 k hff
        have hk1 : k = l₁.length := by omega
        subst hk1
        have hopen := wskt_open_alloc c st nm evt eq r dev l₁ a l₂ hfind hsk ha hall
        have hlow : ∀ j, j < l₁.length → ∃ s, st._skts[j]? = some s ∧ s.dev ≠ none := by
          intro j hj
          refine ⟨l₁[j], ?_, hall _ (List.getElem_mem hj)⟩
          rw [hsk, List.getElem?_append_left hj, List.getElem?_eq_getElem hj]
        have hslot : ∃ s, st._skts[l₁.length]? = some s ∧ s.dev = none :=
          ⟨a, by rw [hsk, getElem?_at_length], ha⟩
        have hother : ∀ (b : wskt_t) (j : Nat), some l₁.length ≠ some j →
            (l₁ ++ b :: l₂)[j]? = st._skts[j]? := by
          intro b j hj
          have hne : j ≠ l₁.length := fun h => hj (by rw [h])
          rw [getElem?_replace l₁ a b l₂ j, if_neg hne, hsk]
        rw [hopen]
        cases hd : devFns st dev with
        | none =>
          simp only [Res.state]
          refine ⟨trivial, trivial, ?_, fun j hj => hother _ j hj, ?_⟩
          · simp [hsk]
          · intro i st1 h
            cases h
        | some fns =>
          by_cases hr : r < 0
          · simp only [hr, if_true, Res.state]
            refine ⟨trivial, trivial, ?_, fun j hj => hother _ j hj, ?_⟩
            · simp [hsk]
            · intro i st1 h
              simp at h
          · simp only [hr, if_false, Res.state]
            refine ⟨trivial, trivial, ?_, fun j hj => hother _ j hj, ?_⟩
            · simp [hsk]
            · intro i st1 h
              simp only [Res.ret.injEq, Option.some.injEq] at h
              obtain ⟨hi, hst⟩ := h
              subst hi
              subst hst
              exact ⟨rfl, hslot, hlow, dev, getElem?_at_length _ _ _⟩

/-- C36 does not hold in Off: on TIMEOUT the handler State_Off returns
MS_BLE_OFF, not SM_STATE_CURRENT, so the executor of the spec fires EXIT and
ENTER of Off, and ENTER writes the power pin. -/
theorem ble_off_timeout_reenters :
    State_Off ⟨none, fun _ => 0⟩
        { ctx := { mySMId := 1, myDevice := some [98], uartDevice := some [97],
                   baudrate := 115200, pwrPin := 5, uartSelect := 0, uartSkt := none,
                   lastDataTime := 0, cbfn := none, cardType := 0 }
          log := [], timer := none, posted := [] }
        .SM_TIMEOUT 0 =
      .ret (.state .MS_BLE_OFF)
        { ctx := { mySMId := 1, myDevice := some [98], uartDevice := some [97],
                   baudrate := 115200, pwrPin := 5, uartSelect := 0, uartSkt := none,
                   lastDataTime := 0, cbfn := none, cardType := 0 }
          log := [], timer := none, posted := [] } ∧
    (sm_process ⟨none, fun _ => 0⟩
        (bleMachine .MS_BLE_OFF
          { mySMId := 1, myDevice := some [98], uartDevice := some [97],
            baudrate := 115200, pwrPin := 5, uartSelect := 0, uartSkt := none,
            lastDataTime := 0, cbfn := none, cardType := 0 })
        .SM_TIMEOUT 0).map (fun m => (m.w.log, m.history)) =
      some ([.GPIO_write 5 1], [.MS_BLE_OFF]) := by
  constructor
  · rfl
  · rfl

/-- C36, amended: for every context, log, countdown, queue and data. In
SerialRunning a TIMEOUT makes the handler return SM_STATE_CURRENT with nothing
changed, and the executor of the spec makes no transition (it only consumes the
countdown). In Off the handler changes nothing either but returns MS_BLE_OFF:
the executor fires EXIT and ENTER of Off, the machine stays in Off, and ENTER
closes the real socket if one is held and writes 1 to the power pin when
pwrPin >= 0; no callback is invoked. -/
theorem ble_stale_timeout (env : Env) (w : World) (data : Nat) (hist : List BLEStates) :
    State_SerialRunning env w .SM_TIMEOUT data = .ret .SM_STATE_CURRENT w ∧
    sm_process env { state_table := _bleSM, current_state := .MS_BLE_SERIAL_RUNNING, w := w,
                     history := hist } .SM_TIMEOUT data =
      some { state_table := _bleSM, current_state := .MS_BLE_SERIAL_RUNNING,
             w := { w with timer := none }, history := hist } ∧
    State_Off env w .SM_TIMEOUT data = .ret (.state .MS_BLE_OFF) w ∧
    sm_process env { state_table := _bleSM, current_state := .MS_BLE_OFF, w := w,
                     history := hist } .SM_TIMEOUT data =
      some { state_table := _bleSM, current_state := .MS_BLE_OFF,
             w := { ctx := { w.ctx with uartSkt := none }
                    log := w.log ++
                      (match w.ctx.uartSkt with
                        | some s => [.wskt_close s]
                        | none => []) ++
                      (if 0 ≤ w.ctx.pwrPin then [.GPIO_write w.ctx.pwrPin 1] else [])
                    timer := none
                    posted := w.posted },
             history := hist ++ [.MS_BLE_OFF] } ∧
    callbacks (w.log ++
        (match w.ctx.uartSkt with
          | some s => [Action.wskt_close s]
          | none => []) ++
        (if 0 ≤ w.ctx.pwrPin then [Action.GPIO_write w.ctx.pwrPin 1] else [])) =
      callbacks w.log := by
  refine ⟨rfl, ?_, rfl, ?_, ?_⟩
  · simp [sm_process, sm_handler_bleSM, State_SerialRunning]
  · have h1 : sm_handler _bleSM .MS_BLE_OFF = some State_Off := sm_handler_bleSM .MS_BLE_OFF
    obtain ⟨⟨a1, a2, a3, a4, a5, a6, a7, a8, a9, a10⟩, log, timer, posted⟩ := w
    cases a7 <;> by_cases hp : 0 ≤ a5 <;>
      simp [sm_process, h1, State_Off, closeUartSkt, GPIO_write, hp]
  · cases hs : w.ctx.uartSkt <;> by_cases hp : 0 ≤ w.ctx.pwrPin <;>
      simp [callbacks, List.filterMap_append, hp]

/-- C39 does not hold: with the 8-bit readings x = 1, y = -100, z = 0 the result
is UPRIGHT although y has the largest magnitude; and with x = 1, y = -1, z = 0
both the UPRIGHT and the FLAT_BACK condition hold. -/
theorem MMMgr_getOrientation_not_by_magnitude :
    isInt8 1 = true ∧ isInt8 (-100) = true ∧ isInt8 0 = true ∧ isInt8 (-1) = true ∧
    MMMgr_getOrientation ⟨1, -100, 0⟩ = .UPRIGHT ∧ ¬ (|(1 : Int)| ≥ |(-100 : Int)|) ∧
    orientConditions ⟨1, -1, 0⟩ = [true, false, false, true] := by
  refine ⟨by decide, by decide, by decide, by decide, by decide, by decide, by decide⟩

/-- C39, amended: for all readings (8-bit or not), MMMgr_getOrientation compares
signed values. It returns UPRIGHT exactly when x > 0 is strictly the largest of
the three, INVERTED exactly when x < 0 is strictly the smallest, FLAT_FACE
exactly when y > 0 is strictly the largest and the INVERTED condition fails,
FLAT_BACK exactly when y < 0 is strictly the smallest and the UPRIGHT condition
fails, and UNKNOWN exactly when none of the four conditions holds. At most two
of the four conditions hold. The reported axis has the largest magnitude when
the other two readings do not have the opposite sign. -/
theorem MMMgr_getOrientation_signed (c : MovementCtx) :
    (MMMgr_getOrientation c = .UPRIGHT ↔ (c.x > 0 ∧ c.x > c.y ∧ c.x > c.z)) ∧
    (MMMgr_getOrientation c = .INVERTED ↔ (c.x < 0 ∧ c.x < c.y ∧ c.x < c.z)) ∧
    (MMMgr_getOrientation c = .FLAT_FACE ↔
      ((c.y > 0 ∧ c.y > c.x ∧ c.y > c.z) ∧ ¬ (c.x < 0 ∧ c.x < c.y ∧ c.x < c.z))) ∧
    (MMMgr_getOrientation c = .FLAT_BACK ↔
      ((c.y < 0 ∧ c.y < c.x ∧ c.y < c.z) ∧ ¬ (c.x > 0 ∧ c.x > c.y ∧ c.x > c.z))) ∧
    (MMMgr_getOrientation c = .UNKNOWN ↔ orientConditions c = [false, false, false, false]) ∧
    (orientConditions c).count true ≤ 2 ∧
    (MMMgr_getOrientation c = .UPRIGHT → 0 ≤ c.y → 0 ≤ c.z → |c.x| ≥ |c.y| ∧ |c.x| ≥ |c.z|) ∧
    (MMMgr_getOrientation c = .INVERTED → c.y ≤ 0 → c.z ≤ 0 → |c.x| ≥ |c.y| ∧ |c.x| ≥ |c.z|) ∧
    (MMMgr_getOrientation c = .FLAT_FACE → 0 ≤ c.x → 0 ≤ c.z → |c.y| ≥ |c.x| ∧ |c.y| ≥ |c.z|) ∧
    (MMMgr_getOrientation c = .FLAT_BACK → c.x ≤ 0 → c.z ≤ 0 → |c.y| ≥ |c.x| ∧ |c.y| ≥ |c.z|) := by
  obtain ⟨x, y, z⟩ := c
  have hU : MMMgr_getOrientation ⟨x, y, z⟩ = .UPRIGHT ↔ (x > 0 ∧ x > y ∧ x > z) := by
    simp only [MMMgr_getOrientation]
    split_ifs <;> simp_all
  have hI : MMMgr_getOrientation ⟨x, y, z⟩ = .INVERTED ↔ (x < 0 ∧ x < y ∧ x < z) := by
    simp only [MMMgr_getOrientation]
    split_ifs <;> first | (simp_all; omega) | simp_all
  have hF : MMMgr_getOrientation ⟨x, y, z⟩ = .FLAT_FACE ↔
      ((y > 0 ∧ y > x ∧ y > z) ∧ ¬ (x < 0 ∧ x < y ∧ x < z)) := by
    simp only [MMMgr_getOrientation]
    split_ifs <;> first | (simp_all; omega) | simp_all
  have hB : MMMgr_getOrientation ⟨x, y, z⟩ = .FLAT_BACK ↔
      ((y < 0 ∧ y < x ∧ y < z) ∧ ¬ (x > 0 ∧ x > y ∧ x > z)) := by
    simp only [MMMgr_getOrientation]
    split_ifs <;> first | (simp_all; omega) | simp_all
  have hN : MMMgr_getOrientation ⟨x, y, z⟩ = .UNKNOWN ↔
      orientConditions ⟨x, y, z⟩ = [false, false, false, false] := by
    simp only [MMMgr_getOrientation, orientConditions]
    split_ifs <;> simp_all
  have hC : (orientConditions ⟨x, y, z⟩).count true ≤ 2 := by
    simp only [orientConditions]
    by_cases h1 : x > 0 ∧ x > y ∧ x > z <;> by_cases h2 : x < 0 ∧ x < y ∧ x < z <;>
      by_cases h3 : y > 0 ∧ y > x ∧ y > z <;> by_cases h4 : y < 0 ∧ y < x ∧ y < z <;>
      first
        | (exfalso; omega)
        | (rw [decide_eq_true h1, decide_eq_false h2, decide_eq_false h3, decide_eq_true h4]
           decide)
        | (rw [decide_eq_true h1, decide_eq_false h2, decide_eq_false h3, decide_eq_false h4]
           decide)
        | (rw [decide_eq_false h1, decide_eq_true h2, decide_eq_true h3, decide_eq_false h4]
           decide)
        | (rw [decide_eq_false h1, decide_eq_true h2, decide_eq_false h3, decide_eq_false h4]
           decide)
        | (rw [decide_eq_false h1, decide_eq_false h2, decide_eq_true h3, decide_eq_false h4]
           decide)
        | (rw [decide_eq_false h1, decide_eq_false h2, decide_eq_false h3, decide_eq_true h4]
           decide)
        | (rw [decide_eq_false h1, decide_eq_false h2, decide_eq_false h3, decide_eq_false h4]
           decide)
  refine ⟨hU, hI, hF, hB, hN, hC, ?_, ?_, ?_, ?_⟩
  · intro h hy hz
    have h1 := hU.mp h
    simp only at hy hz ⊢
    rcases abs_cases x with ⟨e1, _⟩ | ⟨e1, _⟩ <;> rcases abs_cases y with ⟨e2, _⟩ | ⟨e2, _⟩ <;>
      rcases abs_cases z with ⟨e3, _⟩ | ⟨e3, _⟩ <;> rw [e1, e2, e3] <;> constructor <;> omega
  · intro h hy hz
    have h1 := hI.mp h
    simp only at hy hz ⊢
    rcases abs_cases x with ⟨e1, _⟩ | ⟨e1, _⟩ <;> rcases abs_cases y with ⟨e2, _⟩ | ⟨e2, _⟩ <;>
      rcases abs_cases z with ⟨e3, _⟩ | ⟨e3, _⟩ <;> rw [e1, e2, e3] <;> constructor <;> omega
  · intro h hy hz
    have h1 := (hF.mp h).1
    simp only at hy hz ⊢
    rcases abs_cases x with ⟨e1, _⟩ | ⟨e1, _⟩ <;> rcases abs_cases y with ⟨e2, _⟩ | ⟨e2, _⟩ <;>
      rcases abs_cases z with ⟨e3, _⟩ | ⟨e3, _⟩ <;> rw [e1, e2, e3] <;> constructor <;> omega
  · intro h hy hz
    have h1 := (hB.mp h).1
    simp only at hy hz ⊢
    rcases abs_cases x with ⟨e1, _⟩ | ⟨e1, _⟩ <;> rcases abs_cases y with ⟨e2, _⟩ | ⟨e2, _⟩ <;>
      rcases abs_cases z with ⟨e3, _⟩ | ⟨e3, _⟩ <;> rw [e1, e2, e3] <;> constructor <;> omega

/-- What one call of `gps_mgr_rxcb` on a line does to the callback list and to `commOk`. -/
theorem gps_mgr_rxcb_step (mm : Minmea) (now : Nat) (g : GpsCtx) (line : List Nat)
    (junk : gps_data_t) :
    ∃ g1 added, gps_mgr_rxcb mm now g (some line) junk = some g1 ∧
      g1.cbs = g.cbs ++ added ∧ g1.cbfn = g.cbfn ∧
      ((added = [] ∧ (g.cbfn ≠ none → g1.commOk = g.commOk)) ∨ ∃ fn, g.cbfn = some fn ∧
        ((added = [(fn, .GPS_NEWFIX)] ∧ g1.commOk = g.commOk ∧
            10 ≤ (cstr line).length ∧ (parseNEMA mm line junk).1 = true ∧
            0 < (parseNEMA mm line junk).2.prec) ∨
         (added = [(fn, .GPS_COMM_OK)] ∧ g.commOk = false ∧ g1.commOk = true ∧
            10 ≤ (cstr line).length ∧ (parseNEMA mm line junk).1 = true ∧
            (parseNEMA mm line junk).2.prec ≤ 0) ∨
         (added = [(fn, .GPS_COMM_FAIL)] ∧ g.commOk = true ∧ g1.commOk = false ∧
            10 ≤ (cstr line).length ∧ (parseNEMA mm line junk).1 = false))) ∧
      (10 ≤ (cstr line).length → (parseNEMA mm line junk).1 = true →
        0 < (parseNEMA mm line junk).2.prec →
        g1.commOk = g.commOk ∧ ∀ fn, g.cbfn = some fn → added = [(fn, .GPS_NEWFIX)]) := by
  obtain ⟨gd, cb, ok, cbs⟩ := g
  by_cases hlen : strnlen line 10 < 10
  · have hl : ¬ 10 ≤ (cstr line).length := by
      simp only [strnlen] at hlen
      omega
    refine ⟨_, [], by simp [gps_mgr_rxcb, hlen], by simp, rfl, Or.inl ⟨rfl, fun _ => rfl⟩,
      fun h => absurd h hl⟩
  · have hl : 10 ≤ (cstr line).length := by
      simp only [strnlen] at hlen
      omega
    rcases hp : parseNEMA mm line junk with ⟨b, nd⟩
    cases b <;> cases ok <;> cases cb <;> by_cases hprec : 0 < nd.prec <;>
      simp [gps_mgr_rxcb, hlen, hp, gpsCallback, hprec, hl]
    all_goals omega

theorem alternates_append_newfix (ok : Bool) (l : List GpsEvent) :
    alternates ok (.GPS_NEWFIX :: l) = alternates ok l := by
  cases ok <;> rfl

/-- The comm reports added by a run of `gps_mgr_rxcb` calls alternate, starting
from the value of `commOk`, when a callback is set; none is added otherwise. -/
theorem gps_rx_run_alternates (mm : Minmea) :
    ∀ (lines : List (Nat × List Nat × gps_data_t)) (g : GpsCtx),
    ∃ g2 added, gps_rx_run mm g lines = some g2 ∧ g2.cbs = g.cbs ++ added ∧
      g2.cbfn = g.cbfn ∧
      (g.cbfn = none → added = []) ∧
      (g.cbfn ≠ none → alternates g.commOk (commReports added) = true) := by
  intro lines
  induction lines with
  | nil =>
    intro g
    exact ⟨g, [], rfl, by simp, rfl, fun _ => rfl, fun _ => rfl⟩
  | cons x rest ih =>
    intro g
    obtain ⟨now, line, junk⟩ := x
    obtain ⟨g1, a1, h1, hc1, hf1, hcase, _⟩ := gps_mgr_rxcb_step mm now g line junk
    obtain ⟨g2, a2, h2, hc2, hf2, hnone2, halt2⟩ := ih g1
    refine ⟨g2, a1 ++ a2, ?_, ?_, ?_, ?_, ?_⟩
    · simp only [gps_rx_run, h1, h2]
    · rw [hc2, hc1, List.append_assoc]
    · rw [hf2, hf1]
    · intro hn
      rw [hf1] at hnone2
      rcases hcase with ⟨h, _⟩ | ⟨fn, hfn, _⟩
      · rw [h, hnone2 hn]
        rfl
      · rw [hn] at hfn
        cases hfn
    · intro hn
      rw [hf1] at halt2
      have halt := halt2 hn
      rcases hcase with ⟨h, hok⟩ | ⟨fn, hfn, h | h | h⟩
      · rw [h, List.nil_append, ← hok hn]
        exact halt
      · obtain ⟨ha, hok, _⟩ := h
        rw [ha, ← hok]
        simpa [commReports] using halt
      · obtain ⟨ha, hok0, hok1, _⟩ := h
        rw [ha, hok0]
        rw [hok1] at halt
        simpa [commReports, alternates] using halt
      · obtain ⟨ha, hok0, hok1, _⟩ := h
        rw [ha, hok0]
        rw [hok1] at halt
        simpa [commReports, alternates] using halt

/-- C38: after gps_start (any callback, also NULL; the socket opened), for
every sequence of lines delivered to gps_mgr_rxcb, with any minmea oracle: every
call returns, the callbacks invoked since the start, GPS_NEWFIX left aside,
strictly alternate and the first of them is GPS_COMM_OK. For every single call
in any context: at most one callback is invoked; GPS_COMM_FAIL only for a line
of length >= 10 that parseNEMA rejects while commOk is true (commOk becomes
false); GPS_COMM_OK only for a line of length >= 10 that parseNEMA accepts with
prec <= 0 while commOk is false (commOk becomes true); and a line carrying a
fix (accepted with prec > 0) leaves commOk unchanged and reports GPS_NEWFIX
when a callback is set. -/
theorem gps_comm_reports_alternate (mm : Minmea) (g0 g1 : GpsCtx) (cbfn cnx : Option Nat)
    (lines : List (Nat × List Nat × gps_data_t))
    (hstart : gps_start g0 cbfn cnx = some g1) :
    (∃ g2 added, gps_rx_run mm g1 lines = some g2 ∧ g2.cbs = g1.cbs ++ added ∧
      alternates false (commReports added) = true) ∧
    (∀ (now : Nat) (g : GpsCtx) (line : List Nat) (junk : gps_data_t),
      ∃ g3 added, gps_mgr_rxcb mm now g (some line) junk = some g3 ∧
        g3.cbs = g.cbs ++ added ∧ g3.cbfn = g.cbfn ∧
        ((added = [] ∧ (g.cbfn ≠ none → g3.commOk = g.commOk)) ∨ ∃ fn, g.cbfn = some fn ∧
          ((added = [(fn, .GPS_NEWFIX)] ∧ g3.commOk = g.commOk ∧
              10 ≤ (cstr line).length ∧ (parseNEMA mm line junk).1 = true ∧
              0 < (parseNEMA mm line junk).2.prec) ∨
           (added = [(fn, .GPS_COMM_OK)] ∧ g.commOk = false ∧ g3.commOk = true ∧
              10 ≤ (cstr line).length ∧ (parseNEMA mm line junk).1 = true ∧
              (parseNEMA mm line junk).2.prec ≤ 0) ∨
           (added = [(fn, .GPS_COMM_FAIL)] ∧ g.commOk = true ∧ g3.commOk = false ∧
              10 ≤ (cstr line).length ∧ (parseNEMA mm line junk).1 = false))) ∧
        (10 ≤ (cstr line).length → (parseNEMA mm line junk).1 = true →
          0 < (parseNEMA mm line junk).2.prec →
          g3.commOk = g.commOk ∧ ∀ fn, g.cbfn = some fn → added = [(fn, .GPS_NEWFIX)])) := by
  refine ⟨?_, fun now g line junk => gps_mgr_rxcb_step mm now g line junk⟩
  have hok : g1.commOk = false := by
    cases cnx with
    | none => simp [gps_start] at hstart
    | some s =>
      simp only [gps_start, Option.some.injEq] at hstart
      rw [← hstart]
  obtain ⟨g2, added, h2, hc2, _, hnone, halt⟩ := gps_rx_run_alternates mm lines g1
  refine ⟨g2, added, h2, hc2, ?_⟩
  cases hcb : g1.cbfn with
  | none =>
    rw [hnone hcb]
    rfl
  | some fn =>
    have := halt (by rw [hcb]; simp)
    rw [hok] at this
    exact this

/-- A run for C38 with callback 7: a sentence without fix, a rejected line, a
GGA fix and again a sentence without fix give the reports GPS_COMM_OK,
GPS_COMM_FAIL, GPS_NEWFIX, GPS_COMM_OK. -/
theorem gps_comm_reports_alternate_witness :
    (gps_rx_run testOracle ⟨gpsData0, some 7, false, []⟩
      [(10, 36 :: List.replicate 9 88, gpsData0), (20, List.replicate 10 88, gpsData0),
       (30, 36 :: 71 :: List.replicate 8 88, gpsData0),
       (40, 36 :: List.replicate 9 88, gpsData0)]).map (fun g => g.cbs) =
      some [(7, .GPS_COMM_OK), (7, .GPS_COMM_FAIL), (7, .GPS_NEWFIX), (7, .GPS_COMM_OK)] ∧
    ∃ g2 added, gps_rx_run testOracle ⟨gpsData0, some 7, false, []⟩
      [(10, 36 :: List.replicate 9 88, gpsData0), (20, List.replicate 10 88, gpsData0),
       (30, 36 :: 71 :: List.replicate 8 88, gpsData0),
       (40, 36 :: List.replicate 9 88, gpsData0)] = some g2 ∧
      g2.cbs = [] ++ added ∧ alternates false (commReports added) = true :=
  ⟨by decide, (gps_comm_reports_alternate testOracle ⟨gpsData0, none, true, []⟩
    ⟨gpsData0, some 7, false, []⟩ (some 7) (some 0) _ rfl).1⟩

/-- C34 fails on the code. A run of the created machine (power pin 5, UART
device "a"), with the queue kept in FIFO order: turn-on is sent and processed
with wskt_open returning socket 0 (WaitPowerOn, countdown of 500 armed);
turn-off is sent and processed (Off, socket closed, the countdown still
armed); turn-on is sent again, the countdown expires (TIMEOUT queued behind
turn-on), and turn-on is processed with wskt_open returning NULL: the machine
is in WaitPowerOn without a socket and its queue holds TIMEOUT, then the
ME_BLE_UART_NOK it posted to itself. Processing TIMEOUT passes the NULL socket
to wskt_ioctl, whose assert stops the run. -/
theorem ble_timeout_after_failed_open_aborts :
    bleuart_line_comm_create ⟨2, 3, 4⟩ ⟨none, fun _ => 0⟩ (bleSys0 (init ⟨2, 3, 4⟩)) 7 8
        (some [98]) (some [97]) 115200 115200 5 0 =
      .ret true sampleSys ∧
    (sm_exec_run
        (createdMachine sampleSys)
        [.send .ME_BLE_ON 0, .deliver ⟨some 0, fun _ => 0⟩,
         .send .ME_BLE_OFF 0, .deliver ⟨none, fun _ => 0⟩,
         .send .ME_BLE_ON 0, .expire, .deliver ⟨none, fun _ => 0⟩]).map
      (fun m => (m.current_state, m.w.ctx.uartSkt, m.w.posted, m.history)) =
      some (.MS_BLE_WAITPOWERON, none, [(.SM_TIMEOUT, 0), (.ME_BLE_UART_NOK, 0)],
        [.MS_BLE_OFF, .MS_BLE_WAITPOWERON, .MS_BLE_OFF, .MS_BLE_WAITPOWERON]) ∧
    (sm_exec_run
        (createdMachine sampleSys)
        [.send .ME_BLE_ON 0, .deliver ⟨some 0, fun _ => 0⟩,
         .send .ME_BLE_OFF 0, .deliver ⟨none, fun _ => 0⟩,
         .send .ME_BLE_ON 0, .expire, .deliver ⟨none, fun _ => 0⟩,
         .deliver ⟨none, fun _ => 0⟩]).isNone = true ∧
    (∀ (env : Env) (w : World) (data : Nat), w.ctx.uartSkt = none →
      State_WaitPoweron env w .SM_TIMEOUT data = .abort w) := by
  refine ⟨by decide, by decide, by decide, ?_⟩
  intro env w data h
  simp [State_WaitPoweron, waitPoweronTimeout, ioctlUart, h]

theorem effect_off (env : Env) (w : World) (e : SmEvent) (data : Nat) :
    HandlerEffect .MS_BLE_OFF env w e data := by
  refine ⟨(bleHandler .MS_BLE_OFF env w e data).world.log.drop w.log.length,
    (bleHandler .MS_BLE_OFF env w e data).world.posted.drop w.posted.length, ?_⟩
  cases e <;> cases hs : w.ctx.uartSkt <;> by_cases hp : 0 ≤ w.ctx.pwrPin <;>
    simp [bleHandler, HRes.world, State_Off, GPIO_write, closeUartSkt, callbacks, trackUart,
      hs, hp]

theorem effect_waitpoweron (env : Env) (w : World) (e : SmEvent) (data : Nat) :
    HandlerEffect .MS_BLE_WAITPOWERON env w e data := by
  refine ⟨(bleHandler .MS_BLE_WAITPOWERON env w e data).world.log.drop w.log.length,
    (bleHandler .MS_BLE_WAITPOWERON env w e data).world.posted.drop w.posted.length, ?_⟩
  cases e
  case SM_ENTER =>
    cases hd : w.ctx.uartDevice <;> cases ho : env.wskt_open <;> cases hs : w.ctx.uartSkt <;>
      by_cases hp : w.ctx.pwrPin < 0 <;>
      simp [bleHandler, HRes.world, State_WaitPoweron, sm_timer_start, sm_sendEvent, GPIO_write,
        callbacks, trackUart, hd, ho, hp, hs]
  case SM_TIMEOUT =>
    cases hs : w.ctx.uartSkt <;> by_cases hk : env.wskt_ioctl .IOCTL_CHECKTX = 0 <;>
      simp [bleHandler, HRes.world, State_WaitPoweron, waitPoweronTimeout, ioctlUart, callbacks,
        trackUart, hs, hk]
  case ME_BLE_UART_NOK =>
    cases hc : w.ctx.cbfn <;> cases hs : w.ctx.uartSkt <;>
      simp [bleHandler, HRes.world, State_WaitPoweron, callCbfn, callbacks, trackUart, hc, hs]
  all_goals
    cases hs : w.ctx.uartSkt <;>
      simp [bleHandler, HRes.world, State_WaitPoweron, callbacks, trackUart, hs]

theorem effect_starting (env : Env) (w : World) (e : SmEvent) (data : Nat) :
    HandlerEffect .MS_BLE_STARTING env w e data := by
  refine ⟨(bleHandler .MS_BLE_STARTING env w e data).world.log.drop w.log.length,
    (bleHandler .MS_BLE_STARTING env w e data).world.posted.drop w.posted.length, ?_⟩
  cases e
  case SM_TIMEOUT =>
    cases hc : w.ctx.cbfn <;> cases hs : w.ctx.uartSkt <;>
      simp [bleHandler, HRes.world, State_Starting, callCbfn, callbacks, trackUart, hc, hs]
  case ME_BLE_RET_INT =>
    cases hc : w.ctx.cbfn <;> cases hs : w.ctx.uartSkt <;>
      by_cases hv : data % 4294967296 = TYPE_SERIAL <;>
      simp [bleHandler, HRes.world, State_Starting, callCbfn, callbacks, trackUart, hc, hs, hv]
  all_goals
    cases hs : w.ctx.uartSkt <;>
      simp [bleHandler, HRes.world, State_Starting, writeUart, sm_timer_start, callbacks,
        trackUart, hs]

theorem effect_waittype (env : Env) (w : World) (e : SmEvent) (data : Nat) :
    HandlerEffect .MS_BLE_WAIT_TYPE_SERIAL env w e data := by
  refine ⟨(bleHandler .MS_BLE_WAIT_TYPE_SERIAL env w e data).world.log.drop w.log.length,
    (bleHandler .MS_BLE_WAIT_TYPE_SERIAL env w e data).world.posted.drop w.posted.length, ?_⟩
  cases e <;> cases hs : w.ctx.uartSkt <;>
    simp [bleHandler, HRes.world, State_WaitTypeSetSerial, writeUart, sm_timer_start, callbacks,
      trackUart, hs]

theorem effect_serial (env : Env) (w : World) (e : SmEvent) (data : Nat) :
    HandlerEffect .MS_BLE_SERIAL_RUNNING env w e data := by
  refine ⟨(bleHandler .MS_BLE_SERIAL_RUNNING env w e data).world.log.drop w.log.length,
    (bleHandler .MS_BLE_SERIAL_RUNNING env w e data).world.posted.drop w.posted.length, ?_⟩
  cases e <;> cases hs : w.ctx.uartSkt <;>
    simp [bleHandler, HRes.world, State_SerialRunning, callbacks, trackUart, hs]

theorem effect_stopping (env : Env) (w : World) (e : SmEvent) (data : Nat) :
    HandlerEffect .MS_BLE_STOPPINGCOMM env w e data := by
  refine ⟨(bleHandler .MS_BLE_STOPPINGCOMM env w e data).world.log.drop w.log.length,
    (bleHandler .MS_BLE_STOPPINGCOMM env w e data).world.posted.drop w.posted.length, ?_⟩
  cases e <;> cases hs : w.ctx.uartSkt <;> cases hc : w.ctx.cbfn <;>
    simp [bleHandler, HRes.world, State_StoppingComm, closeUartSkt, callCbfn, sm_timer_start,
      callbacks, trackUart, hs, hc]

/-- Every handler call has the effect described by `HandlerEffect`. -/
theorem handler_effect (s : BLEStates) (env : Env) (w : World) (e : SmEvent) (data : Nat) :
    HandlerEffect s env w e data := by
  cases s
  · exact effect_off env w e data
  · exact effect_waitpoweron env w e data
  · exact effect_starting env w e data
  · exact effect_waittype env w e data
  · exact effect_serial env w e data
  · exact effect_stopping env w e data

theorem sm_handler_bleHandler (s : BLEStates) : sm_handler _bleSM s = some (bleHandler s) := by
  cases s <;> rfl

theorem bleHandler_exit (s : BLEStates) (env : Env) (w : World) (data : Nat) :
    bleHandler s env w .SM_EXIT data = .ret .SM_STATE_CURRENT w := by
  cases s <;> rfl

theorem callbacks_append (l₁ l₂ : List Action) :
    callbacks (l₁ ++ l₂) = callbacks l₁ ++ callbacks l₂ := by
  simp [callbacks, List.filterMap_append]

theorem trackUart_append (l₁ l₂ : List Action) : ∀ b : Bool,
    trackUart b (l₁ ++ l₂) = (trackUart b l₁).bind (fun b1 => trackUart b1 l₂) := by
  induction l₁ with
  | nil => intro b; rfl
  | cons a rest ih =>
    intro b
    cases a <;> cases b <;> simp [trackUart, ih]

theorem trackUart_counts (l : List Action) : ∀ b b1 : Bool, trackUart b l = some b1 →
    uartOpens l + (if b then 1 else 0) = uartCloses l + (if b1 then 1 else 0) := by
  induction l with
  | nil =>
    intro b b1 h
    simp only [trackUart, Option.some.injEq] at h
    subst h
    simp [uartOpens, uartCloses]
  | cons a rest ih =>
    intro b b1 h
    cases a
    case wskt_open dn r =>
      cases b
      · simp only [trackUart] at h
        have := ih _ _ h
        cases r <;> simp [uartOpens, uartCloses] at this ⊢ <;> omega
      · simp [trackUart] at h
    case wskt_close sk =>
      cases b
      · simp [trackUart] at h
      · simp only [trackUart, if_true] at h
        have := ih _ _ h
        simp [uartOpens, uartCloses] at this ⊢
        omega
    all_goals
      simp only [trackUart] at h
      have := ih _ _ h
      simp [uartOpens, uartCloses] at this ⊢
      omega

theorem trackUart_prefix (p q : List Action) (b b1 : Bool) (h : trackUart b (p ++ q) = some b1) :
    ∃ b2, trackUart b p = some b2 := by
  rw [trackUart_append] at h
  cases hp : trackUart b p with
  | none => rw [hp] at h; simp at h
  | some b2 => exact ⟨b2, rfl⟩

theorem trackUart_before_open (p q : List Action) (dn : List Nat) (r : Option Nat) (b b1 : Bool)
    (h : trackUart b (p ++ Action.wskt_open dn r :: q) = some b1) :
    trackUart b p = some false := by
  rw [trackUart_append] at h
  cases hp : trackUart b p with
  | none => rw [hp] at h; simp at h
  | some b2 =>
    rw [hp] at h
    cases b2
    · rfl
    · simp [trackUart] at h

/-- A handler call keeps `WorldInv`; for ENTER of WaitPowerOn, provided no socket is held. -/
theorem worldInv_handler (s : BLEStates) (env : Env) (w : World) (e : SmEvent) (data : Nat)
    (hw : WorldInv w)
    (hpre : s = .MS_BLE_WAITPOWERON → e = .SM_ENTER → w.ctx.uartSkt = none) :
    WorldInv (bleHandler s env w e data).world := by
  obtain ⟨added, extra, hlog, hposted, hextra, hcb, hnocb, htrack, _⟩ :=
    handler_effect s env w e data
  refine ⟨?_, ?_, ?_, ?_⟩
  · rw [hlog, trackUart_append, hw.track]
    exact htrack hpre
  · intro x hx
    rw [hposted] at hx
    rcases List.mem_append.mp hx with h | h
    · exact hw.queue x h
    · rw [hextra x h]
      decide
  · rw [hcb, hw.cb]
  · rw [hlog, callbacks_append, hw.nocb, hnocb hw.cb]
    rfl

theorem worldInv_timer (w : World) (t : Option Nat) (hw : WorldInv w) :
    WorldInv { w with timer := t } :=
  ⟨hw.track, hw.queue, hw.cb, hw.nocb⟩

/-- Processing an event other than ENTER keeps the invariant of the instance. -/
theorem bleInv_process (env : Env) (m m1 : Machine) (e : SmEvent) (data : Nat)
    (hinv : BleInv m) (he : e ≠ .SM_ENTER) (h : sm_process env m e data = some m1) :
    BleInv m1 := by
  obtain ⟨htbl1, hoff1⟩ := off_inv_step env m m1 e data hinv.tbl hinv.off h
  refine ⟨htbl1, hoff1, ?_⟩
  have hw0 : WorldInv (if e = .SM_TIMEOUT then { m.w with timer := none } else m.w) := by
    split
    · exact worldInv_timer m.w none hinv.world
    · exact hinv.world
  have hskt0 : (if e = .SM_TIMEOUT then { m.w with timer := none } else m.w).ctx.uartSkt =
      m.w.ctx.uartSkt := by
    split <;> rfl
  rcases sm_process_cases env m m1 e data h with
    ⟨hd, w1, hhd, h1, hm⟩ | ⟨hd, next, w1, r2, w2, hd2, r3, w3, hhd, h1, h2, hhd2, h3, hm⟩
  · rw [hinv.tbl, sm_handler_bleHandler] at hhd
    injection hhd with hhd
    subst hhd
    subst hm
    have := worldInv_handler m.current_state env _ e data hw0 (fun _ h => absurd h he)
    rw [h1] at this
    exact this
  · rw [hinv.tbl, sm_handler_bleHandler] at hhd hhd2
    injection hhd with hhd
    injection hhd2 with hhd2
    subst hhd
    subst hhd2
    subst hm
    have hw1 := worldInv_handler m.current_state env _ e data hw0 (fun _ h => absurd h he)
    rw [h1] at hw1
    have e2 := bleHandler_exit m.current_state env w1 data
    rw [h2] at e2
    injection e2 with _ e2
    subst e2
    have hpre : next = .MS_BLE_WAITPOWERON → SmEvent.SM_ENTER = .SM_ENTER →
        w2.ctx.uartSkt = none := by
      intro hn _
      subst hn
      obtain ⟨_, _, _, _, _, _, _, _, hwp⟩ := handler_effect m.current_state env
        (if e = .SM_TIMEOUT then { m.w with timer := none } else m.w) e data
      obtain ⟨hs, hww⟩ := hwp w2 h1
      rw [hww, hskt0]
      exact hinv.off hs
    have hw3 := worldInv_handler next env w2 .SM_ENTER data hw1 hpre
    rw [h3] at hw3
    exact hw3

/-- Every allowed stimulus keeps the invariant of the instance. -/
theorem bleInv_step (m m1 : Machine) (x : Stimulus) (hinv : BleInv m)
    (hx : x.allowed = true) (h : sm_exec_step m x = some m1) : BleInv m1 := by
  cases x with
  | send e data =>
    simp only [sm_exec_step, Option.some.injEq] at h
    subst h
    have he : e ≠ .SM_ENTER := by
      intro he
      subst he
      simp [Stimulus.allowed] at hx
    refine ⟨hinv.tbl, hinv.off, ?_, ?_, hinv.world.cb, ?_⟩
    · simp only [sm_sendEvent]
      rw [trackUart_append, hinv.world.track]
      rfl
    · intro y hy
      simp only [sm_sendEvent, List.mem_append, List.mem_singleton] at hy
      rcases hy with hy | hy
      · exact hinv.world.queue y hy
      · rw [hy]
        exact he
    · simp only [sm_sendEvent]
      rw [callbacks_append, hinv.world.nocb]
      rfl
  | expire =>
    simp only [sm_exec_step] at h
    cases ht : m.w.timer with
    | none =>
      rw [ht] at h
      injection h with h
      subst h
      exact hinv
    | some t =>
      rw [ht] at h
      injection h with h
      subst h
      refine ⟨hinv.tbl, hinv.off, hinv.world.track, ?_, hinv.world.cb, hinv.world.nocb⟩
      intro y hy
      simp only [List.mem_append, List.mem_singleton] at hy
      rcases hy with hy | hy
      · exact hinv.world.queue y hy
      · rw [hy]
        decide
  | deliver env =>
    simp only [sm_exec_step] at h
    cases hq : m.w.posted with
    | nil =>
      rw [hq] at h
      injection h with h
      subst h
      exact hinv
    | cons y rest =>
      obtain ⟨e, data⟩ := y
      rw [hq] at h
      have he : e ≠ .SM_ENTER := hinv.world.queue (e, data) (by rw [hq]; simp)
      refine bleInv_process env _ m1 e data ?_ he h
      refine ⟨hinv.tbl, hinv.off, hinv.world.track, ?_, hinv.world.cb, hinv.world.nocb⟩
      intro z hz
      exact hinv.world.queue z (by rw [hq]; exact List.mem_cons_of_mem _ hz)

/-- Every run of allowed stimuli keeps the invariant of the instance. -/
theorem bleInv_run : ∀ (sts : List Stimulus) (m m1 : Machine), BleInv m →
    (∀ x ∈ sts, x.allowed = true) → sm_exec_run m sts = some m1 → BleInv m1 := by
  intro sts
  induction sts with
  | nil =>
    intro m m1 hinv _ h
    simp only [sm_exec_run, Option.some.injEq] at h
    subst h
    exact hinv
  | cons x rest ih =>
    intro m m1 hinv hall h
    simp only [sm_exec_run] at h
    cases hs : sm_exec_step m x with
    | none => rw [hs] at h; simp at h
    | some m2 =>
      rw [hs] at h
      exact ih m2 m1 (bleInv_step m m2 x hinv (hall x (by simp)) hs)
        (fun y hy => hall y (by simp [hy])) h

/-- The instance that `bleuart_line_comm_create` creates from the zeroed context
satisfies the invariant. -/
theorem bleInv_created (c : Config) (env : Env) (mgr : WsktMgr) (fnsAddr ctxAddr : Nat)
    (dname uartdname : Option (List Nat)) (baud baudrate : Nat) (pwrPin uartSelect : Int)
    (v : Bool) (s : BleSys)
    (h : bleuart_line_comm_create c env (bleSys0 mgr) fnsAddr ctxAddr dname uartdname baud
      baudrate pwrPin uartSelect = .ret v s) :
    BleInv (createdMachine s) := by
  have hw : s.w.ctx.uartSkt = none ∧ s.w.ctx.cbfn = none ∧ s.w.posted = [] ∧
      s.w.log = (if 0 ≤ pwrPin then [.GPIO_write pwrPin 1] else []) := by
    simp only [bleuart_line_comm_create, bleSys0, sm_start, sm_handler_bleSM,
      State_Off_enter] at h
    split at h
    · simp only [CreateRes.ret.injEq] at h
      obtain ⟨_, hs⟩ := h
      subst hs
      simp
    · cases h
    · cases h
  obtain ⟨h1, h2, h3, h4⟩ := hw
  refine ⟨rfl, fun _ => h1, ?_, ?_, h2, ?_⟩
  · simp only [createdMachine]
    rw [h4, h1]
    split <;> rfl
  · simp only [createdMachine]
    rw [h3]
    simp
  · simp only [createdMachine]
    rw [h4]
    split <;> rfl

/-- C35: with the executor of the spec, for every run of the instance that
bleuart_line_comm_create created from the zeroed context (events sent in any
order, ENTER and EXIT never sent by a caller; countdown expiries; deliveries
in FIFO order with any result of wskt_open), at every point the run reaches:
every wskt_open on the real UART (made only by ENTER of WaitPowerOn) happens
when as many sockets have been closed as were opened, so no held handle is
overwritten; in every initial part of the call log the number of successful
wskt_open calls minus the number of wskt_close calls is 0 or 1; and at the end
it is 1 exactly when the context holds a socket. -/
theorem ble_uart_open_close_balance (c : Config) (env0 : Env) (mgr : WsktMgr)
    (fnsAddr ctxAddr : Nat) (dname uartdname : Option (List Nat)) (baud baudrate : Nat)
    (pwrPin uartSelect : Int) (v : Bool) (s : BleSys) (sts : List Stimulus) (m : Machine)
    (hcreate : bleuart_line_comm_create c env0 (bleSys0 mgr) fnsAddr ctxAddr dname uartdname
      baud baudrate pwrPin uartSelect = .ret v s)
    (hallowed : ∀ x ∈ sts, x.allowed = true)
    (hrun : sm_exec_run (createdMachine s) sts = some m) :
    (∀ p dn r q, m.w.log = p ++ Action.wskt_open dn r :: q → uartOpens p = uartCloses p) ∧
    (∀ p q, m.w.log = p ++ q →
      uartOpens p = uartCloses p ∨ uartOpens p = uartCloses p + 1) ∧
    uartOpens m.w.log = uartCloses m.w.log + (if m.w.ctx.uartSkt = none then 0 else 1) := by
  have hinv := bleInv_run sts (createdMachine s) m
    (bleInv_created c env0 mgr fnsAddr ctxAddr dname uartdname baud baudrate pwrPin
      uartSelect v s hcreate) hallowed hrun
  have ht := hinv.world.track
  refine ⟨?_, ?_, ?_⟩
  · intro p dn r q hlog
    rw [hlog] at ht
    have := trackUart_counts p false false (trackUart_before_open p q dn r false _ ht)
    simpa using this
  · intro p q hlog
    rw [hlog] at ht
    obtain ⟨b2, hb2⟩ := trackUart_prefix p q false _ ht
    have := trackUart_counts p false b2 hb2
    cases b2
    · left
      simpa using this
    · right
      simpa using this
  · have := trackUart_counts m.w.log false _ ht
    cases hs : m.w.ctx.uartSkt <;> rw [hs] at this <;> simpa using this

/-- A run for C35: the created machine is turned on (socket 0 opened), turned
off (socket closed) and turned on again (socket 1 opened): two opens, one close. -/
theorem ble_uart_open_close_balance_witness :
    ∃ m, sm_exec_run (createdMachine sampleSys)
        [.send .ME_BLE_ON 0, .deliver ⟨some 0, fun _ => 0⟩, .send .ME_BLE_OFF 0,
         .deliver ⟨none, fun _ => 0⟩, .send .ME_BLE_ON 0, .deliver ⟨some 1, fun _ => 0⟩] =
        some m ∧
      uartOpens m.w.log = 2 ∧ uartCloses m.w.log = 1 ∧ m.w.ctx.uartSkt = some 1 ∧
      (∀ p dn r q, m.w.log = p ++ Action.wskt_open dn r :: q → uartOpens p = uartCloses p) :=
  ⟨_, rfl, rfl, rfl, rfl,
    (ble_uart_open_close_balance ⟨2, 3, 4⟩ ⟨none, fun _ => 0⟩ (init ⟨2, 3, 4⟩) 7 8 (some [98])
      (some [97]) 115200 115200 5 0 true sampleSys
      [.send .ME_BLE_ON 0, .deliver ⟨some 0, fun _ => 0⟩, .send .ME_BLE_OFF 0,
       .deliver ⟨none, fun _ => 0⟩, .send .ME_BLE_ON 0, .deliver ⟨some 1, fun _ => 0⟩]
      _ (by decide) (by decide) rfl).1⟩

/-- The state id a handler returns does not depend on the callback field. -/
theorem next_indep_cbfn (s : BLEStates) (env : Env) (w : World) (e : SmEvent) (data : Nat)
    (cb : Option Nat) :
    (bleHandler s env { w with ctx := { w.ctx with cbfn := cb } } e data).next =
      (bleHandler s env w e data).next := by
  cases s
  case MS_BLE_OFF =>
    cases e <;> simp [bleHandler, HRes.next, State_Off]
  case MS_BLE_WAITPOWERON =>
    cases e
    case SM_ENTER =>
      cases hd : w.ctx.uartDevice <;> cases ho : env.wskt_open <;>
        simp [bleHandler, HRes.next, State_WaitPoweron, hd, ho]
    case SM_TIMEOUT =>
      cases hs : w.ctx.uartSkt <;> by_cases hk : env.wskt_ioctl .IOCTL_CHECKTX = 0 <;>
        simp [bleHandler, HRes.next, State_WaitPoweron, waitPoweronTimeout, ioctlUart, hs, hk]
    all_goals simp [bleHandler, HRes.next, State_WaitPoweron]
  case MS_BLE_STARTING =>
    cases e
    case ME_BLE_RET_INT =>
      by_cases hv : data % 4294967296 = TYPE_SERIAL <;>
        simp [bleHandler, HRes.next, State_Starting, hv]
    all_goals
      cases hs : w.ctx.uartSkt <;>
        simp [bleHandler, HRes.next, State_Starting, writeUart, hs]
  case MS_BLE_WAIT_TYPE_SERIAL =>
    cases e <;> cases hs : w.ctx.uartSkt <;>
      simp [bleHandler, HRes.next, State_WaitTypeSetSerial, writeUart, sm_timer_start, hs]
  case MS_BLE_SERIAL_RUNNING =>
    cases e <;> simp [bleHandler, HRes.next, State_SerialRunning]
  case MS_BLE_STOPPINGCOMM =>
    cases e <;> simp [bleHandler, HRes.next, State_StoppingComm]

/-- The function `bleuart_line_comm_create` does not assign the callback field. -/
theorem create_keeps_cbfn (c : Config) (env : Env) (s0 : BleSys) (fnsAddr ctxAddr : Nat)
    (dname uartdname : Option (List Nat)) (baud baudrate : Nat) (pwrPin uartSelect : Int)
    (v : Bool) (s : BleSys)
    (h : bleuart_line_comm_create c env s0 fnsAddr ctxAddr dname uartdname baud baudrate
      pwrPin uartSelect = .ret v s) :
    s.w.ctx.cbfn = s0.w.ctx.cbfn := by
  unfold bleuart_line_comm_create at h
  split at h
  · split at h
    · cases h
    · split at h
      · injection h with _ hs
        rw [← hs]
      · cases h
  · simp only [sm_start, sm_handler_bleSM, State_Off_enter] at h
    split at h
    · simp only [CreateRes.ret.injEq] at h
      obtain ⟨_, hs⟩ := h
      rw [← hs]
    · cases h
    · cases h

/-- C37: no operation of wbleuart.c assigns the callback field. In the zeroed
context it is NULL; bleuart_line_comm_create keeps it, every state handler
keeps it (also when an assert stops the handler), and the device operations
open, ioctl, write and close and the receive callback leave the whole context
unchanged. With the field NULL no handler call adds a callback invocation to
the log, and the state id a handler returns is the same whatever the field
holds. Hence, with the executor of the spec, in every run of the machine that
bleuart_line_comm_create created from the zeroed context the field is NULL and
no WBLE_COMM_OK or WBLE_COMM_FAIL callback has been invoked. -/
theorem ble_callback_never_set :
    (∀ mgr : WsktMgr, (bleSys0 mgr).w.ctx.cbfn = none) ∧
    (∀ (c : Config) (env : Env) (s0 : BleSys) (fnsAddr ctxAddr : Nat)
      (dname uartdname : Option (List Nat)) (baud baudrate : Nat) (pwrPin uartSelect : Int)
      (v : Bool) (s : BleSys),
      bleuart_line_comm_create c env s0 fnsAddr ctxAddr dname uartdname baud baudrate pwrPin
        uartSelect = .ret v s → s.w.ctx.cbfn = s0.w.ctx.cbfn) ∧
    (∀ (s : BLEStates) (env : Env) (w : World) (e : SmEvent) (data : Nat),
      (bleHandler s env w e data).world.ctx.cbfn = w.ctx.cbfn) ∧
    (∀ (w : World) (data : List Nat) (sz : Nat) (cmd param : Int) (c : Config) (mgr : WsktMgr)
      (line : Option (List Nat)),
      (bleuart_line_open w).2.ctx = w.ctx ∧ (bleuart_line_ioctl w cmd param).2.ctx = w.ctx ∧
      (bleuart_line_write w data sz).2.ctx = w.ctx ∧
      (∀ r w1, bleuart_line_close c mgr w = some (r, w1) → w1.ctx = w.ctx) ∧
      (∀ w1, wbleuart_rxcb w line = some w1 → w1.ctx = w.ctx)) ∧
    (∀ (s : BLEStates) (env : Env) (w : World) (e : SmEvent) (data : Nat),
      w.ctx.cbfn = none → callbacks (bleHandler s env w e data).world.log = callbacks w.log) ∧
    (∀ (s : BLEStates) (env : Env) (w : World) (e : SmEvent) (data : Nat) (cb : Option Nat),
      (bleHandler s env { w with ctx := { w.ctx with cbfn := cb } } e data).next =
        (bleHandler s env w e data).next) ∧
    (∀ (c : Config) (env0 : Env) (mgr : WsktMgr) (fnsAddr ctxAddr : Nat)
      (dname uartdname : Option (List Nat)) (baud baudrate : Nat) (pwrPin uartSelect : Int)
      (v : Bool) (s : BleSys) (sts : List Stimulus) (m : Machine),
      bleuart_line_comm_create c env0 (bleSys0 mgr) fnsAddr ctxAddr dname uartdname baud
        baudrate pwrPin uartSelect = .ret v s →
      (∀ x ∈ sts, x.allowed = true) → sm_exec_run (createdMachine s) sts = some m →
      m.w.ctx.cbfn = none ∧ callbacks m.w.log = []) := by
  refine ⟨fun _ => rfl, create_keeps_cbfn, ?_, ?_, ?_, next_indep_cbfn, ?_⟩
  · intro s env w e data
    obtain ⟨_, _, _, _, _, hcb, _⟩ := handler_effect s env w e data
    exact hcb
  · intro w data sz cmd param c mgr line
    refine ⟨rfl, ?_, ?_, ?_, ?_⟩
    · simp only [bleuart_line_ioctl]
      split <;> rfl
    · simp only [bleuart_line_write]
      split <;> rfl
    · intro r w1 h
      simp only [bleuart_line_close] at h
      split at h
      · cases h
      · split at h
        · simp only [Option.some.injEq, Prod.mk.injEq] at h
          rw [← h.2]
          rfl
        · simp only [Option.some.injEq, Prod.mk.injEq] at h
          rw [← h.2]
    · intro w1 h
      cases line with
      | none => simp [wbleuart_rxcb] at h
      | some l =>
        simp only [wbleuart_rxcb, Option.some.injEq] at h
        rw [← h]
  · intro s env w e data hnone
    obtain ⟨added, _, hlog, _, _, _, hnocb, _⟩ := handler_effect s env w e data
    rw [hlog, callbacks_append, hnocb hnone, List.append_nil]
  · intro c env0 mgr fnsAddr ctxAddr dname uartdname baud baudrate pwrPin uartSelect v s sts m
      hcreate hallowed hrun
    have hinv := bleInv_run sts (createdMachine s) m
      (bleInv_created c env0 mgr fnsAddr ctxAddr dname uartdname baud baudrate pwrPin
        uartSelect v s hcreate) hallowed hrun
    exact ⟨hinv.world.cb, hinv.world.nocb⟩

/-- A run for C37: the created machine is turned on, its power-up countdown
expires and the module answers with the serial type: it reaches SerialRunning,
where a set callback would have been told WBLE_COMM_OK, and no callback has run. -/
theorem ble_callback_never_set_witness :
    ∃ m, sm_exec_run (createdMachine sampleSys)
        [.send .ME_BLE_ON 0, .deliver ⟨some 0, fun _ => 0⟩, .expire,
         .deliver ⟨none, fun _ => 0⟩, .send .ME_BLE_RET_INT 1,
         .deliver ⟨none, fun _ => 0⟩] = some m ∧
      m.current_state = .MS_BLE_SERIAL_RUNNING ∧ m.w.ctx.cbfn = none ∧
      callbacks m.w.log = [] :=
  ⟨_, rfl, rfl,
    ble_callback_never_set.2.2.2.2.2.2 ⟨2, 3, 4⟩ ⟨none, fun _ => 0⟩ (init ⟨2, 3, 4⟩) 7 8
      (some [98]) (some [97]) 115200 115200 5 0 true sampleSys
      [.send .ME_BLE_ON 0, .deliver ⟨some 0, fun _ => 0⟩, .expire,
       .deliver ⟨none, fun _ => 0⟩, .send .ME_BLE_RET_INT 1, .deliver ⟨none, fun _ => 0⟩]
      _ (by decide) (by decide) rfl⟩

end Wyres
